import Mathlib

/-!
# USB low-level driver of knxd (src/libserver/usblowlevel.cpp)

A shallow embedding of the endpoint matcher (check_device, detectUSBEndpoint) and of the
driver object USBLowLevelDriver (start, stop_, stop, send_Data, CompleteSend, send_Next,
CompleteReceive, StartUsbRecvTransfer, HandleReceiveUsb, do_send, setup).

Conventions of the embedding
* bytes and descriptor fields are natural numbers, filter values are integers (-1 = wildcard);
* a transfer handle (sendh, recvh) is modelled by a Boolean "is not null";
* every call that leaves the driver (libusb, the event loop, the upward collaborator, the
  base class) appends one Event to the trace field, in program order; the answer of a libusb
  call that can fail is taken from an oracle record Hw;
* calls into the upward collaborator do not re-enter the driver: what the collaborator does
  in reaction is a later operation of the run;
* logging (TRACEPRINTF, ERRORPRINTF, TracePacket) is left out;
* every assignment to the member state is recorded, as (old, new), in the ghost field moves;
* every successful libusb_submit_transfer adds one to a ghost counter of its direction and
  every completion callback delivered takes one off.
-/

namespace UsbLowLevel

/-! ## libusb constants -/

def LIBUSB_CLASS_HID : Nat := 3
def LIBUSB_ENDPOINT_IN : Nat := 0x80
def LIBUSB_TRANSFER_TYPE_MASK : Nat := 0x03
def LIBUSB_TRANSFER_TYPE_INTERRUPT : Nat := 3

/-! ## Descriptors as libusb hands them out -/

/-- One libusb_endpoint_descriptor. -/
structure EndpointDescriptor where
  bEndpointAddress : Nat
  bmAttributes : Nat
  wMaxPacketSize : Nat
deriving DecidableEq, Repr

/-- One libusb_interface_descriptor (an alternate setting); bNumEndpoints is the length of
endpoint. -/
structure InterfaceDescriptor where
  bInterfaceNumber : Nat
  bAlternateSetting : Nat
  bInterfaceClass : Nat
  endpoint : List EndpointDescriptor
deriving DecidableEq, Repr

/-- One libusb_interface; num_altsetting is the length of altsetting. -/
structure Interface where
  altsetting : List InterfaceDescriptor
deriving DecidableEq, Repr

/-- One libusb_config_descriptor; bNumInterfaces is the length of interface. -/
structure ConfigDescriptor where
  bConfigurationValue : Nat
  interface : List Interface
deriving DecidableEq, Repr

/-- A libusb_device as seen through the calls check_device makes on it: bus number, address,
whether libusb_get_device_descriptor succeeds, the answer of libusb_get_config_descriptor for
each index below bNumConfigurations (none = the call fails), whether libusb_open succeeds. -/
structure LibusbDevice where
  bus_number : Nat
  device_address : Nat
  descriptor_ok : Bool
  config : List (Option ConfigDescriptor)
  open_ok : Bool
deriving DecidableEq, Repr

/-- The endpoint filter (struct USBEndpoint); -1 is the wildcard. -/
structure USBEndpoint where
  bus : Int
  device : Int
  config : Int
  altsetting : Int
  interface : Int
deriving DecidableEq, Repr

/-- The device binding (struct USBDevice); dev = none is the null pointer. -/
structure USBDevice where
  dev : Option LibusbDevice
  config : Int
  altsetting : Int
  interface : Int
  sendep : Int
  recvep : Int
deriving DecidableEq, Repr

/-- The binding detectUSBEndpoint starts from: dev is null; the source leaves the other
fields unset, they are 0 here. -/
def USBDevice.unset : USBDevice :=
  { dev := none, config := 0, altsetting := 0, interface := 0, sendep := 0, recvep := 0 }

/-! ## check_device and detectUSBEndpoint -/

/-- Body of the loop over m (lines 93-108): io is the pair (in, out). -/
def scan_endpoint (io : Nat × Nat) (ep : EndpointDescriptor) : Nat × Nat :=
  if ep.wMaxPacketSize = 64 then
    if ep.bEndpointAddress &&& LIBUSB_ENDPOINT_IN ≠ 0 then
      if ep.bmAttributes &&& LIBUSB_TRANSFER_TYPE_MASK = LIBUSB_TRANSFER_TYPE_INTERRUPT then
        (ep.bEndpointAddress, io.2)
      else io
    else
      if ep.bmAttributes &&& LIBUSB_TRANSFER_TYPE_MASK = LIBUSB_TRANSFER_TYPE_INTERRUPT then
        (io.1, ep.bEndpointAddress)
      else io
  else io

/-- Lines 89-109: in = 0, out = 0, then the loop over the endpoints. -/
def scan_endpoints (eps : List EndpointDescriptor) : Nat × Nat :=
  eps.foldl scan_endpoint (0, 0)

/-- Body of the loop over l (lines 80-127) for one alternate setting: some e1 when the
function returns true here, none when the loop continues. -/
def check_alts (dev : LibusbDevice) (e : USBEndpoint) (cfg : ConfigDescriptor)
    (alts : InterfaceDescriptor) : Option USBDevice :=
  if alts.bInterfaceClass ≠ LIBUSB_CLASS_HID then none
  else if (alts.bAlternateSetting : Int) ≠ e.altsetting ∧ e.altsetting ≠ -1 then none
  else if (alts.bInterfaceNumber : Int) ≠ e.interface ∧ e.interface ≠ -1 then none
  else
    let io := scan_endpoints alts.endpoint
    if io.1 = 0 ∨ io.2 = 0 then none
    else if dev.open_ok then
      some { dev := some dev
             config := cfg.bConfigurationValue
             interface := alts.bInterfaceNumber
             altsetting := alts.bAlternateSetting
             sendep := io.2
             recvep := io.1 }
    else none

/-- The loop over l (line 78). -/
def check_altsettings (dev : LibusbDevice) (e : USBEndpoint) (cfg : ConfigDescriptor) :
    List InterfaceDescriptor → Option USBDevice
  | [] => none
  | alts :: rest =>
    match check_alts dev e cfg alts with
    | some e1 => some e1
    | none => check_altsettings dev e cfg rest

/-- The loop over k (line 75). -/
def check_interfaces (dev : LibusbDevice) (e : USBEndpoint) (cfg : ConfigDescriptor) :
    List Interface → Option USBDevice
  | [] => none
  | intf :: rest =>
    match check_altsettings dev e cfg intf.altsetting with
    | some e1 => some e1
    | none => check_interfaces dev e cfg rest

/-- The loop over j (line 65). -/
def check_configs (dev : LibusbDevice) (e : USBEndpoint) :
    List (Option ConfigDescriptor) → Option USBDevice
  | [] => none
  | none :: rest => check_configs dev e rest
  | some cfg :: rest =>
    if (cfg.bConfigurationValue : Int) ≠ e.config ∧ e.config ≠ -1 then
      check_configs dev e rest
    else
      match check_interfaces dev e cfg cfg.interface with
      | some e1 => some e1
      | none => check_configs dev e rest

/-- Function check_device (lines 42-133): the Boolean result and the value of e2 afterwards. -/
def check_device (dev : Option LibusbDevice) (e : USBEndpoint) (e2 : USBDevice) :
    Bool × USBDevice :=
  match dev with
  | none => (false, e2)
  | some dv =>
    if (dv.bus_number : Int) ≠ e.bus ∧ e.bus ≠ -1 then (false, e2)
    else if (dv.device_address : Int) ≠ e.device ∧ e.device ≠ -1 then (false, e2)
    else if !dv.descriptor_ok then (false, e2)
    else
      match check_configs dv e dv.config with
      | some e1 => (true, e1)
      | none => (false, e2)

/-- The loop over i of detectUSBEndpoint (lines 144-146). -/
def detect_loop (e : USBEndpoint) : List (Option LibusbDevice) → USBDevice → USBDevice
  | [], e2 => e2
  | dev :: rest, e2 =>
    let r := check_device dev e e2
    if r.1 then r.2 else detect_loop e rest r.2

/-- Function detectUSBEndpoint (lines 135-151); devs is the list libusb_get_device_list
returns (empty when the call fails). -/
def detectUSBEndpoint (devs : List (Option LibusbDevice)) (e : USBEndpoint) : USBDevice :=
  detect_loop e devs USBDevice.unset

/-! ## The driver object -/

/-- The member state: enum sNone (Idle), sStarted, sClaimed, sRunning, sConnected. -/
inductive State where
  | sNone | sStarted | sClaimed | sRunning | sConnected
deriving DecidableEq, Repr

/-- Position in the enum; the source compares states with the integer order. -/
def State.toNat : State → Nat
  | .sNone => 0
  | .sStarted => 1
  | .sClaimed => 2
  | .sRunning => 3
  | .sConnected => 4

/-- The values of libusb_transfer_status. -/
inductive Status where
  | COMPLETED | ERROR | TIMED_OUT | CANCELLED | STALL | NO_DEVICE | OVERFLOW
deriving DecidableEq, Repr

/-- One call that leaves the driver. A Boolean argument is the success of the call, a list
argument the bytes handed over. -/
inductive Event where
  | libusb_open (ok : Bool)
  | libusb_unref_device
  | libusb_detach_kernel_driver
  | libusb_set_configuration (ok : Bool)
  | libusb_claim_interface (ok : Bool)
  | libusb_set_interface_alt_setting (ok : Bool)
  | libusb_alloc_transfer (ok : Bool)
  | submit_recv (ok : Bool)
  | submit_send (frame : List Nat) (ok : Bool)
  | cancel_send
  | cancel_recv
  | free_send
  | free_recv
  | ev_run
  | libusb_release_interface
  | libusb_attach_kernel_driver
  | libusb_close
  | new_loop (ok : Bool)
  | delete_loop
  | recv_Data (frame : List Nat)
  | started
  | stopped
  | LowLevelDriver_stop
  | LowLevelDriver_send_Next
deriving DecidableEq, Repr

/-- Answers of the libusb calls one operation makes. -/
structure Hw where
  open_ok : Bool
  config_ok : Bool
  claim_ok : Bool
  altsetting_ok : Bool
  alloc_ok : Bool
  submit_ok : Bool
deriving DecidableEq, Repr

/-- Modelled from the spec: sizeof (sendbuf) and sizeof (recvbuf); the arrays are declared in
usblowlevel.h, which is not part of the sources; the spec fixes both at 64 bytes. -/
def BUFSIZE : Nat := 64

/-- The members of USBLowLevelDriver the code reads and writes, the state of the two
transfers inside libusb (flying = submitted and not yet completed, cancelling = cancel
requested while flying), and the ghost fields: trace, moves, and the numbers of send and of
receive transfers that were submitted with success and whose completion callback has not yet
been delivered. -/
structure Driver where
  state : State
  connection_state : Bool
  loop : Bool
  d : USBDevice
  sendh : Bool
  recvh : Bool
  out : List Nat
  sendbuf : List Nat
  recvbuf : List Nat
  send_flying : Bool
  recv_flying : Bool
  send_cancelling : Bool
  recv_cancelling : Bool
  trace : List Event
  moves : List (State × State)
  sends_in_flight : Nat
  recvs_in_flight : Nat
deriving DecidableEq, Repr

/-- A freshly constructed driver: reset () has run, nothing is allocated. -/
def Driver.init : Driver :=
  { state := .sNone, connection_state := false, loop := false, d := USBDevice.unset,
    sendh := false, recvh := false, out := [],
    sendbuf := List.replicate BUFSIZE 0, recvbuf := List.replicate BUFSIZE 0,
    send_flying := false, recv_flying := false,
    send_cancelling := false, recv_cancelling := false,
    trace := [], moves := [], sends_in_flight := 0, recvs_in_flight := 0 }

/-- Result of an operation: done d when it returns with the driver in d, spin d when the
drain loop of stop_ is still waiting in d after the given number of event-loop iterations. -/
inductive Outcome where
  | done (d : Driver)
  | spin (d : Driver)
deriving DecidableEq, Repr

def Outcome.driver : Outcome → Driver
  | .done d => d
  | .spin d => d

def Outcome.returned : Outcome → Bool
  | .done _ => true
  | .spin _ => false

/-- Sequencing: the rest of the code runs only when the first part returned. -/
def Outcome.andThen (o : Outcome) (f : Driver → Outcome) : Outcome :=
  match o with
  | .done d => f d
  | .spin d => .spin d

def emit (ev : Event) (d : Driver) : Driver :=
  { d with trace := d.trace ++ [ev] }

/-- The assignment state = s. -/
def assign (s : State) (d : Driver) : Driver :=
  { d with state := s, moves := d.moves ++ [(d.state, s)] }

/-- memset (buf, 0, n) on a buffer of n bytes. -/
def memset_zero (n : Nat) : List Nat := List.replicate n 0

/-- memcpy (dst, src, n): the first n bytes of dst are replaced by the first n bytes of src. -/
def memcpy (dst src : List Nat) (n : Nat) : List Nat :=
  src.take n ++ dst.drop n

/-- Function reset (lines 159-163). -/
def reset (d : Driver) : Driver := assign .sNone d

/-- The base-class method stopped (): the upward "stopped" notification. -/
def stopped (d : Driver) : Driver := emit .stopped d

/-- The base-class method started (): the upward "started" notification. -/
def started (d : Driver) : Driver := emit .started d

/-- Modelled from the spec: LowLevelDriver::start (), the base-class method called at line
382, is not part of the sources; by the spec (4.5) this call is the upward "started"
notification of the promotion to Connected. -/
def LowLevelDriver_start (d : Driver) : Driver := started d

/-- Modelled from the spec: LowLevelDriver::stop (), not part of the sources; by the spec (6)
the generic stop finalizer invoked after the local teardown. -/
def LowLevelDriver_stop (d : Driver) : Driver := emit .LowLevelDriver_stop d

/-- Modelled from the spec: LowLevelDriver::send_Next (), not part of the sources; by the spec
(6) the pull request to the upward collaborator for the next outbound frame. -/
def LowLevelDriver_send_Next (d : Driver) : Driver := emit .LowLevelDriver_send_Next d

/-- Function send_Next (lines 301-306). -/
def send_Next (d : Driver) : Driver :=
  LowLevelDriver_send_Next { d with out := [] }

/-- The guard of do_send (line 401) is false, that is, do_send goes on. -/
def do_send_guard (d : Driver) : Bool :=
  !(d.sendh || !d.connection_state || d.out.length == 0)

/-- The frame do_send builds in sendbuf (lines 405-407). -/
def build_frame (out : List Nat) : List Nat :=
  memcpy (memset_zero BUFSIZE) out (if out.length > BUFSIZE then BUFSIZE else out.length)

/-- Function do_send (lines 398-423). -/
def do_send (hw : Hw) (d : Driver) : Driver :=
  if d.sendh || !d.connection_state || d.out.length == 0 then d
  else
    let d := { d with sendbuf := build_frame d.out }
    let d := emit (.libusb_alloc_transfer hw.alloc_ok) { d with sendh := hw.alloc_ok }
    if !d.sendh then d
    else
      let d := emit (.submit_send d.sendbuf hw.submit_ok) d
      if !hw.submit_ok then d
      else { d with send_flying := true, send_cancelling := false,
                    sends_in_flight := d.sends_in_flight + 1 }

/-- Function send_Data (lines 259-270). -/
def send_Data (hw : Hw) (l : List Nat) (d : Driver) : Driver :=
  if d.out.length > 0 then stopped d
  else do_send hw { d with out := l }

/-- Function StartUsbRecvTransfer (lines 340-353). -/
def StartUsbRecvTransfer (hw : Hw) (d : Driver) : Driver :=
  let d := emit (.submit_recv hw.submit_ok) d
  if !hw.submit_ok then stopped d
  else { d with recv_flying := true, recv_cancelling := false,
                recvs_in_flight := d.recvs_in_flight + 1 }

def wanted : List Nat :=
  [0x01, 0x13, 0x0A, 0x00, 0x08, 0x00, 0x02, 0x0F, 0x04, 0x00, 0x00, 0x03]

/-- Function is_connection_state (lines 355-359): memcmp over sizeof (wanted) bytes. -/
def is_connection_state (recvbuf : List Nat) : Bool :=
  recvbuf.take wanted.length == wanted

/-- Function get_connection_state (lines 361-364). -/
def get_connection_state (recvbuf : List Nat) : Bool :=
  (recvbuf.getD 12 0) &&& 0x1 != 0

/-- libusb_cancel_transfer (sendh): a flying transfer is marked, otherwise the call fails
and nothing happens. -/
def cancel_send (d : Driver) : Driver :=
  emit .cancel_send { d with send_cancelling := d.send_flying }

/-- libusb_cancel_transfer (recvh). -/
def cancel_recv (d : Driver) : Driver :=
  emit .cancel_recv { d with recv_cancelling := d.recv_flying }

/-- Function stop_, the part before the drain loop (lines 225-230). -/
def stop_pre (d : Driver) : Driver :=
  let d := if d.sendh then cancel_send d else d
  let d := if d.recvh then cancel_recv d else d
  if State.sClaimed.toNat < d.state.toNat then assign .sClaimed d else d

/-- Function stop_, the part after the drain loop (lines 235-244). -/
def stop_post (d : Driver) : Driver :=
  let d := if State.sStarted.toNat < d.state.toNat then
      emit .libusb_attach_kernel_driver (emit .libusb_release_interface d) else d
  let d := if State.sNone.toNat < d.state.toNat then emit .libusb_close d else d
  let d := if d.loop then emit .delete_loop { d with loop := false } else d
  reset d

/-- Function stop_ (lines 221-245) over a given drain loop. -/
def stop_With (drain : Driver → Outcome) (d : Driver) : Outcome :=
  (drain (stop_pre d)).andThen fun d => .done (stop_post d)

/-- Function stop (lines 247-252) over a given drain loop. -/
def stopWith (drain : Driver → Outcome) (d : Driver) : Outcome :=
  (stop_With drain d).andThen fun d => .done (LowLevelDriver_stop d)

/-- Function CompleteSend (lines 285-299) over a given stop. -/
def CompleteSendWith (stop : Driver → Outcome) (status : Status) (d : Driver) : Outcome :=
  if status ≠ .COMPLETED then stop d
  else .done (send_Next { emit .free_send d with sendh := false })

/-- Function HandleReceiveUsb (lines 366-396) over a given stop. -/
def HandleReceiveUsbWith (stop : Driver → Outcome) (d : Driver) : Outcome :=
  let d := emit (.recv_Data d.recvbuf) d
  if !is_connection_state d.recvbuf then .done d
  else if get_connection_state d.recvbuf then
    if d.state = .sRunning then .done (LowLevelDriver_start (assign .sConnected d))
    else .done d
  else
    if d.state = .sConnected then stop (assign .sRunning d)
    else .done d

/-- Function CompleteReceive (lines 316-337) over a given stop. -/
def CompleteReceiveWith (stop : Driver → Outcome) (hw : Hw) (status : Status) (d : Driver) :
    Outcome :=
  if status ≠ .COMPLETED then .done { emit .free_recv d with recvh := false }
  else
    (HandleReceiveUsbWith stop d).andThen fun d =>
      if State.sRunning.toNat ≤ d.state.toNat then .done (StartUsbRecvTransfer hw d)
      else if d.recvh then .done { emit .free_recv d with recvh := false }
      else .done d

/-- Modelled from the spec: one call ev_run (EV_DEFAULT_ EVRUN_ONCE). The event loop is not
part of the sources; by the spec (5, and scenario 5) an iteration delivers the completion
callback of each cancelled transfer, with status CANCELLED, and a callback comes only for a
transfer that is in flight. -/
def ev_runWith (stop : Driver → Outcome) (hw : Hw) (d : Driver) : Outcome :=
  let d := emit .ev_run d
  (if d.send_flying && d.send_cancelling then
      CompleteSendWith stop .CANCELLED
        { d with send_flying := false, send_cancelling := false,
                 sends_in_flight := d.sends_in_flight - 1 }
    else .done d).andThen fun d =>
  if d.recv_flying && d.recv_cancelling then
    CompleteReceiveWith stop hw .CANCELLED
      { d with recv_flying := false, recv_cancelling := false,
               recvs_in_flight := d.recvs_in_flight - 1 }
  else .done d

/-- The drain loop of stop_ (lines 231-232), run for at most n iterations; a callback
delivered inside an iteration may call stop again, which drains with what is left. -/
def drain (hw : Hw) : Nat → Driver → Outcome
  | 0 => fun d => if d.sendh || d.recvh then .spin d else .done d
  | n + 1 => fun d =>
    if d.sendh || d.recvh then
      (ev_runWith (stopWith (drain hw n)) hw d).andThen (drain hw n)
    else .done d

/-- Function stop_ (lines 221-245). -/
def stop_ (hw : Hw) (n : Nat) (d : Driver) : Outcome := stop_With (drain hw n) d

/-- Function stop (lines 247-252). -/
def stop (hw : Hw) (n : Nat) (d : Driver) : Outcome := stopWith (drain hw n) d

/-- Function CompleteSend (lines 285-299). -/
def CompleteSend (hw : Hw) (n : Nat) (status : Status) (d : Driver) : Outcome :=
  CompleteSendWith (stop hw n) status d

/-- Function HandleReceiveUsb (lines 366-396). -/
def HandleReceiveUsb (hw : Hw) (n : Nat) (d : Driver) : Outcome :=
  HandleReceiveUsbWith (stop hw n) d

/-- Function CompleteReceive (lines 316-337). -/
def CompleteReceive (hw : Hw) (n : Nat) (status : Status) (d : Driver) : Outcome :=
  CompleteReceiveWith (stop hw n) hw status d

/-- Function start (lines 165-219). -/
def start (hw : Hw) (n : Nat) (d : Driver) : Outcome :=
  if State.sStarted.toNat ≤ d.state.toNat then .done d
  else if !d.loop then stop hw n d
  else
    let d := emit (.libusb_open hw.open_ok) d
    if !hw.open_ok then stop hw n d
    else
      let d := assign .sStarted (emit .libusb_unref_device d)
      let d := emit .libusb_detach_kernel_driver d
      let d := emit (.libusb_set_configuration hw.config_ok) d
      if !hw.config_ok then stop hw n d
      else
        let d := emit (.libusb_claim_interface hw.claim_ok) d
        if !hw.claim_ok then stop hw n d
        else
          let d := emit (.libusb_set_interface_alt_setting hw.altsetting_ok) d
          if !hw.altsetting_ok then stop hw n d
          else
            let d := { assign .sClaimed d with connection_state := true }
            let d := emit (.libusb_alloc_transfer hw.alloc_ok) { d with recvh := hw.alloc_ok }
            if !d.recvh then stop hw n d
            else
              let d := StartUsbRecvTransfer hw d
              let d := assign .sRunning d
              let d := send_Next d
              .done (started d)

/-- Function setup (lines 425-456); context_ok says whether the new USBLoop has a context,
devs is the device list libusb enumerates, e the filter parseUSBEndpoint reads. -/
def setup (hw : Hw) (n : Nat) (context_ok : Bool) (devs : List (Option LibusbDevice))
    (e : USBEndpoint) (d : Driver) : Outcome :=
  let d := emit (.new_loop context_ok) { d with loop := true }
  if !context_ok then stop_ hw n d
  else
    let d := { d with d := detectUSBEndpoint devs e }
    if d.d.dev = none then stop_ hw n d
    else .done d

/-- The operations on a driver: the public methods and the two completion callbacks as the
event loop delivers them outside of stop_. -/
inductive Op where
  | setup (context_ok : Bool) (devs : List (Option LibusbDevice)) (e : USBEndpoint)
  | start
  | stop
  | send_Data (l : List Nat)
  | send_done (status : Status)
  | recv_done (status : Status) (frame : List Nat)
deriving DecidableEq, Repr

/-- One operation. A completion is delivered only for a transfer in flight; the hardware
has written the received bytes to recvbuf before the receive callback runs. -/
def step (hw : Hw) (n : Nat) : Op → Driver → Outcome
  | .setup context_ok devs e, d => setup hw n context_ok devs e d
  | .start, d => start hw n d
  | .stop, d => stop hw n d
  | .send_Data l, d => .done (send_Data hw l d)
  | .send_done status, d =>
    if d.send_flying then
      CompleteSend hw n status
        { d with send_flying := false, send_cancelling := false,
                 sends_in_flight := d.sends_in_flight - 1 }
    else .done d
  | .recv_done status frame, d =>
    if d.recv_flying then
      CompleteReceive hw n status
        { d with recv_flying := false, recv_cancelling := false,
                 recvs_in_flight := d.recvs_in_flight - 1,
                 recvbuf := memcpy d.recvbuf frame (min frame.length BUFSIZE) }
    else .done d

/-- A run: each operation comes with the answers of the hardware and the number of
event-loop iterations granted to it; a run ends where an operation does not return. -/
def run : List (Hw × Nat × Op) → Driver → Outcome
  | [], d => .done d
  | (hw, n, op) :: rest, d => (step hw n op d).andThen (run rest)

/-! ## Vocabulary of the properties -/

/-- Number of calls libusb_submit_transfer (sendh) in a trace. -/
def send_submits (t : List Event) : Nat :=
  t.countP fun ev => match ev with
    | .submit_send _ _ => true
    | _ => false

/-- The trace of d2 extends the trace of d1 by events that all satisfy P. -/
def TraceExt (P : Event → Prop) (d1 d2 : Driver) : Prop :=
  ∃ tr, d2.trace = d1.trace ++ tr ∧ ∀ ev ∈ tr, P ev

/-- The event is not a delivery to master->recv_Data. -/
def no_delivery (ev : Event) : Prop := ∀ f, ev ≠ Event.recv_Data f

/-- The state changes the specification lists: the startup chain, the two heartbeat moves and
the reset to Idle. -/
def listed_move : State → State → Bool
  | .sNone, .sStarted => true
  | .sStarted, .sClaimed => true
  | .sClaimed, .sRunning => true
  | .sRunning, .sConnected => true
  | .sConnected, .sRunning => true
  | _, .sNone => true
  | _, _ => false

/-- The state changes the code makes: the listed ones and the demotion of Running or
Connected to Claimed at the head of stop_ (lines 229-230). -/
def legal_move (a b : State) : Bool :=
  listed_move a b || (b == .sClaimed && (a == .sRunning || a == .sConnected))

/-- The list mv is a chain of moves from s to t, each one allowed by R. -/
def Trail (R : State → State → Bool) : State → List (State × State) → State → Prop
  | s, [], t => s = t
  | s, m :: rest, t => m.1 = s ∧ R m.1 m.2 = true ∧ Trail R m.2 rest t

/-- From d1 to d2 the state went through a chain of legal moves, all of them recorded. -/
def MoveExt (d1 d2 : Driver) : Prop :=
  ∃ mv, d2.moves = d1.moves ++ mv ∧ Trail legal_move d1.state mv d2.state

/-! ## The endpoint matcher in the words of the specification -/

/-- The filter value accepts the descriptor value: equal, or the wildcard -1. -/
def filter_ok (value : Nat) (filter : Int) : Prop := (value : Int) = filter ∨ filter = -1

instance (value : Nat) (filter : Int) : Decidable (filter_ok value filter) := by
  unfold filter_ok; infer_instance

/-- An IN endpoint of interrupt type with wMaxPacketSize exactly 64. -/
def qualifying_in (ep : EndpointDescriptor) : Prop :=
  ep.wMaxPacketSize = 64 ∧ ep.bEndpointAddress &&& LIBUSB_ENDPOINT_IN ≠ 0 ∧
  ep.bmAttributes &&& LIBUSB_TRANSFER_TYPE_MASK = LIBUSB_TRANSFER_TYPE_INTERRUPT

instance : DecidablePred qualifying_in := fun ep => by
  unfold qualifying_in; infer_instance

/-- An OUT endpoint (IN bit clear) of interrupt type with wMaxPacketSize exactly 64. -/
def qualifying_out (ep : EndpointDescriptor) : Prop :=
  ep.wMaxPacketSize = 64 ∧ ep.bEndpointAddress &&& LIBUSB_ENDPOINT_IN = 0 ∧
  ep.bmAttributes &&& LIBUSB_TRANSFER_TYPE_MASK = LIBUSB_TRANSFER_TYPE_INTERRUPT

instance : DecidablePred qualifying_out := fun ep => by
  unfold qualifying_out; infer_instance

/-- Address of the last endpoint, in descriptor order, that satisfies p; 0 when none does. -/
def last_address (p : EndpointDescriptor → Prop) [DecidablePred p]
    (eps : List EndpointDescriptor) : Nat :=
  match (eps.filter fun ep => decide (p ep)).getLast? with
  | some ep => ep.bEndpointAddress
  | none => 0

/-- The device passes the filter, its descriptor can be read and it can be opened. -/
def dev_ok (e : USBEndpoint) (dv : LibusbDevice) : Prop :=
  filter_ok dv.bus_number e.bus ∧ filter_ok dv.device_address e.device ∧
  dv.descriptor_ok = true ∧ dv.open_ok = true

instance (e : USBEndpoint) (dv : LibusbDevice) : Decidable (dev_ok e dv) := by
  unfold dev_ok; infer_instance

/-- The configuration passes the filter. -/
def cfg_ok (e : USBEndpoint) (cfg : ConfigDescriptor) : Prop :=
  filter_ok cfg.bConfigurationValue e.config

instance (e : USBEndpoint) (cfg : ConfigDescriptor) : Decidable (cfg_ok e cfg) := by
  unfold cfg_ok; infer_instance

/-- The alternate setting as the claim words it: HID class, passes the filter, exposes a
qualifying IN and a qualifying OUT endpoint. -/
def alt_qualifies (e : USBEndpoint) (alts : InterfaceDescriptor) : Prop :=
  alts.bInterfaceClass = LIBUSB_CLASS_HID ∧
  filter_ok alts.bAlternateSetting e.altsetting ∧ filter_ok alts.bInterfaceNumber e.interface ∧
  (∃ ep ∈ alts.endpoint, qualifying_in ep) ∧ (∃ ep ∈ alts.endpoint, qualifying_out ep)

instance (e : USBEndpoint) (alts : InterfaceDescriptor) : Decidable (alt_qualifies e alts) := by
  unfold alt_qualifies; infer_instance

/-- The alternate setting as the code accepts it: as alt_qualifies, and the last qualifying
OUT endpoint has an address other than 0. -/
def alt_ok (e : USBEndpoint) (alts : InterfaceDescriptor) : Prop :=
  alts.bInterfaceClass = LIBUSB_CLASS_HID ∧
  filter_ok alts.bAlternateSetting e.altsetting ∧ filter_ok alts.bInterfaceNumber e.interface ∧
  (∃ ep ∈ alts.endpoint, qualifying_in ep) ∧ last_address qualifying_out alts.endpoint ≠ 0

instance (e : USBEndpoint) (alts : InterfaceDescriptor) : Decidable (alt_ok e alts) := by
  unfold alt_ok; infer_instance

/-- The combination (i, j, k, l) of the enumeration: device i, its configuration j, interface
k of that, alternate setting l of that. -/
def At (devs : List (Option LibusbDevice)) (i j k l : Nat)
    (dv : LibusbDevice) (cfg : ConfigDescriptor) (alts : InterfaceDescriptor) : Prop :=
  ∃ intf : Interface, devs[i]? = some (some dv) ∧ dv.config[j]? = some (some cfg) ∧
    cfg.interface[k]? = some intf ∧ intf.altsetting[l]? = some alts

/-- Lexicographic order on (device, configuration, interface, alternate setting) indices. -/
def lex_lt (a b : Nat × Nat × Nat × Nat) : Prop :=
  a.1 < b.1 ∨ (a.1 = b.1 ∧ (a.2.1 < b.2.1 ∨ (a.2.1 = b.2.1 ∧
    (a.2.2.1 < b.2.2.1 ∨ (a.2.2.1 = b.2.2.1 ∧ a.2.2.2 < b.2.2.2)))))

/-- The combination passes the filter and is accepted by the code. -/
def Selectable (e : USBEndpoint) (dv : LibusbDevice) (cfg : ConfigDescriptor)
    (alts : InterfaceDescriptor) : Prop :=
  dev_ok e dv ∧ cfg_ok e cfg ∧ alt_ok e alts

instance (e : USBEndpoint) (dv : LibusbDevice) (cfg : ConfigDescriptor)
    (alts : InterfaceDescriptor) : Decidable (Selectable e dv cfg alts) := by
  unfold Selectable; infer_instance

/-- The combination qualifies in the words of the claim. -/
def Qualifies (e : USBEndpoint) (dv : LibusbDevice) (cfg : ConfigDescriptor)
    (alts : InterfaceDescriptor) : Prop :=
  dev_ok e dv ∧ cfg_ok e cfg ∧ alt_qualifies e alts

instance (e : USBEndpoint) (dv : LibusbDevice) (cfg : ConfigDescriptor)
    (alts : InterfaceDescriptor) : Decidable (Qualifies e dv cfg alts) := by
  unfold Qualifies; infer_instance

/-- The binding of a combination. -/
def binding_of (dv : LibusbDevice) (cfg : ConfigDescriptor) (alts : InterfaceDescriptor) :
    USBDevice :=
  { dev := some dv
    config := cfg.bConfigurationValue
    interface := alts.bInterfaceNumber
    altsetting := alts.bAlternateSetting
    sendep := last_address qualifying_out alts.endpoint
    recvep := last_address qualifying_in alts.endpoint }

/-- What one pass of the loop over j yields for one configuration slot. -/
def check_config (dv : LibusbDevice) (e : USBEndpoint) (oc : Option ConfigDescriptor) :
    Option USBDevice :=
  match oc with
  | none => none
  | some cfg => if cfg_ok e cfg then check_interfaces dv e cfg cfg.interface else none

/-- What one pass of the loop over i yields for one entry of the device list. -/
def check_entry (e : USBEndpoint) (od : Option LibusbDevice) : Option USBDevice :=
  match od with
  | none => none
  | some dv =>
    if filter_ok dv.bus_number e.bus ∧ filter_ok dv.device_address e.device ∧
        dv.descriptor_ok = true then
      check_configs dv e dv.config
    else none

/-! ## Concrete inputs -/

/-- Every libusb call succeeds. -/
def hw_ok : Hw :=
  { open_ok := true, config_ok := true, claim_ok := true, altsetting_ok := true,
    alloc_ok := true, submit_ok := true }

/-- Every libusb call succeeds except libusb_submit_transfer. -/
def hw_no_submit : Hw := { hw_ok with submit_ok := false }

/-- The filter with all five values left at the wildcard. -/
def any_filter : USBEndpoint :=
  { bus := -1, device := -1, config := -1, altsetting := -1, interface := -1 }

/-- A HID alternate setting with a 64-byte interrupt IN endpoint 0x81 and a 64-byte interrupt
OUT endpoint 0x01. -/
def knx_alts : InterfaceDescriptor :=
  { bInterfaceNumber := 0, bAlternateSetting := 0, bInterfaceClass := 3,
    endpoint := [{ bEndpointAddress := 0x81, bmAttributes := 3, wMaxPacketSize := 64 },
                 { bEndpointAddress := 0x01, bmAttributes := 3, wMaxPacketSize := 64 }] }

/-- A configuration with the single interface knx_alts. -/
def knx_config : ConfigDescriptor :=
  { bConfigurationValue := 1, interface := [{ altsetting := [knx_alts] }] }

/-- A KNX USB interface on bus 1, address 4. -/
def knx_device : LibusbDevice :=
  { bus_number := 1, device_address := 4, descriptor_ok := true,
    config := [some knx_config], open_ok := true }

/-- As knx_alts, but the OUT endpoint descriptor carries the address 0x00. -/
def odd_alts : InterfaceDescriptor :=
  { bInterfaceNumber := 0, bAlternateSetting := 0, bInterfaceClass := 3,
    endpoint := [{ bEndpointAddress := 0x81, bmAttributes := 3, wMaxPacketSize := 64 },
                 { bEndpointAddress := 0x00, bmAttributes := 3, wMaxPacketSize := 64 }] }

/-- A configuration with the single interface odd_alts. -/
def odd_config : ConfigDescriptor :=
  { bConfigurationValue := 1, interface := [{ altsetting := [odd_alts] }] }

/-- A device whose only OUT endpoint descriptor has the address 0x00. -/
def odd_device : LibusbDevice :=
  { bus_number := 1, device_address := 5, descriptor_ok := true,
    config := [some odd_config], open_ok := true }

/-- A fresh driver after setup () found knx_device and start () succeeded. -/
def running_driver : Driver :=
  (run [(hw_ok, 1, Op.setup true [some knx_device] any_filter), (hw_ok, 1, Op.start)]
    Driver.init).driver

/-- A 64-byte connection-status report with bit 0 of byte 12 set. -/
def frame_connected : List Nat := wanted ++ [0x01] ++ List.replicate 51 0

/-- A 64-byte connection-status report with bit 0 of byte 12 clear. -/
def frame_disconnected : List Nat := wanted ++ [0x00] ++ List.replicate 51 0

/-- The running driver after it received frame_connected. -/
def connected_driver : Driver :=
  (step hw_ok 1 (Op.recv_done Status.COMPLETED frame_connected) running_driver).driver

/-- A payload of ten bytes. -/
def ten_bytes : List Nat := [0x11, 0x22, 0x33, 0x44, 0x55, 0x66, 0x77, 0x88, 0x99, 0xAA]

/-- The running driver with ten_bytes pending in out. -/
def pending_driver : Driver := { running_driver with out := ten_bytes }

/-- The running driver after send_Data (ten_bytes): the payload is pending, its transfer
is in flight. -/
def sending_driver : Driver := send_Data hw_ok ten_bytes running_driver

/-- The running driver at the entry of the receive callback, frame_connected in recvbuf. -/
def promote_driver : Driver :=
  { running_driver with recv_flying := false, recvs_in_flight := 0,
                        recvbuf := frame_connected }

/-- The connected driver at the entry of the receive callback, frame_disconnected in
recvbuf. -/
def demote_driver : Driver :=
  { connected_driver with recv_flying := false, recvs_in_flight := 0,
                          recvbuf := frame_disconnected }

/-- A fresh driver after a successful setup (). -/
def ready_driver : Driver :=
  (setup hw_ok 1 true [some knx_device] any_filter Driver.init).driver

/-- The binding of knx_device. -/
def knx_binding : USBDevice :=
  { dev := some knx_device, config := 1, altsetting := 0, interface := 0,
    sendep := 0x01, recvep := 0x81 }

/-- A run: setup, start, the heartbeat reports "connected", stop. -/
def demo_ops : List (Hw × Nat × Op) :=
  [(hw_ok, 1, Op.setup true [some knx_device] any_filter), (hw_ok, 1, Op.start),
   (hw_ok, 1, Op.recv_done Status.COMPLETED frame_connected), (hw_ok, 1, Op.stop)]

/-- A run: setup, start, the heartbeat reports "connected". -/
def connect_ops : List (Hw × Nat × Op) :=
  [(hw_ok, 1, Op.setup true [some knx_device] any_filter), (hw_ok, 1, Op.start),
   (hw_ok, 1, Op.recv_done Status.COMPLETED frame_connected)]

/-- The run connect_ops, then the heartbeat reports "disconnected"; this last operation is
followed for 7 iterations of the event loop. -/
def disconnect_ops : List (Hw × Nat × Op) :=
  connect_ops ++ [(hw_ok, 7, Op.recv_done Status.COMPLETED frame_disconnected)]

/-- A run: setup, start, stop. -/
def stop_ops : List (Hw × Nat × Op) :=
  [(hw_ok, 1, Op.setup true [some knx_device] any_filter), (hw_ok, 1, Op.start),
   (hw_ok, 1, Op.stop)]

/-- Every libusb call succeeds except libusb_set_interface_alt_setting. -/
def hw_no_alt : Hw := { hw_ok with altsetting_ok := false }

/-- The calls the teardown sequence makes, in stop_ itself and in the callbacks its drain loop
runs. -/
def teardown_event : Event → Bool
  | .cancel_send => true
  | .cancel_recv => true
  | .ev_run => true
  | .free_recv => true
  | .libusb_release_interface => true
  | .libusb_attach_kernel_driver => true
  | .libusb_close => true
  | .delete_loop => true
  | .LowLevelDriver_stop => true
  | _ => false

/-- Number of calls libusb_submit_transfer (recvh) in a trace. -/
def recv_submits (t : List Event) : Nat :=
  t.countP fun ev => match ev with
    | .submit_recv _ => true
    | _ => false

/-- Number of calls libusb_cancel_transfer (sendh) in a trace. -/
def send_cancels (t : List Event) : Nat := t.count Event.cancel_send

/-- The send slot is held by a transfer that is not in flight and a payload is pending. -/
def Stuck (d : Driver) : Prop := d.sendh = true ∧ d.send_flying = false ∧ d.out ≠ []

/-- The calls made while the drain loop of stop_ waits: cancel requests, event-loop
iterations and the release of a cancelled receive transfer. -/
def wait_event : Event → Bool
  | .cancel_send => true
  | .cancel_recv => true
  | .ev_run => true
  | .free_recv => true
  | _ => false

/-- The calls of a drain loop in which no callback releases a transfer: cancel requests
and event-loop iterations. -/
def poll_event : Event → Bool
  | .cancel_send => true
  | .cancel_recv => true
  | .ev_run => true
  | _ => false

/-- The ghost counters agree with the transfer flags (so each is at most one), a transfer in
flight has its handle set, and no receive transfer is in flight in state Idle. -/
def Inv (d : Driver) : Prop :=
  d.sends_in_flight = (if d.send_flying then 1 else 0) ∧
  d.recvs_in_flight = (if d.recv_flying then 1 else 0) ∧
  (d.send_flying = true → d.sendh = true) ∧
  (d.recv_flying = true → d.recvh = true) ∧
  (d.state = State.sNone → d.recv_flying = false)

/-- A drain loop keeps the invariant and returns only with both handles null. -/
def DrainOK (dr : Driver → Outcome) : Prop :=
  ∀ d, Inv d → Inv (dr d).driver ∧
    ∀ d1, dr d = Outcome.done d1 → d1.sendh = false ∧ d1.recvh = false

/-- A teardown keeps the invariant and returns only in state Idle. -/
def StopOK (st : Driver → Outcome) : Prop :=
  ∀ d, Inv d → Inv (st d).driver ∧ ∀ d1, st d = Outcome.done d1 → d1.state = State.sNone

/-- The running driver at the entry of the send callback of sending_driver's transfer. -/
def expired_driver : Driver :=
  { sending_driver with send_flying := false, send_cancelling := false,
                        sends_in_flight := sending_driver.sends_in_flight - 1 }

/-- The driver pending_driver after a do_send whose libusb_submit_transfer failed. -/
def jammed_driver : Driver := do_send hw_no_submit pending_driver

/-- Later operations on jammed_driver: a send_Data, then the heartbeat reports
"connected". -/
def jam_ops : List (Hw × Nat × Op) :=
  [(hw_ok, 1, Op.send_Data [0x42]),
   (hw_ok, 1, Op.recv_done Status.COMPLETED frame_connected)]

/-! ## Theorems -/

theorem andThen_done (o : Outcome) : o.andThen Outcome.done = o := by
  cases o <;> rfl

theorem run_single (x : Hw × Nat × Op) (d : Driver) :
    run [x] d = step x.1 x.2.1 x.2.2 d := by
  obtain ⟨hw, n, op⟩ := x
  show (step hw n op d).andThen (run []) = _
  exact andThen_done _

theorem run_append (xs ys : List (Hw × Nat × Op)) :
    ∀ d, run (xs ++ ys) d = (run xs d).andThen (run ys) := by
  induction xs with
  | nil => intro d; rfl
  | cons x rest ih =>
    intro d
    obtain ⟨hw, n, op⟩ := x
    show (step hw n op d).andThen (run (rest ++ ys)) =
      ((step hw n op d).andThen (run rest)).andThen (run ys)
    cases step hw n op d with
    | done d1 => exact ih d1
    | spin d1 => rfl

theorem build_frame_eq (out : List Nat) :
    build_frame out = out.take BUFSIZE ++ List.replicate (BUFSIZE - out.length) 0 := by
  unfold build_frame memcpy memset_zero
  by_cases h : out.length > BUFSIZE
  · rw [if_pos h]
    have : BUFSIZE - out.length = 0 := by omega
    simp [this]
  · rw [if_neg h]
    have h1 : List.take out.length out = out := List.take_length out
    have h2 : List.take BUFSIZE out = out := List.take_of_length_le (by omega)
    rw [h1, h2, List.drop_replicate]

theorem build_frame_length (out : List Nat) : (build_frame out).length = BUFSIZE := by
  rw [build_frame_eq]
  simp only [List.length_append, List.length_take, List.length_replicate]
  omega

theorem do_send_sendbuf (hw : Hw) (d : Driver) (hg : do_send_guard d = true) :
    (do_send hw d).sendbuf = build_frame d.out := by
  unfold do_send_guard at hg
  unfold do_send
  simp only [Bool.not_eq_true'] at hg
  rw [if_neg (by simp [hg])]
  cases ha : hw.alloc_ok <;> cases hs : hw.submit_ok <;> simp [emit, ha, hs]

theorem do_send_trace (hw : Hw) (d : Driver) (hg : do_send_guard d = true)
    (ha : hw.alloc_ok = true) :
    (do_send hw d).trace = d.trace ++
      [Event.libusb_alloc_transfer true, Event.submit_send (build_frame d.out) hw.submit_ok] := by
  unfold do_send_guard at hg
  unfold do_send
  simp only [Bool.not_eq_true'] at hg
  rw [if_neg (by simp [hg])]
  cases hs : hw.submit_ok <;> simp [emit, ha, hs]

/-- C1. In every driver state in which the guard of do_send lets it through (the pending
payload out is non-empty) and whatever libusb answers, the frame do_send builds in sendbuf is 64
bytes long, equals the payload on the first min (|out|, 64) bytes and is zero from there up to
byte 63. Hence a payload longer than 64 bytes is cut to its first 64 bytes, a shorter one is
zero-padded to 64 bytes and one of exactly 64 bytes passes unchanged; when the transfer is
allocated, this frame is the one handed to libusb_submit_transfer. -/
theorem do_send_frame (hw : Hw) (d : Driver) (hp : 0 < d.out.length)
    (hg : do_send_guard d = true) :
    (do_send hw d).sendbuf.length = 64 ∧
    (∀ i, i < min d.out.length 64 → (do_send hw d).sendbuf[i]? = d.out[i]?) ∧
    (∀ i, min d.out.length 64 ≤ i → i < 64 → (do_send hw d).sendbuf[i]? = some 0) ∧
    (64 < d.out.length → (do_send hw d).sendbuf = d.out.take 64) ∧
    (d.out.length < 64 →
      (do_send hw d).sendbuf = d.out ++ List.replicate (64 - d.out.length) 0) ∧
    (d.out.length = 64 → (do_send hw d).sendbuf = d.out) ∧
    (hw.alloc_ok = true →
      (do_send hw d).trace = d.trace ++
        [Event.libusb_alloc_transfer true,
         Event.submit_send (do_send hw d).sendbuf hw.submit_ok]) := by
  have hb := do_send_sendbuf hw d hg
  have he := build_frame_eq d.out
  have hB : BUFSIZE = 64 := rfl
  rw [hB] at he
  refine ⟨?_, ?_, ?_, ?_, ?_, ?_, ?_⟩
  · rw [hb]; exact build_frame_length _
  · intro i hi
    rw [hb, he, List.getElem?_append_left (by simp; omega), List.getElem?_take]
    simp; omega
  · intro i h1 h2
    rw [hb, he, List.getElem?_append_right (by simp; omega)]
    simp only [List.length_take]
    rw [List.getElem?_replicate]
    simp; omega
  · intro h
    rw [hb, he]
    have : 64 - d.out.length = 0 := by omega
    simp [this]
  · intro h
    rw [hb, he, List.take_of_length_le (by omega)]
  · intro h
    rw [hb, he, List.take_of_length_le (by omega)]
    simp [h]
  · intro ha
    rw [hb]; exact do_send_trace hw d hg ha

/-- C1 at a concrete input: the running driver with a payload of ten bytes pending sends
these ten bytes followed by 54 zero bytes. -/
theorem do_send_frame_witness :
    do_send_guard pending_driver = true ∧
    (do_send hw_ok pending_driver).sendbuf = ten_bytes ++ List.replicate 54 0 :=
  ⟨by decide,
   (do_send_frame hw_ok pending_driver (by decide) (by decide)).2.2.2.2.1 (by decide)⟩

theorem do_send_out (hw : Hw) (d : Driver) : (do_send hw d).out = d.out := by
  unfold do_send
  split
  · rfl
  · cases ha : hw.alloc_ok <;> cases hs : hw.submit_ok <;> simp [emit, ha, hs]

theorem send_Data_stores (hw : Hw) (l : List Nat) (d : Driver) (h : d.out = []) :
    (send_Data hw l d).out = l := by
  unfold send_Data
  rw [if_neg (by simp [h]), do_send_out]

/-- C2. In every driver state whose pending buffer out is non-empty, send_Data (l) is rejected
for every l: the driver is left as it was except for one "stopped" notification appended to the
trace, so out keeps its contents, sendh and the transfer in flight are untouched and nothing is
allocated or submitted. In particular, when the state is the result of an accepted send_Data
(l1) with l1 non-empty, out still equals l1 after the rejected call. -/
theorem send_Data_rejected (hw : Hw) (l : List Nat) (d : Driver) (hpending : d.out ≠ []) :
    send_Data hw l d = { d with trace := d.trace ++ [Event.stopped] } ∧
    (send_Data hw l d).out = d.out ∧
    (send_Data hw l d).sendh = d.sendh ∧
    (send_Data hw l d).send_flying = d.send_flying ∧
    (send_Data hw l d).trace = d.trace ++ [Event.stopped] ∧
    (∀ (hw1 : Hw) (l1 : List Nat) (d1 : Driver),
      d1.out = [] → l1 ≠ [] → d = send_Data hw1 l1 d1 → (send_Data hw l d).out = l1) := by
  have h0 : d.out.length > 0 := List.length_pos.mpr hpending
  have h1 : send_Data hw l d = { d with trace := d.trace ++ [Event.stopped] } := by
    unfold send_Data
    rw [if_pos h0]
    rfl
  refine ⟨h1, ?_, ?_, ?_, ?_, ?_⟩
  · rw [h1]
  · rw [h1]
  · rw [h1]
  · rw [h1]
  · intro hw1 l1 d1 he _ hd
    rw [h1]
    show d.out = l1
    rw [hd]
    exact send_Data_stores hw1 l1 d1 he

/-- C2 at a concrete input: ten bytes were accepted by the running driver; a second send_Data
leaves them in out. -/
theorem send_Data_rejected_witness :
    sending_driver.out ≠ [] ∧ (send_Data hw_ok [0x42] sending_driver).out = ten_bytes :=
  ⟨by decide,
   (send_Data_rejected hw_ok [0x42] sending_driver (by decide)).2.2.2.2.2
     hw_ok ten_bytes running_driver (by decide) (by decide) rfl⟩

/-- C3, amended. do_send calls libusb_submit_transfer for a send transfer if and only if sendh is
null, the flag connection_state is set, the pending payload is non-empty and
libusb_alloc_transfer succeeds; it never submits more than one. The guard reads the flag
connection_state, which start sets when the interface is claimed, and not the member state. -/
theorem do_send_submits_iff (hw : Hw) (d : Driver) :
    (send_submits (do_send hw d).trace = send_submits d.trace + 1 ↔
      (d.sendh = false ∧ d.connection_state = true ∧ d.out ≠ [] ∧ hw.alloc_ok = true)) ∧
    (send_submits (do_send hw d).trace = send_submits d.trace ∨
      send_submits (do_send hw d).trace = send_submits d.trace + 1) := by
  unfold do_send
  cases hs : d.sendh <;> cases hc : d.connection_state <;> cases ha : hw.alloc_ok <;>
    cases hb : hw.submit_ok <;> cases ho : d.out <;>
    simp [emit, send_submits, List.countP_append, List.countP_cons, List.countP_nil]

/-- C3 as stated fails: in the running driver (state Running, not Connected) with a payload
pending, do_send submits a send transfer. -/
theorem do_send_submits_while_running :
    pending_driver.state = State.sRunning ∧
    send_submits (do_send hw_ok pending_driver).trace =
      send_submits pending_driver.trace + 1 ∧
    ¬ (send_submits (do_send hw_ok pending_driver).trace =
        send_submits pending_driver.trace + 1 ↔
      (pending_driver.sendh = false ∧ pending_driver.state = State.sConnected ∧
        pending_driver.out ≠ [])) := by
  decide

theorem get_connection_state_eq (buf : List Nat) :
    get_connection_state buf = (buf.getD 12 0).testBit 0 := by
  unfold get_connection_state
  rw [Nat.testBit_zero, Nat.and_one_is_mod]
  rcases Nat.mod_two_eq_zero_or_one (buf.getD 12 0) with h | h <;> rw [h] <;> rfl

theorem is_connection_state_of_take (buf : List Nat) (h : buf.take 12 = wanted) :
    is_connection_state buf = true := by
  unfold is_connection_state
  have : wanted.length = 12 := rfl
  rw [this, h]
  exact beq_self_eq_true _

theorem HandleReceiveUsb_promote (stop : Driver → Outcome) (d : Driver)
    (hsig : is_connection_state d.recvbuf = true) (hbit : get_connection_state d.recvbuf = true)
    (hrun : d.state = State.sRunning) :
    HandleReceiveUsbWith stop d = Outcome.done
      { d with state := State.sConnected,
               trace := d.trace ++ [Event.recv_Data d.recvbuf, Event.started],
               moves := d.moves ++ [(State.sRunning, State.sConnected)] } := by
  unfold HandleReceiveUsbWith
  simp [emit, hsig, hbit, hrun, LowLevelDriver_start, started, assign]

theorem HandleReceiveUsb_connected (stop : Driver → Outcome) (d : Driver)
    (hsig : is_connection_state d.recvbuf = true) (hbit : get_connection_state d.recvbuf = true)
    (hcon : d.state = State.sConnected) :
    HandleReceiveUsbWith stop d = Outcome.done
      { d with trace := d.trace ++ [Event.recv_Data d.recvbuf] } := by
  unfold HandleReceiveUsbWith
  simp [emit, hsig, hbit, hcon]

/-- C4. When recvbuf starts with the 12-byte connection-status signature and bit 0 of byte 12 is
set, HandleReceiveUsb in state Running returns with the state Connected, having delivered the
frame upward and raised the "started" notification exactly once (the only state change is
Running to Connected). Handling the same frame again, now in state Connected, returns with the
state still Connected: the frame is delivered, no notification is raised, no state change is
made and no teardown is run. -/
theorem heartbeat_connect_once (hw : Hw) (n : Nat) (d : Driver)
    (hsig : d.recvbuf.take 12 = wanted)
    (hbit : (d.recvbuf.getD 12 0).testBit 0 = true) (hrun : d.state = State.sRunning) :
    ∃ d1, HandleReceiveUsb hw n d = Outcome.done d1 ∧
      d1.state = State.sConnected ∧
      d1.trace = d.trace ++ [Event.recv_Data d.recvbuf, Event.started] ∧
      d1.moves = d.moves ++ [(State.sRunning, State.sConnected)] ∧
      d1.recvbuf = d.recvbuf ∧
      ∃ d2, HandleReceiveUsb hw n d1 = Outcome.done d2 ∧
        d2.state = State.sConnected ∧
        d2.trace = d1.trace ++ [Event.recv_Data d.recvbuf] ∧
        d2.moves = d1.moves := by
  have hsig' := is_connection_state_of_take d.recvbuf hsig
  have hbit' : get_connection_state d.recvbuf = true := by
    rw [get_connection_state_eq]; exact hbit
  refine ⟨_, HandleReceiveUsb_promote (stop hw n) d hsig' hbit' hrun, rfl, rfl, rfl, rfl,
    _, HandleReceiveUsb_connected (stop hw n) _ hsig' hbit' rfl, rfl, rfl, rfl⟩

/-- C4 at a concrete input: the running driver receives frame_connected. -/
theorem heartbeat_connect_once_witness :
    (HandleReceiveUsb hw_ok 1 promote_driver).driver.state = State.sConnected := by
  obtain ⟨d1, h1, h2, _⟩ :=
    heartbeat_connect_once hw_ok 1 promote_driver (by decide) (by decide) (by decide)
  rw [h1]; exact h2

/-- C10, what the code does. start is called in state Idle after setup; every libusb call
succeeds except libusb_submit_transfer for the first receive transfer. StartUsbRecvTransfer
raises "stopped" and returns, and start goes on: it returns with the state Running, no receive
transfer in flight, and the trace ends with "stopped", the send_Next pull and "started". -/
theorem start_submit_failure (hw : Hw) (n : Nat) (d : Driver)
    (hidle : d.state = State.sNone) (hloop : d.loop = true)
    (ho : hw.open_ok = true) (hc : hw.config_ok = true) (hcl : hw.claim_ok = true)
    (hal : hw.altsetting_ok = true) (ha : hw.alloc_ok = true) (hs : hw.submit_ok = false) :
    ∃ d1, start hw n d = Outcome.done d1 ∧
      d1.state = State.sRunning ∧
      d1.recv_flying = d.recv_flying ∧
      d1.trace = d.trace ++
        [Event.libusb_open true, Event.libusb_unref_device, Event.libusb_detach_kernel_driver,
         Event.libusb_set_configuration true, Event.libusb_claim_interface true,
         Event.libusb_set_interface_alt_setting true, Event.libusb_alloc_transfer true,
         Event.submit_recv false, Event.stopped, Event.LowLevelDriver_send_Next,
         Event.started] := by
  have h : start hw n d = Outcome.done
      { d with state := State.sRunning, connection_state := true, recvh := true, out := [],
               trace := d.trace ++
        [Event.libusb_open true, Event.libusb_unref_device, Event.libusb_detach_kernel_driver,
         Event.libusb_set_configuration true, Event.libusb_claim_interface true,
         Event.libusb_set_interface_alt_setting true, Event.libusb_alloc_transfer true,
         Event.submit_recv false, Event.stopped, Event.LowLevelDriver_send_Next,
         Event.started],
               moves := d.moves ++ [(State.sNone, State.sStarted),
                 (State.sStarted, State.sClaimed), (State.sClaimed, State.sRunning)] } := by
    unfold start
    simp [hidle, hloop, ho, hc, hcl, hal, ha, hs, State.toNat, StartUsbRecvTransfer, emit,
      assign, stopped, send_Next, started, LowLevelDriver_send_Next]
  exact ⟨_, h, rfl, rfl, rfl⟩

/-- C10 at a concrete input: a fresh driver after setup, the receive submission fails. -/
theorem start_submit_failure_witness :
    (start hw_no_submit 1 ready_driver).driver.state = State.sRunning ∧
    Event.started ∈ (start hw_no_submit 1 ready_driver).driver.trace := by
  obtain ⟨d1, h1, h2, _, h4⟩ :=
    start_submit_failure hw_no_submit 1 ready_driver (by decide) (by decide) (by decide)
      (by decide) (by decide) (by decide) (by decide) (by decide)
  rw [h1]
  exact ⟨h2, by rw [show (Outcome.done d1).driver = d1 from rfl, h4]; simp⟩

theorem TraceExt.trace_refl (P : Event → Prop) (d : Driver) : TraceExt P d d :=
  ⟨[], by simp, by simp⟩

theorem TraceExt.trace_same {P : Event → Prop} {d1 d2 : Driver} (h : d2.trace = d1.trace) :
    TraceExt P d1 d2 :=
  ⟨[], by simp [h], by simp⟩

theorem TraceExt.trace_trans {P : Event → Prop} {d1 d2 d3 : Driver}
    (h12 : TraceExt P d1 d2) (h23 : TraceExt P d2 d3) : TraceExt P d1 d3 := by
  obtain ⟨t1, e1, p1⟩ := h12
  obtain ⟨t2, e2, p2⟩ := h23
  refine ⟨t1 ++ t2, by rw [e2, e1, List.append_assoc], ?_⟩
  intro ev hev
  rcases List.mem_append.mp hev with h | h
  · exact p1 ev h
  · exact p2 ev h

theorem TraceExt.trace_emit {P : Event → Prop} (ev : Event) (d : Driver) (h : P ev) :
    TraceExt P d (emit ev d) :=
  ⟨[ev], rfl, by simpa using h⟩

theorem TraceExt.trace_andThen {P : Event → Prop} {d : Driver} {o : Outcome} {f : Driver → Outcome}
    (h1 : TraceExt P d o.driver) (h2 : ∀ d1, TraceExt P d1 (f d1).driver) :
    TraceExt P d (o.andThen f).driver := by
  cases o with
  | done d1 => exact h1.trace_trans (h2 d1)
  | spin d1 => exact h1

theorem stop_pre_quiet (d : Driver) : TraceExt no_delivery d (stop_pre d) := by
  unfold stop_pre cancel_send cancel_recv assign emit
  dsimp only []
  split_ifs <;> simp [TraceExt, no_delivery]

theorem stop_post_quiet (d : Driver) : TraceExt no_delivery d (stop_post d) := by
  unfold stop_post reset assign emit
  dsimp only []
  split_ifs <;> simp [TraceExt, no_delivery]

theorem stopWith_quiet (dr : Driver → Outcome)
    (h : ∀ d, TraceExt no_delivery d (dr d).driver) (d : Driver) :
    TraceExt no_delivery d (stopWith dr d).driver := by
  unfold stopWith stop_With
  refine TraceExt.trace_andThen (TraceExt.trace_andThen ((stop_pre_quiet d).trace_trans (h _)) ?_) ?_
  · intro d1; exact stop_post_quiet d1
  · intro d1; exact ⟨[Event.LowLevelDriver_stop], rfl, by simp [no_delivery]⟩

theorem ev_runWith_quiet (st : Driver → Outcome) (hw : Hw)
    (h : ∀ d, TraceExt no_delivery d (st d).driver) (d : Driver) :
    TraceExt no_delivery d (ev_runWith st hw d).driver := by
  unfold ev_runWith
  have h0 : TraceExt no_delivery d (emit .ev_run d) :=
    ⟨[Event.ev_run], rfl, by simp [no_delivery]⟩
  refine TraceExt.trace_andThen (h0.trace_trans ?_) ?_
  · split
    · unfold CompleteSendWith
      rw [if_pos (by decide)]
      exact (TraceExt.trace_same rfl).trace_trans (h _)
    · exact TraceExt.trace_refl _ _
  · intro d1
    split
    · unfold CompleteReceiveWith
      rw [if_pos (by decide)]
      exact ⟨[Event.free_recv], rfl, by simp [no_delivery]⟩
    · exact TraceExt.trace_refl _ _

theorem drain_quiet (hw : Hw) (n : Nat) :
    ∀ d, TraceExt no_delivery d (drain hw n d).driver := by
  induction n with
  | zero =>
    intro d
    unfold drain
    split <;> exact TraceExt.trace_refl _ _
  | succ n ih =>
    intro d
    unfold drain
    split
    · exact TraceExt.trace_andThen (ev_runWith_quiet _ hw (stopWith_quiet _ ih) d) ih
    · exact TraceExt.trace_refl _ _

theorem stop_quiet (hw : Hw) (n : Nat) (d : Driver) :
    TraceExt no_delivery d (stop hw n d).driver :=
  stopWith_quiet _ (drain_quiet hw n) d

/-- C6. A receive completion with status COMPLETED delivers recvbuf, unmodified, to
master->recv_Data as its first action and makes no other delivery, in every driver state, for
every content of recvbuf and whatever follows (promotion, teardown, resubmission). A receive
completion with any other status frees the transfer and delivers nothing. -/
theorem receive_delivers_once (hw : Hw) (n : Nat) (d : Driver) :
    (∃ rest, (CompleteReceive hw n Status.COMPLETED d).driver.trace =
        d.trace ++ Event.recv_Data d.recvbuf :: rest ∧
        ∀ ev ∈ rest, ∀ f, ev ≠ Event.recv_Data f) ∧
    (∀ status, status ≠ Status.COMPLETED →
      CompleteReceive hw n status d =
        Outcome.done { d with recvh := false, trace := d.trace ++ [Event.free_recv] }) := by
  constructor
  · have key : TraceExt no_delivery (emit (Event.recv_Data d.recvbuf) d)
        (CompleteReceive hw n Status.COMPLETED d).driver := by
      unfold CompleteReceive CompleteReceiveWith
      rw [if_neg (by decide)]
      refine TraceExt.trace_andThen ?_ ?_
      · unfold HandleReceiveUsbWith
        simp only []
        split
        · exact TraceExt.trace_refl _ _
        · split
          · split
            · exact ⟨[Event.started], rfl, by simp [no_delivery]⟩
            · exact TraceExt.trace_refl _ _
          · split
            · exact (TraceExt.trace_same rfl).trace_trans (stop_quiet hw n _)
            · exact TraceExt.trace_refl _ _
      · intro d1
        split
        · unfold StartUsbRecvTransfer
          simp only []
          split
          · exact ⟨[Event.submit_recv hw.submit_ok, Event.stopped],
              by simp [stopped, emit, Outcome.driver],
              by simp [no_delivery]⟩
          · exact ⟨[Event.submit_recv hw.submit_ok], rfl, by simp [no_delivery]⟩
        · split
          · exact ⟨[Event.free_recv], rfl, by simp [no_delivery]⟩
          · exact TraceExt.trace_refl _ _
    obtain ⟨tr, e, p⟩ := key
    refine ⟨tr, ?_, p⟩
    rw [e]
    simp [emit]
  · intro status hst
    unfold CompleteReceive CompleteReceiveWith
    rw [if_pos hst]
    rfl

theorem stop_pre_recv (d : Driver) :
    (stop_pre d).recvh = d.recvh ∧ (stop_pre d).recv_flying = d.recv_flying := by
  unfold stop_pre cancel_send cancel_recv assign emit
  dsimp only []
  split_ifs <;> simp

theorem stop_pre_low (d : Driver) (h : d.state.toNat ≤ 2) :
    (stop_pre d).state = d.state ∧ (stop_pre d).moves = d.moves := by
  unfold stop_pre cancel_send cancel_recv assign emit
  dsimp only []
  have h2 : State.sClaimed.toNat = 2 := rfl
  split_ifs <;> simp_all <;> omega

theorem stop_pre_high (d : Driver) (h : 2 < d.state.toNat) :
    (stop_pre d).state = State.sClaimed ∧
    (stop_pre d).moves = d.moves ++ [(d.state, State.sClaimed)] := by
  unfold stop_pre cancel_send cancel_recv assign emit
  dsimp only []
  have h2 : State.sClaimed.toNat = 2 := rfl
  split_ifs <;> simp_all

/-- While the receive handle is held by a transfer that is no longer in flight, the drain
loop never ends: after any number of iterations it is still waiting, in the same state. -/
theorem drain_spin (hw : Hw) (n : Nat) :
    ∀ d : Driver, d.recvh = true → d.recv_flying = false → d.state.toNat ≤ 2 →
      ∃ d1, drain hw n d = Outcome.spin d1 ∧ d1.state = d.state ∧ d1.moves = d.moves := by
  induction n with
  | zero =>
    intro d hr _ _
    exact ⟨d, by simp [drain, hr], rfl, rfl⟩
  | succ n ih =>
    intro d hr hf hs
    unfold drain
    simp only [hr, Bool.or_true, if_true]
    unfold ev_runWith
    dsimp only []
    by_cases hc : ((emit Event.ev_run d).send_flying && (emit Event.ev_run d).send_cancelling) = true
    · rw [if_pos hc]
      unfold CompleteSendWith
      rw [if_pos (by decide)]
      unfold stopWith stop_With
      generalize hd2 : ({ emit Event.ev_run d with
        send_flying := false, send_cancelling := false,
        sends_in_flight := (emit Event.ev_run d).sends_in_flight - 1 } : Driver) = d2
      have hr2 : d2.recvh = true := by rw [← hd2]; exact hr
      have hf2 : d2.recv_flying = false := by rw [← hd2]; exact hf
      have hs2 : d2.state.toNat ≤ 2 := by rw [← hd2]; exact hs
      have hst2 : d2.state = d.state := by rw [← hd2]; rfl
      have hm2 : d2.moves = d.moves := by rw [← hd2]; rfl
      have hp := stop_pre_recv d2
      have hl := stop_pre_low d2 hs2
      obtain ⟨d1, h1, h2, h3⟩ := ih (stop_pre d2)
        (by rw [hp.1]; exact hr2) (by rw [hp.2]; exact hf2) (by rw [hl.1]; exact hs2)
      refine ⟨d1, ?_, ?_, ?_⟩
      · rw [h1]; rfl
      · rw [h2, hl.1, hst2]
      · rw [h3, hl.2, hm2]
    · rw [if_neg hc]
      have hf' : (emit Event.ev_run d).recv_flying = false := hf
      simp only [Outcome.andThen, hf', Bool.false_and, Bool.false_eq_true, if_false]
      exact ih (emit Event.ev_run d) hr hf hs

theorem HandleReceiveUsb_demote (st : Driver → Outcome) (d : Driver)
    (hsig : is_connection_state d.recvbuf = true) (hbit : get_connection_state d.recvbuf = false)
    (hcon : d.state = State.sConnected) :
    HandleReceiveUsbWith st d = st (assign State.sRunning (emit (Event.recv_Data d.recvbuf) d)) := by
  unfold HandleReceiveUsbWith
  have h1 : (emit (Event.recv_Data d.recvbuf) d).recvbuf = d.recvbuf := rfl
  have h2 : (emit (Event.recv_Data d.recvbuf) d).state = State.sConnected := hcon
  simp only [h1, h2, hsig, hbit, Bool.not_true, Bool.false_eq_true, if_false, if_true]

/-- C5, what the code does. A receive completion with status COMPLETED arrives in state
Connected (recvh is the completed transfer, no longer in flight); recvbuf starts with the
signature and bit 0 of byte 12 is clear. HandleReceiveUsb sets the state to Running and calls
stop; stop_ sets the state to Claimed and enters the drain loop, which waits for recvh to become
null. Only CompleteReceive clears recvh, and it is the caller: for every number n of event-loop
iterations the loop is still waiting, the state is Claimed and never becomes Idle. -/
theorem disconnect_teardown_spins (hw : Hw) (n : Nat) (d : Driver)
    (hrecvh : d.recvh = true) (hfly : d.recv_flying = false)
    (hsig : d.recvbuf.take 12 = wanted) (hbit : (d.recvbuf.getD 12 0).testBit 0 = false)
    (hcon : d.state = State.sConnected) :
    ∃ d1, CompleteReceive hw n Status.COMPLETED d = Outcome.spin d1 ∧
      d1.state = State.sClaimed ∧
      d1.moves = d.moves ++
        [(State.sConnected, State.sRunning), (State.sRunning, State.sClaimed)] := by
  have hsig' := is_connection_state_of_take d.recvbuf hsig
  have hbit' : get_connection_state d.recvbuf = false := by
    rw [get_connection_state_eq]; exact hbit
  unfold CompleteReceive CompleteReceiveWith
  rw [if_neg (by decide), HandleReceiveUsb_demote _ d hsig' hbit' hcon]
  unfold stop stopWith stop_With
  generalize hd0 : assign State.sRunning (emit (Event.recv_Data d.recvbuf) d) = d0
  have hd0s : d0.state = State.sRunning := by rw [← hd0]; rfl
  have hd0m : d0.moves = d.moves ++ [(State.sConnected, State.sRunning)] := by
    rw [← hd0]; simp [assign, emit, hcon]
  have hd0r : d0.recvh = true := by rw [← hd0]; exact hrecvh
  have hd0f : d0.recv_flying = false := by rw [← hd0]; exact hfly
  have hp := stop_pre_recv d0
  have hh := stop_pre_high d0 (by rw [hd0s]; decide)
  obtain ⟨d1, h1, h2, h3⟩ := drain_spin hw n (stop_pre d0)
    (by rw [hp.1]; exact hd0r) (by rw [hp.2]; exact hd0f) (by rw [hh.1]; decide)
  refine ⟨d1, ?_, ?_, ?_⟩
  · rw [h1]; rfl
  · rw [h2, hh.1]
  · rw [h3, hh.2, hd0m, hd0s]; simp

/-- C5 at a concrete input: a fresh driver runs setup and start, receives frame_connected
and then frame_disconnected; after 7 iterations of the event loop the last callback has not
returned and the state is Claimed. -/
theorem disconnect_teardown_spins_witness :
    (run disconnect_ops Driver.init).returned = false ∧
    (run disconnect_ops Driver.init).driver.state = State.sClaimed := by
  have hp : run connect_ops Driver.init = Outcome.done connected_driver := by decide
  have hf : connected_driver.recv_flying = true := by decide
  have hb : memcpy connected_driver.recvbuf frame_disconnected
      (min frame_disconnected.length BUFSIZE) = frame_disconnected := by decide
  have hl : step hw_ok 7 (Op.recv_done Status.COMPLETED frame_disconnected) connected_driver =
      CompleteReceive hw_ok 7 Status.COMPLETED demote_driver := by
    simp only [step, hf, if_true, hb]
    rfl
  have e : run disconnect_ops Driver.init =
      CompleteReceive hw_ok 7 Status.COMPLETED demote_driver := by
    have h := run_append connect_ops
      [(hw_ok, 7, Op.recv_done Status.COMPLETED frame_disconnected)] Driver.init
    rw [hp] at h
    rw [← hl]
    exact h.trans
      (run_single (hw_ok, 7, Op.recv_done Status.COMPLETED frame_disconnected) connected_driver)
  obtain ⟨d1, h1, h2, _⟩ :=
    disconnect_teardown_spins hw_ok 7 demote_driver (by decide) (by decide) (by decide)
      (by decide) (by decide)
  rw [e, h1]; exact ⟨rfl, h2⟩

theorem Trail.chain_append {R : State → State → Bool} :
    ∀ (m1 : List (State × State)) (s t u : State) (m2 : List (State × State)),
      Trail R s m1 t → Trail R t m2 u → Trail R s (m1 ++ m2) u := by
  intro m1
  induction m1 with
  | nil => intro s t u m2 h1 h2; simp only [Trail] at h1; subst h1; simpa using h2
  | cons m rest ih =>
    intro s t u m2 h1 h2
    obtain ⟨a, b, c⟩ := h1
    exact ⟨a, b, ih _ _ _ _ c h2⟩

theorem Trail.chain_all {R : State → State → Bool} :
    ∀ (mv : List (State × State)) (s t : State), Trail R s mv t →
      ∀ m ∈ mv, R m.1 m.2 = true := by
  intro mv
  induction mv with
  | nil => intro s t _ m hm; simp at hm
  | cons x rest ih =>
    intro s t h m hm
    obtain ⟨_, b, c⟩ := h
    rcases List.mem_cons.mp hm with h1 | h1
    · subst h1; exact b
    · exact ih _ _ c m h1

theorem MoveExt.move_refl (d : Driver) : MoveExt d d := ⟨[], by simp, rfl⟩

theorem MoveExt.move_same {d1 d2 : Driver} (hm : d2.moves = d1.moves) (hs : d2.state = d1.state) :
    MoveExt d1 d2 := ⟨[], by simp [hm], hs.symm⟩

theorem MoveExt.move_trans {d1 d2 d3 : Driver} (h12 : MoveExt d1 d2) (h23 : MoveExt d2 d3) :
    MoveExt d1 d3 := by
  obtain ⟨m1, e1, p1⟩ := h12
  obtain ⟨m2, e2, p2⟩ := h23
  exact ⟨m1 ++ m2, by rw [e2, e1, List.append_assoc], Trail.chain_append _ _ _ _ _ p1 p2⟩

theorem MoveExt.move_assign (s : State) (d : Driver) (h : legal_move d.state s = true) :
    MoveExt d (assign s d) :=
  ⟨[(d.state, s)], rfl, rfl, h, rfl⟩

theorem MoveExt.move_andThen {d : Driver} {o : Outcome} {f : Driver → Outcome}
    (h1 : MoveExt d o.driver) (h2 : ∀ d1, MoveExt d1 (f d1).driver) :
    MoveExt d (o.andThen f).driver := by
  cases o with
  | done d1 => exact h1.move_trans (h2 d1)
  | spin d1 => exact h1

theorem stop_pre_moves (d : Driver) : MoveExt d (stop_pre d) := by
  unfold stop_pre cancel_send cancel_recv assign emit
  dsimp only []
  cases hs : d.state <;> split_ifs <;>
    simp_all [MoveExt, Trail, legal_move, listed_move, State.toNat]

theorem stop_post_moves (d : Driver) : MoveExt d (stop_post d) := by
  unfold stop_post reset assign emit
  dsimp only []
  cases hs : d.state <;> split_ifs <;>
    simp_all [MoveExt, Trail, legal_move, listed_move, State.toNat]

theorem stopWith_moves (dr : Driver → Outcome) (h : ∀ d, MoveExt d (dr d).driver)
    (d : Driver) : MoveExt d (stopWith dr d).driver := by
  unfold stopWith stop_With
  refine MoveExt.move_andThen (MoveExt.move_andThen ((stop_pre_moves d).move_trans (h _)) ?_) ?_
  · intro d1; exact stop_post_moves d1
  · intro d1; exact MoveExt.move_same rfl rfl

theorem stop_With_moves (dr : Driver → Outcome) (h : ∀ d, MoveExt d (dr d).driver)
    (d : Driver) : MoveExt d (stop_With dr d).driver := by
  unfold stop_With
  refine MoveExt.move_andThen ((stop_pre_moves d).move_trans (h _)) ?_
  intro d1; exact stop_post_moves d1

theorem CompleteSendWith_moves (st : Driver → Outcome) (h : ∀ d, MoveExt d (st d).driver)
    (status : Status) (d : Driver) : MoveExt d (CompleteSendWith st status d).driver := by
  unfold CompleteSendWith
  split
  · exact h d
  · exact MoveExt.move_same rfl rfl

theorem HandleReceiveUsbWith_moves (st : Driver → Outcome)
    (h : ∀ d, MoveExt d (st d).driver) (d : Driver) :
    MoveExt d (HandleReceiveUsbWith st d).driver := by
  unfold HandleReceiveUsbWith
  dsimp only []
  split
  · exact MoveExt.move_same rfl rfl
  · split
    · split
      · rename_i hr
        refine (MoveExt.move_same rfl rfl : MoveExt d (emit (Event.recv_Data d.recvbuf) d)).move_trans ?_
        refine (MoveExt.move_assign State.sConnected _ ?_).move_trans (MoveExt.move_same rfl rfl)
        rw [hr]; rfl
      · exact MoveExt.move_same rfl rfl
    · split
      · rename_i hr
        refine (MoveExt.move_same rfl rfl : MoveExt d (emit (Event.recv_Data d.recvbuf) d)).move_trans ?_
        refine (MoveExt.move_assign State.sRunning _ ?_).move_trans (h _)
        rw [hr]; rfl
      · exact MoveExt.move_same rfl rfl

theorem StartUsbRecvTransfer_moves (hw : Hw) (d : Driver) :
    MoveExt d (StartUsbRecvTransfer hw d) := by
  unfold StartUsbRecvTransfer
  dsimp only []
  split <;> exact MoveExt.move_same rfl rfl

theorem CompleteReceiveWith_moves (st : Driver → Outcome)
    (h : ∀ d, MoveExt d (st d).driver) (hw : Hw) (status : Status) (d : Driver) :
    MoveExt d (CompleteReceiveWith st hw status d).driver := by
  unfold CompleteReceiveWith
  split
  · exact MoveExt.move_same rfl rfl
  · refine MoveExt.move_andThen (HandleReceiveUsbWith_moves st h d) ?_
    intro d1
    split
    · exact StartUsbRecvTransfer_moves hw d1
    · split <;> exact MoveExt.move_same rfl rfl

theorem ev_runWith_moves (st : Driver → Outcome) (hw : Hw)
    (h : ∀ d, MoveExt d (st d).driver) (d : Driver) :
    MoveExt d (ev_runWith st hw d).driver := by
  unfold ev_runWith
  dsimp only []
  refine MoveExt.move_andThen ?_ ?_
  · split
    · exact (MoveExt.move_same rfl rfl).move_trans (CompleteSendWith_moves st h _ _)
    · exact MoveExt.move_same rfl rfl
  · intro d1
    split
    · exact (MoveExt.move_same rfl rfl).move_trans (CompleteReceiveWith_moves st h hw _ _)
    · exact MoveExt.move_refl _

theorem drain_moves (hw : Hw) (n : Nat) : ∀ d, MoveExt d (drain hw n d).driver := by
  induction n with
  | zero =>
    intro d
    unfold drain
    split <;> exact MoveExt.move_refl _
  | succ n ih =>
    intro d
    unfold drain
    split
    · exact MoveExt.move_andThen (ev_runWith_moves _ hw (stopWith_moves _ ih) d) ih
    · exact MoveExt.move_refl _

theorem stop_moves (hw : Hw) (n : Nat) (d : Driver) : MoveExt d (stop hw n d).driver :=
  stopWith_moves _ (drain_moves hw n) d

theorem stop__moves (hw : Hw) (n : Nat) (d : Driver) : MoveExt d (stop_ hw n d).driver :=
  stop_With_moves _ (drain_moves hw n) d

theorem do_send_moves (hw : Hw) (d : Driver) : MoveExt d (do_send hw d) := by
  unfold do_send
  dsimp only []
  split_ifs <;> exact MoveExt.move_same rfl rfl

theorem send_Data_moves (hw : Hw) (l : List Nat) (d : Driver) :
    MoveExt d (send_Data hw l d) := by
  unfold send_Data
  split
  · exact MoveExt.move_same rfl rfl
  · exact (MoveExt.move_same rfl rfl : MoveExt d { d with out := l }).move_trans (do_send_moves hw _)

theorem MoveExt.move_of_state {d1 d2 : Driver} (s : State) (h1 : d1.state = s)
    (h : ∃ mv, d2.moves = d1.moves ++ mv ∧ Trail legal_move s mv d2.state) : MoveExt d1 d2 := by
  subst h1; exact h

theorem start_moves (hw : Hw) (n : Nat) (d : Driver) : MoveExt d (start hw n d).driver := by
  unfold start
  dsimp only []
  split
  · exact MoveExt.move_refl _
  · rename_i h0
    have hst : d.state = State.sNone := by
      cases hs : d.state <;> simp [hs, State.toNat] at h0 ⊢
    split
    · exact stop_moves hw n d
    · split
      · exact (MoveExt.move_same rfl rfl).move_trans (stop_moves hw n _)
      · split
        · refine MoveExt.move_trans (MoveExt.move_of_state _ hst ?_) (stop_moves hw n _)
          simp [assign, emit, Trail, legal_move, listed_move, hst]
        · split
          · refine MoveExt.move_trans (MoveExt.move_of_state _ hst ?_) (stop_moves hw n _)
            simp [assign, emit, Trail, legal_move, listed_move, hst]
          · split
            · refine MoveExt.move_trans (MoveExt.move_of_state _ hst ?_) (stop_moves hw n _)
              simp [assign, emit, Trail, legal_move, listed_move, hst]
            · split
              · refine MoveExt.move_trans (MoveExt.move_of_state _ hst ?_) (stop_moves hw n _)
                simp [assign, emit, Trail, legal_move, listed_move, hst]
              · refine MoveExt.move_of_state _ hst ?_
                unfold StartUsbRecvTransfer
                dsimp only []
                split <;>
                  simp [assign, emit, Trail, legal_move, listed_move, hst, Outcome.driver,
                    started, stopped, send_Next, LowLevelDriver_send_Next]

theorem setup_moves (hw : Hw) (n : Nat) (context_ok : Bool) (devs : List (Option LibusbDevice))
    (e : USBEndpoint) (d : Driver) : MoveExt d (setup hw n context_ok devs e d).driver := by
  unfold setup
  dsimp only []
  split
  · exact (MoveExt.move_same rfl rfl).move_trans (stop__moves hw n _)
  · split
    · exact (MoveExt.move_same rfl rfl).move_trans (stop__moves hw n _)
    · exact MoveExt.move_same rfl rfl

theorem step_moves (hw : Hw) (n : Nat) (op : Op) (d : Driver) :
    MoveExt d (step hw n op d).driver := by
  cases op with
  | setup c devs e => exact setup_moves hw n c devs e d
  | start => exact start_moves hw n d
  | stop => exact stop_moves hw n d
  | send_Data l => exact send_Data_moves hw l d
  | send_done status =>
    simp only [step]
    split
    · exact (MoveExt.move_same rfl rfl).move_trans (CompleteSendWith_moves _ (stop_moves hw n) _ _)
    · exact MoveExt.move_refl _
  | recv_done status frame =>
    simp only [step]
    split
    · exact (MoveExt.move_same rfl rfl).move_trans (CompleteReceiveWith_moves _ (stop_moves hw n) hw _ _)
    · exact MoveExt.move_refl _

theorem run_moves (ops : List (Hw × Nat × Op)) : ∀ d, MoveExt d (run ops d).driver := by
  induction ops with
  | nil => intro d; exact MoveExt.move_refl _
  | cons x rest ih =>
    intro d
    obtain ⟨hw, n, op⟩ := x
    unfold run
    exact MoveExt.move_andThen (step_moves hw n op d) ih

/-- Along a trail of legal moves, Running is entered only after Claimed has been entered. -/
theorem Trail.claimed_before_running :
    ∀ (mv : List (State × State)) (s t : State) (seen : Prop),
      Trail legal_move s mv t →
      (s = State.sClaimed ∨ s = State.sRunning ∨ s = State.sConnected → seen) →
      ∀ pre a post, mv = pre ++ (a, State.sRunning) :: post →
        seen ∨ ∃ m ∈ pre, m.2 = State.sClaimed := by
  intro mv
  induction mv with
  | nil => intro s t seen _ _ pre a post h; simp at h
  | cons x rest ih =>
    intro s t seen htr hseen pre a post h
    obtain ⟨h1, h2, h3⟩ := htr
    cases pre with
    | nil =>
      simp only [List.nil_append, List.cons.injEq] at h
      obtain ⟨hx, _⟩ := h
      subst hx
      left
      apply hseen
      simp only at h1 h2
      subst h1
      cases a <;> simp [legal_move, listed_move] at h2 ⊢
    | cons p pre1 =>
      simp only [List.cons_append, List.cons.injEq] at h
      obtain ⟨hx, hrest⟩ := h
      subst hx
      have := ih x.2 t (seen ∨ x.2 = State.sClaimed) h3 (by
        intro hcase
        by_cases hc : x.2 = State.sClaimed
        · exact Or.inr hc
        · left
          apply hseen
          rw [← h1]
          rcases hcase with hcase | hcase | hcase
          · exact absurd hcase hc
          · rw [hcase] at h2
            cases hx1 : x.1 <;> simp [hx1, legal_move, listed_move] at h2 ⊢
          · rw [hcase] at h2
            cases hx1 : x.1 <;> simp [hx1, legal_move, listed_move] at h2 ⊢) pre1 a post hrest
      rcases this with (hs | hc) | ⟨m, hm, hm2⟩
      · exact Or.inl hs
      · exact Or.inr ⟨x, by simp, hc⟩
      · exact Or.inr ⟨m, by simp [hm], hm2⟩

/-- C9, amended. Over every run of driver operations (setup, start, stop, send_Data, send
completion, receive completion) from a driver in state Idle, whatever libusb answers and
however long the drain loop is followed, the recorded assignments to state form a chain from
Idle to the current state in which every link is one of Idle to Started, Started to Claimed,
Claimed to Running, Running to Connected, Connected to Running, a reset to Idle, or the
demotion of Running or Connected to Claimed with which stop_ begins. Running is entered only
from Claimed or Connected and only after Claimed has been entered, Connected only from
Running, and HandleReceiveUsb itself (its call of stop apart) assigns only Running or
Connected. -/
theorem state_moves_legal (ops : List (Hw × Nat × Op)) (d0 : Driver)
    (hidle : d0.state = State.sNone) (hfresh : d0.moves = []) :
    Trail legal_move State.sNone (run ops d0).driver.moves (run ops d0).driver.state ∧
    (∀ m ∈ (run ops d0).driver.moves, legal_move m.1 m.2 = true) ∧
    (∀ pre a post, (run ops d0).driver.moves = pre ++ (a, State.sRunning) :: post →
      (a = State.sClaimed ∨ a = State.sConnected) ∧ ∃ m ∈ pre, m.2 = State.sClaimed) ∧
    (∀ a, (a, State.sConnected) ∈ (run ops d0).driver.moves → a = State.sRunning) ∧
    (∀ d : Driver, ∃ mv, (HandleReceiveUsbWith Outcome.done d).driver.moves = d.moves ++ mv ∧
      ∀ m ∈ mv, m.2 = State.sRunning ∨ m.2 = State.sConnected) := by
  obtain ⟨mv, hmv, htr⟩ := run_moves ops d0
  rw [hfresh, List.nil_append] at hmv
  rw [hidle] at htr
  rw [hmv]
  have hall := Trail.chain_all mv _ _ htr
  refine ⟨htr, hall, ?_, ?_, ?_⟩
  · intro pre a post h
    constructor
    · have := hall (a, State.sRunning) (by rw [h]; simp)
      cases a <;> simp [legal_move, listed_move] at this ⊢
    · rcases Trail.claimed_before_running mv _ _ False htr (by simp) pre a post h with h1 | h1
      · exact absurd h1 id
      · exact h1
  · intro a ha
    have := hall _ ha
    cases a <;> simp [legal_move, listed_move] at this ⊢
  · intro d
    unfold HandleReceiveUsbWith
    dsimp only []
    split
    · exact ⟨[], by simp [Outcome.driver, emit], by simp⟩
    · split
      · split
        · exact ⟨[(d.state, State.sConnected)],
            by simp [Outcome.driver, emit, LowLevelDriver_start, started, assign], by simp⟩
        · exact ⟨[], by simp [Outcome.driver, emit], by simp⟩
      · split
        · exact ⟨[(d.state, State.sRunning)], by simp [Outcome.driver, emit, assign], by simp⟩
        · exact ⟨[], by simp [Outcome.driver, emit], by simp⟩

/-- C9, amended, at a concrete input: the run demo_ops from a fresh driver. -/
theorem state_moves_legal_witness :
    Trail legal_move State.sNone (run demo_ops Driver.init).driver.moves
      (run demo_ops Driver.init).driver.state :=
  (state_moves_legal demo_ops Driver.init rfl rfl).1

/-- C9 as stated fails: in the run setup, start, stop the state changes from Running to
Claimed, which is none of the listed changes. -/
theorem teardown_demotes_to_claimed :
    (State.sRunning, State.sClaimed) ∈ (run stop_ops Driver.init).driver.moves ∧
    listed_move State.sRunning State.sClaimed = false := by
  decide

theorem findSome_none_iff {α β : Type} (f : α → Option β) :
    ∀ l : List α, l.findSome? f = none ↔ ∀ (i : Nat) (x : α), l[i]? = some x → f x = none := by
  intro l
  induction l with
  | nil => simp
  | cons a rest ih =>
    rw [List.findSome?_cons]
    constructor
    · intro h i x hx
      cases hfa : f a with
      | some b => rw [hfa] at h; simp at h
      | none =>
        rw [hfa] at h
        cases i with
        | zero => simp at hx; rw [← hx]; exact hfa
        | succ i => simp at hx; exact (ih.mp h) i x hx
    · intro h
      have h0 := h 0 a (by simp)
      rw [h0]
      exact ih.mpr (fun i x hx => h (i + 1) x (by simpa using hx))

theorem findSome_some_iff {α β : Type} (f : α → Option β) (b : β) :
    ∀ l : List α, l.findSome? f = some b ↔
      ∃ (i : Nat) (x : α), l[i]? = some x ∧ f x = some b ∧
        ∀ (i' : Nat) (x' : α), i' < i → l[i']? = some x' → f x' = none := by
  intro l
  induction l with
  | nil => simp
  | cons a rest ih =>
    rw [List.findSome?_cons]
    cases hfa : f a with
    | some b0 =>
      constructor
      · intro h
        exact ⟨0, a, by simp, by rw [hfa]; exact h, by intro i' x' hi; omega⟩
      · rintro ⟨i, x, hx, hfx, hmin⟩
        cases i with
        | zero => simp at hx; rw [← hx, hfa] at hfx; exact hfx
        | succ i =>
          have := hmin 0 a (by omega) (by simp)
          rw [hfa] at this; simp at this
    | none =>
      simp only []
      rw [ih]
      constructor
      · rintro ⟨i, x, hx, hfx, hmin⟩
        refine ⟨i + 1, x, by simpa using hx, hfx, ?_⟩
        intro i' x' hi hx'
        cases i' with
        | zero => simp at hx'; rw [← hx']; exact hfa
        | succ i' => exact hmin i' x' (by omega) (by simpa using hx')
      · rintro ⟨i, x, hx, hfx, hmin⟩
        cases i with
        | zero => simp at hx; rw [← hx, hfa] at hfx; simp at hfx
        | succ i =>
          refine ⟨i, x, by simpa using hx, hfx, ?_⟩
          intro i' x' hi hx'
          exact hmin (i' + 1) x' (by omega) (by simpa using hx')

theorem last_address_concat (p : EndpointDescriptor → Prop) [DecidablePred p]
    (eps : List EndpointDescriptor) (ep : EndpointDescriptor) :
    last_address p (eps ++ [ep]) = if p ep then ep.bEndpointAddress else last_address p eps := by
  unfold last_address
  rw [List.filter_append]
  by_cases h : p ep
  · simp [h, List.filter_cons]
  · simp [h, List.filter_cons]

theorem scan_endpoints_eq (eps : List EndpointDescriptor) :
    scan_endpoints eps = (last_address qualifying_in eps, last_address qualifying_out eps) := by
  induction eps using List.reverseRecOn with
  | nil => rfl
  | append_singleton eps ep ih =>
    unfold scan_endpoints at ih ⊢
    rw [List.foldl_append, ih, last_address_concat, last_address_concat]
    simp only [List.foldl_cons, List.foldl_nil]
    unfold scan_endpoint qualifying_in qualifying_out
    by_cases h1 : ep.wMaxPacketSize = 64 <;>
    by_cases h2 : ep.bEndpointAddress &&& LIBUSB_ENDPOINT_IN = 0 <;>
    by_cases h3 : ep.bmAttributes &&& LIBUSB_TRANSFER_TYPE_MASK = LIBUSB_TRANSFER_TYPE_INTERRUPT <;>
    simp [h1, h2, h3]

theorem last_address_mem (p : EndpointDescriptor → Prop) [DecidablePred p]
    (eps : List EndpointDescriptor) (h : last_address p eps ≠ 0) :
    ∃ ep ∈ eps, last_address p eps = ep.bEndpointAddress ∧ p ep := by
  unfold last_address at h ⊢
  cases hl : (eps.filter fun ep => decide (p ep)).getLast? with
  | none => rw [hl] at h; exact absurd rfl h
  | some ep =>
    have hm := List.mem_of_getLast?_eq_some hl
    rw [List.mem_filter] at hm
    exact ⟨ep, hm.1, rfl, by simpa using hm.2⟩

theorem qualifying_in_ne_zero (ep : EndpointDescriptor) (h : qualifying_in ep) :
    ep.bEndpointAddress ≠ 0 := by
  intro h0
  have := h.2.1
  rw [h0] at this
  simp at this

theorem last_in_ne_zero_iff (eps : List EndpointDescriptor) :
    last_address qualifying_in eps ≠ 0 ↔ ∃ ep ∈ eps, qualifying_in ep := by
  constructor
  · intro h
    obtain ⟨ep, hm, _, hp⟩ := last_address_mem qualifying_in eps h
    exact ⟨ep, hm, hp⟩
  · rintro ⟨ep, hm, hp⟩
    unfold last_address
    cases hl : (eps.filter fun ep => decide (qualifying_in ep)).getLast? with
    | none =>
      rw [List.getLast?_eq_none_iff] at hl
      have : ep ∈ eps.filter fun ep => decide (qualifying_in ep) := by
        rw [List.mem_filter]; exact ⟨hm, by simpa using hp⟩
      rw [hl] at this
      simp at this
    | some ep1 =>
      have hm1 := List.mem_of_getLast?_eq_some hl
      rw [List.mem_filter] at hm1
      exact qualifying_in_ne_zero ep1 (by simpa using hm1.2)

theorem filter_ok_iff (value : Nat) (filter : Int) :
    ¬ ((value : Int) ≠ filter ∧ filter ≠ -1) ↔ filter_ok value filter := by
  unfold filter_ok
  by_cases h1 : (value : Int) = filter <;> by_cases h2 : filter = -1 <;> simp [h1, h2]

theorem check_alts_eq (dv : LibusbDevice) (e : USBEndpoint) (cfg : ConfigDescriptor)
    (alts : InterfaceDescriptor) :
    check_alts dv e cfg alts =
      if alt_ok e alts ∧ dv.open_ok = true then some (binding_of dv cfg alts) else none := by
  by_cases h : alt_ok e alts ∧ dv.open_ok = true
  · rw [if_pos h]
    obtain ⟨⟨h1, h2, h3, h4, h5⟩, h6⟩ := h
    rw [← last_in_ne_zero_iff] at h4
    unfold check_alts
    rw [if_neg (by simp [h1]), if_neg ((filter_ok_iff _ _).mpr h2),
      if_neg ((filter_ok_iff _ _).mpr h3)]
    simp only [scan_endpoints_eq]
    rw [if_neg (by simp [h4, h5]), if_pos h6]
    rfl
  · rw [if_neg h]
    unfold check_alts
    simp only [scan_endpoints_eq]
    split_ifs with c1 c2 c3 c4 c5
    · rfl
    · rfl
    · rfl
    · rfl
    · exfalso
      apply h
      refine ⟨⟨by simpa using c1, (filter_ok_iff _ _).mp c2, (filter_ok_iff _ _).mp c3,
        (last_in_ne_zero_iff _).mp (fun h0 => c4 (Or.inl h0)), fun h0 => c4 (Or.inr h0)⟩, c5⟩
    · rfl

theorem check_altsettings_eq (dv : LibusbDevice) (e : USBEndpoint) (cfg : ConfigDescriptor)
    (l : List InterfaceDescriptor) :
    check_altsettings dv e cfg l = l.findSome? (check_alts dv e cfg) := by
  induction l with
  | nil => rfl
  | cons a rest ih =>
    rw [check_altsettings, List.findSome?_cons, ih]
    cases check_alts dv e cfg a <;> rfl

theorem check_interfaces_eq (dv : LibusbDevice) (e : USBEndpoint) (cfg : ConfigDescriptor)
    (l : List Interface) :
    check_interfaces dv e cfg l =
      l.findSome? (fun intf => check_altsettings dv e cfg intf.altsetting) := by
  induction l with
  | nil => rfl
  | cons a rest ih =>
    rw [check_interfaces, List.findSome?_cons, ih]
    cases check_altsettings dv e cfg a.altsetting <;> rfl

theorem check_configs_eq (dv : LibusbDevice) (e : USBEndpoint)
    (l : List (Option ConfigDescriptor)) :
    check_configs dv e l = l.findSome? (check_config dv e) := by
  induction l with
  | nil => rfl
  | cons a rest ih =>
    cases a with
    | none => rw [check_configs, List.findSome?_cons, ih]; rfl
    | some cfg =>
      rw [check_configs, List.findSome?_cons, ih]
      unfold check_config cfg_ok filter_ok
      by_cases h1 : (cfg.bConfigurationValue : Int) = e.config <;>
      by_cases h2 : e.config = -1 <;>
      simp [h1, h2] <;>
      cases check_interfaces dv e cfg cfg.interface <;> rfl

theorem check_device_eq (od : Option LibusbDevice) (e : USBEndpoint) (e2 : USBDevice) :
    check_device od e e2 =
      match check_entry e od with
      | some b => (true, b)
      | none => (false, e2) := by
  cases od with
  | none => rfl
  | some dv =>
    unfold check_device check_entry filter_ok
    by_cases h1 : (dv.bus_number : Int) = e.bus <;>
    by_cases h2 : e.bus = -1 <;>
    by_cases h3 : (dv.device_address : Int) = e.device <;>
    by_cases h4 : e.device = -1 <;>
    cases h5 : dv.descriptor_ok <;>
    simp [h1, h2, h3, h4, h5]

theorem detect_loop_eq (e : USBEndpoint) (devs : List (Option LibusbDevice)) :
    ∀ e2, detect_loop e devs e2 = (devs.findSome? (check_entry e)).getD e2 := by
  induction devs with
  | nil => intro e2; rfl
  | cons a rest ih =>
    intro e2
    rw [detect_loop, List.findSome?_cons, check_device_eq]
    cases h : check_entry e a with
    | none => simp only []; rw [if_neg (by simp)]; exact ih e2
    | some b => simp

theorem check_alts_none_iff (dv : LibusbDevice) (e : USBEndpoint) (cfg : ConfigDescriptor)
    (alts : InterfaceDescriptor) :
    check_alts dv e cfg alts = none ↔ ¬ (alt_ok e alts ∧ dv.open_ok = true) := by
  rw [check_alts_eq]
  by_cases h : alt_ok e alts ∧ dv.open_ok = true
  · rw [if_pos h]; simp [h]
  · rw [if_neg h]; simp [h]

theorem check_alts_some_iff (dv : LibusbDevice) (e : USBEndpoint) (cfg : ConfigDescriptor)
    (alts : InterfaceDescriptor) (b : USBDevice) :
    check_alts dv e cfg alts = some b ↔
      (alt_ok e alts ∧ dv.open_ok = true) ∧ b = binding_of dv cfg alts := by
  rw [check_alts_eq]
  by_cases h : alt_ok e alts ∧ dv.open_ok = true
  · rw [if_pos h]
    constructor
    · intro hb; exact ⟨h, (Option.some.inj hb).symm⟩
    · rintro ⟨_, hb⟩; rw [hb]
  · rw [if_neg h]
    constructor
    · intro hb; cases hb
    · rintro ⟨h1, _⟩; exact absurd h1 h

theorem alts_none (dv : LibusbDevice) (e : USBEndpoint) (cfg : ConfigDescriptor)
    (as : List InterfaceDescriptor) :
    check_altsettings dv e cfg as = none ↔
      ∀ (l : Nat) (alts : InterfaceDescriptor), as[l]? = some alts →
        ¬ (alt_ok e alts ∧ dv.open_ok = true) := by
  rw [check_altsettings_eq, findSome_none_iff]
  constructor
  · intro h l alts hl
    exact (check_alts_none_iff dv e cfg alts).mp (h l alts hl)
  · intro h l alts hl
    exact (check_alts_none_iff dv e cfg alts).mpr (h l alts hl)

theorem alts_some (dv : LibusbDevice) (e : USBEndpoint) (cfg : ConfigDescriptor)
    (as : List InterfaceDescriptor) (b : USBDevice) :
    check_altsettings dv e cfg as = some b ↔
      ∃ (l : Nat) (alts : InterfaceDescriptor), as[l]? = some alts ∧
        (alt_ok e alts ∧ dv.open_ok = true) ∧ b = binding_of dv cfg alts ∧
        ∀ (l' : Nat) (alts' : InterfaceDescriptor), as[l']? = some alts' →
          (alt_ok e alts' ∧ dv.open_ok = true) → ¬ l' < l := by
  rw [check_altsettings_eq, findSome_some_iff]
  constructor
  · rintro ⟨l, alts, hl, hf, hmin⟩
    obtain ⟨h1, h2⟩ := (check_alts_some_iff dv e cfg alts b).mp hf
    refine ⟨l, alts, hl, h1, h2, ?_⟩
    intro l' alts' hl' hs hlt
    exact (check_alts_none_iff dv e cfg alts').mp (hmin l' alts' hlt hl') hs
  · rintro ⟨l, alts, hl, h1, h2, hmin⟩
    refine ⟨l, alts, hl, (check_alts_some_iff dv e cfg alts b).mpr ⟨h1, h2⟩, ?_⟩
    intro l' alts' hlt hl'
    exact (check_alts_none_iff dv e cfg alts').mpr (fun hs => hmin l' alts' hl' hs hlt)

theorem intfs_none (dv : LibusbDevice) (e : USBEndpoint) (cfg : ConfigDescriptor)
    (is : List Interface) :
    check_interfaces dv e cfg is = none ↔
      ∀ (k : Nat) (intf : Interface) (l : Nat) (alts : InterfaceDescriptor),
        is[k]? = some intf → intf.altsetting[l]? = some alts →
        ¬ (alt_ok e alts ∧ dv.open_ok = true) := by
  rw [check_interfaces_eq, findSome_none_iff]
  constructor
  · intro h k intf l alts hk hl
    exact (alts_none dv e cfg intf.altsetting).mp (h k intf hk) l alts hl
  · intro h k intf hk
    exact (alts_none dv e cfg intf.altsetting).mpr (fun l alts hl => h k intf l alts hk hl)

theorem intfs_some (dv : LibusbDevice) (e : USBEndpoint) (cfg : ConfigDescriptor)
    (is : List Interface) (b : USBDevice) :
    check_interfaces dv e cfg is = some b ↔
      ∃ (k : Nat) (intf : Interface) (l : Nat) (alts : InterfaceDescriptor),
        is[k]? = some intf ∧ intf.altsetting[l]? = some alts ∧
        (alt_ok e alts ∧ dv.open_ok = true) ∧ b = binding_of dv cfg alts ∧
        ∀ (k' : Nat) (intf' : Interface) (l' : Nat) (alts' : InterfaceDescriptor),
          is[k']? = some intf' → intf'.altsetting[l']? = some alts' →
          (alt_ok e alts' ∧ dv.open_ok = true) → ¬ (k' < k ∨ (k' = k ∧ l' < l)) := by
  rw [check_interfaces_eq, findSome_some_iff]
  constructor
  · rintro ⟨k, intf, hk, hf, hmin⟩
    obtain ⟨l, alts, hl, h1, h2, hm2⟩ := (alts_some dv e cfg intf.altsetting b).mp hf
    refine ⟨k, intf, l, alts, hk, hl, h1, h2, ?_⟩
    intro k' intf' l' alts' hk' hl' hs hlt
    rcases hlt with hlt | ⟨heq, hlt⟩
    · exact (alts_none dv e cfg intf'.altsetting).mp (hmin k' intf' hlt hk') l' alts' hl' hs
    · subst heq
      rw [hk] at hk'
      cases hk'
      exact hm2 l' alts' hl' hs hlt
  · rintro ⟨k, intf, l, alts, hk, hl, h1, h2, hmin⟩
    refine ⟨k, intf, hk, (alts_some dv e cfg intf.altsetting b).mpr
      ⟨l, alts, hl, h1, h2, fun l' alts' hl' hs hlt =>
        hmin k intf l' alts' hk hl' hs (Or.inr ⟨rfl, hlt⟩)⟩, ?_⟩
    intro k' intf' hlt hk'
    exact (alts_none dv e cfg intf'.altsetting).mpr
      (fun l' alts' hl' hs => hmin k' intf' l' alts' hk' hl' hs (Or.inl hlt))

theorem check_config_none (dv : LibusbDevice) (e : USBEndpoint)
    (oc : Option ConfigDescriptor) :
    check_config dv e oc = none ↔
      ∀ cfg, oc = some cfg → cfg_ok e cfg → check_interfaces dv e cfg cfg.interface = none := by
  cases oc with
  | none => simp [check_config]
  | some cfg =>
    unfold check_config
    by_cases h : cfg_ok e cfg
    · simp [h]
    · simp [h]

theorem check_config_some (dv : LibusbDevice) (e : USBEndpoint)
    (oc : Option ConfigDescriptor) (b : USBDevice) :
    check_config dv e oc = some b ↔
      ∃ cfg, oc = some cfg ∧ cfg_ok e cfg ∧
        check_interfaces dv e cfg cfg.interface = some b := by
  cases oc with
  | none => simp [check_config]
  | some cfg =>
    unfold check_config
    by_cases h : cfg_ok e cfg
    · simp [h]
    · simp [h]

theorem cfgs_none (dv : LibusbDevice) (e : USBEndpoint) (cs : List (Option ConfigDescriptor)) :
    check_configs dv e cs = none ↔
      ∀ (j : Nat) (cfg : ConfigDescriptor) (k : Nat) (intf : Interface) (l : Nat)
        (alts : InterfaceDescriptor),
        cs[j]? = some (some cfg) → cfg.interface[k]? = some intf →
        intf.altsetting[l]? = some alts →
        ¬ (cfg_ok e cfg ∧ alt_ok e alts ∧ dv.open_ok = true) := by
  rw [check_configs_eq, findSome_none_iff]
  constructor
  · intro h j cfg k intf l alts hj hk hl hs
    have h1 := (check_config_none dv e (some cfg)).mp (h j (some cfg) hj) cfg rfl hs.1
    exact (intfs_none dv e cfg cfg.interface).mp h1 k intf l alts hk hl hs.2
  · intro h j oc hj
    rw [check_config_none]
    intro cfg hoc hc
    subst hoc
    exact (intfs_none dv e cfg cfg.interface).mpr
      (fun k intf l alts hk hl hs => h j cfg k intf l alts hj hk hl ⟨hc, hs⟩)

theorem cfgs_some (dv : LibusbDevice) (e : USBEndpoint) (cs : List (Option ConfigDescriptor))
    (b : USBDevice) :
    check_configs dv e cs = some b ↔
      ∃ (j : Nat) (cfg : ConfigDescriptor) (k : Nat) (intf : Interface) (l : Nat)
        (alts : InterfaceDescriptor),
        cs[j]? = some (some cfg) ∧ cfg.interface[k]? = some intf ∧
        intf.altsetting[l]? = some alts ∧
        (cfg_ok e cfg ∧ alt_ok e alts ∧ dv.open_ok = true) ∧ b = binding_of dv cfg alts ∧
        ∀ (j' : Nat) (cfg' : ConfigDescriptor) (k' : Nat) (intf' : Interface) (l' : Nat)
          (alts' : InterfaceDescriptor),
          cs[j']? = some (some cfg') → cfg'.interface[k']? = some intf' →
          intf'.altsetting[l']? = some alts' →
          (cfg_ok e cfg' ∧ alt_ok e alts' ∧ dv.open_ok = true) →
          ¬ (j' < j ∨ (j' = j ∧ (k' < k ∨ (k' = k ∧ l' < l)))) := by
  rw [check_configs_eq, findSome_some_iff]
  constructor
  · rintro ⟨j, oc, hj, hf, hmin⟩
    obtain ⟨cfg, hoc, hc, hi⟩ := (check_config_some dv e oc b).mp hf
    subst hoc
    obtain ⟨k, intf, l, alts, hk, hl, h1, h2, hm2⟩ :=
      (intfs_some dv e cfg cfg.interface b).mp hi
    refine ⟨j, cfg, k, intf, l, alts, hj, hk, hl, ⟨hc, h1⟩, h2, ?_⟩
    intro j' cfg' k' intf' l' alts' hj' hk' hl' hs hlt
    rcases hlt with hlt | ⟨heq, hlt⟩
    · have h3 := (check_config_none dv e (some cfg')).mp (hmin j' (some cfg') hlt hj')
        cfg' rfl hs.1
      exact (intfs_none dv e cfg' cfg'.interface).mp h3 k' intf' l' alts' hk' hl' hs.2
    · subst heq
      rw [hj] at hj'
      cases hj'
      exact hm2 k' intf' l' alts' hk' hl' hs.2 hlt
  · rintro ⟨j, cfg, k, intf, l, alts, hj, hk, hl, ⟨hc, h1⟩, h2, hmin⟩
    refine ⟨j, some cfg, hj, (check_config_some dv e (some cfg) b).mpr ⟨cfg, rfl, hc,
      (intfs_some dv e cfg cfg.interface b).mpr ⟨k, intf, l, alts, hk, hl, h1, h2,
        fun k' intf' l' alts' hk' hl' hs hlt =>
          hmin j cfg k' intf' l' alts' hj hk' hl' ⟨hc, hs⟩ (Or.inr ⟨rfl, hlt⟩)⟩⟩, ?_⟩
    intro j' oc' hlt hj'
    rw [check_config_none]
    intro cfg' hoc hc'
    subst hoc
    exact (intfs_none dv e cfg' cfg'.interface).mpr
      (fun k' intf' l' alts' hk' hl' hs =>
        hmin j' cfg' k' intf' l' alts' hj' hk' hl' ⟨hc', hs⟩ (Or.inl hlt))

theorem check_entry_none (e : USBEndpoint) (od : Option LibusbDevice) :
    check_entry e od = none ↔
      ∀ dv, od = some dv →
        (filter_ok dv.bus_number e.bus ∧ filter_ok dv.device_address e.device ∧
          dv.descriptor_ok = true) →
        check_configs dv e dv.config = none := by
  cases od with
  | none => simp [check_entry]
  | some dv =>
    unfold check_entry
    by_cases h : filter_ok dv.bus_number e.bus ∧ filter_ok dv.device_address e.device ∧
        dv.descriptor_ok = true
    · simp only [if_pos h]; simp [h]
    · simp only [if_neg h]
      constructor
      · intro _ dv1 hdv hf
        cases hdv
        exact absurd hf h
      · intro _; trivial

theorem check_entry_some (e : USBEndpoint) (od : Option LibusbDevice) (b : USBDevice) :
    check_entry e od = some b ↔
      ∃ dv, od = some dv ∧
        (filter_ok dv.bus_number e.bus ∧ filter_ok dv.device_address e.device ∧
          dv.descriptor_ok = true) ∧
        check_configs dv e dv.config = some b := by
  cases od with
  | none => simp [check_entry]
  | some dv =>
    unfold check_entry
    by_cases h : filter_ok dv.bus_number e.bus ∧ filter_ok dv.device_address e.device ∧
        dv.descriptor_ok = true
    · simp only [if_pos h]; simp [h]
    · simp only [if_neg h]; simp [h]

theorem Selectable_iff (e : USBEndpoint) (dv : LibusbDevice) (cfg : ConfigDescriptor)
    (alts : InterfaceDescriptor) :
    Selectable e dv cfg alts ↔
      (filter_ok dv.bus_number e.bus ∧ filter_ok dv.device_address e.device ∧
        dv.descriptor_ok = true) ∧ (cfg_ok e cfg ∧ alt_ok e alts ∧ dv.open_ok = true) := by
  unfold Selectable dev_ok
  tauto

theorem devs_none (e : USBEndpoint) (devs : List (Option LibusbDevice)) :
    devs.findSome? (check_entry e) = none ↔
      ∀ (i j k l : Nat) (dv : LibusbDevice) (cfg : ConfigDescriptor)
        (alts : InterfaceDescriptor),
        At devs i j k l dv cfg alts → ¬ Selectable e dv cfg alts := by
  rw [findSome_none_iff]
  constructor
  · rintro h i j k l dv cfg alts ⟨intf, hi, hj, hk, hl⟩ hs
    rw [Selectable_iff] at hs
    have h1 := (check_entry_none e (some dv)).mp (h i (some dv) hi) dv rfl hs.1
    exact (cfgs_none dv e dv.config).mp h1 j cfg k intf l alts hj hk hl hs.2
  · intro h i od hi
    rw [check_entry_none]
    intro dv hod hd
    subst hod
    exact (cfgs_none dv e dv.config).mpr (fun j cfg k intf l alts hj hk hl hs =>
      h i j k l dv cfg alts ⟨intf, hi, hj, hk, hl⟩ ((Selectable_iff e dv cfg alts).mpr ⟨hd, hs⟩))

theorem devs_some (e : USBEndpoint) (devs : List (Option LibusbDevice)) (b : USBDevice) :
    devs.findSome? (check_entry e) = some b ↔
      ∃ (i j k l : Nat) (dv : LibusbDevice) (cfg : ConfigDescriptor)
        (alts : InterfaceDescriptor),
        At devs i j k l dv cfg alts ∧ Selectable e dv cfg alts ∧ b = binding_of dv cfg alts ∧
        ∀ (i' j' k' l' : Nat) (dv' : LibusbDevice) (cfg' : ConfigDescriptor)
          (alts' : InterfaceDescriptor),
          At devs i' j' k' l' dv' cfg' alts' → Selectable e dv' cfg' alts' →
          ¬ lex_lt (i', j', k', l') (i, j, k, l) := by
  rw [findSome_some_iff]
  constructor
  · rintro ⟨i, od, hi, hf, hmin⟩
    obtain ⟨dv, hod, hd, hc⟩ := (check_entry_some e od b).mp hf
    subst hod
    obtain ⟨j, cfg, k, intf, l, alts, hj, hk, hl, hs, hb, hm2⟩ :=
      (cfgs_some dv e dv.config b).mp hc
    refine ⟨i, j, k, l, dv, cfg, alts, ⟨intf, hi, hj, hk, hl⟩,
      (Selectable_iff e dv cfg alts).mpr ⟨hd, hs⟩, hb, ?_⟩
    rintro i' j' k' l' dv' cfg' alts' ⟨intf', hi', hj', hk', hl'⟩ hs' hlt
    rw [Selectable_iff] at hs'
    rcases hlt with hlt | ⟨heq, hlt⟩
    · have h1 := (check_entry_none e (some dv')).mp (hmin i' (some dv') hlt hi') dv' rfl hs'.1
      exact (cfgs_none dv' e dv'.config).mp h1 j' cfg' k' intf' l' alts' hj' hk' hl' hs'.2
    · simp only at heq hlt
      subst heq
      rw [hi] at hi'
      cases hi'
      exact hm2 j' cfg' k' intf' l' alts' hj' hk' hl' hs'.2 hlt
  · rintro ⟨i, j, k, l, dv, cfg, alts, ⟨intf, hi, hj, hk, hl⟩, hs, hb, hmin⟩
    rw [Selectable_iff] at hs
    refine ⟨i, some dv, hi, (check_entry_some e (some dv) b).mpr ⟨dv, rfl, hs.1,
      (cfgs_some dv e dv.config b).mpr ⟨j, cfg, k, intf, l, alts, hj, hk, hl, hs.2, hb,
        fun j' cfg' k' intf' l' alts' hj' hk' hl' hs' hlt =>
          hmin i j' k' l' dv cfg' alts' ⟨intf', hi, hj', hk', hl'⟩
            ((Selectable_iff e dv cfg' alts').mpr ⟨hs.1, hs'⟩) (Or.inr ⟨rfl, hlt⟩)⟩⟩, ?_⟩
    intro i' od' hlt hi'
    rw [check_entry_none]
    intro dv' hod hd'
    subst hod
    exact (cfgs_none dv' e dv'.config).mpr (fun j' cfg' k' intf' l' alts' hj' hk' hl' hs' =>
      hmin i' j' k' l' dv' cfg' alts' ⟨intf', hi', hj', hk', hl'⟩
        ((Selectable_iff e dv' cfg' alts').mpr ⟨hd', hs'⟩) (Or.inl hlt))

/-- C7, amended. detectUSBEndpoint returns the empty binding (dev null) if and only if no
combination (device, configuration, interface, alternate setting) is selectable; otherwise it
returns the binding of the selectable combination that is first in the lexicographic order of
the four indices. Selectable: the device, configuration and alternate setting pass the filter,
the descriptors can be read, the class is HID, a qualifying IN endpoint exists, the last
qualifying OUT endpoint has an address other than 0, and the device can be opened. -/
theorem detect_first_match (e : USBEndpoint) (devs : List (Option LibusbDevice)) :
    ((detectUSBEndpoint devs e).dev = none ↔
      ¬ ∃ (i j k l : Nat) (dv : LibusbDevice) (cfg : ConfigDescriptor)
        (alts : InterfaceDescriptor),
        At devs i j k l dv cfg alts ∧ Selectable e dv cfg alts) ∧
    ((detectUSBEndpoint devs e).dev ≠ none →
      ∃ (i j k l : Nat) (dv : LibusbDevice) (cfg : ConfigDescriptor)
        (alts : InterfaceDescriptor),
        At devs i j k l dv cfg alts ∧ Selectable e dv cfg alts ∧
        detectUSBEndpoint devs e = binding_of dv cfg alts ∧
        ∀ (i' j' k' l' : Nat) (dv' : LibusbDevice) (cfg' : ConfigDescriptor)
          (alts' : InterfaceDescriptor),
          At devs i' j' k' l' dv' cfg' alts' → Selectable e dv' cfg' alts' →
          ¬ lex_lt (i', j', k', l') (i, j, k, l)) := by
  unfold detectUSBEndpoint
  rw [detect_loop_eq]
  cases h : devs.findSome? (check_entry e) with
  | none =>
    have h1 := (devs_none e devs).mp h
    refine ⟨⟨fun _ => ?_, fun _ => rfl⟩, fun hne => absurd rfl hne⟩
    rintro ⟨i, j, k, l, dv, cfg, alts, hat, hs⟩
    exact h1 i j k l dv cfg alts hat hs
  | some b =>
    obtain ⟨i, j, k, l, dv, cfg, alts, hat, hs, hb, hmin⟩ := (devs_some e devs b).mp h
    simp only [Option.getD_some]
    refine ⟨⟨fun h0 => ?_, fun hno => absurd ⟨i, j, k, l, dv, cfg, alts, hat, hs⟩ hno⟩,
      fun _ => ⟨i, j, k, l, dv, cfg, alts, hat, hs, hb, hmin⟩⟩
    rw [hb] at h0
    cases h0

/-- C7 as stated fails: the only OUT endpoint of odd_device is a 64-byte interrupt endpoint
with the address 0x00; the combination (0, 0, 0, 0) qualifies in the words of the claim, yet
detectUSBEndpoint returns the empty binding. -/
theorem detect_rejects_zero_out_address :
    (∃ (i j k l : Nat) (dv : LibusbDevice) (cfg : ConfigDescriptor)
      (alts : InterfaceDescriptor),
      At [some odd_device] i j k l dv cfg alts ∧ Qualifies any_filter dv cfg alts) ∧
    (detectUSBEndpoint [some odd_device] any_filter).dev = none :=
  ⟨⟨0, 0, 0, 0, odd_device, odd_config, odd_alts, ⟨_, rfl, rfl, rfl, rfl⟩, by decide⟩,
   by decide⟩

/-- C8. Whenever check_device returns true, the binding it writes names this device and
comes from one of its configurations, interfaces and alternate settings such that: bus number
and address equal the filter values or the filter value is -1; configuration value,
alternate setting and interface number of the binding are those of the descriptors and equal
the filter values or the filter value is -1; the interface class is HID; recvep is the address
of an endpoint of the alternate setting with the IN bit set, interrupt type and wMaxPacketSize
64; sendep is the address of one with the IN bit clear, interrupt type and wMaxPacketSize 64. -/
theorem check_device_binding (dev : Option LibusbDevice) (e : USBEndpoint) (e2 b : USBDevice)
    (h : check_device dev e e2 = (true, b)) :
    ∃ (dv : LibusbDevice) (cfg : ConfigDescriptor) (intf : Interface)
      (alts : InterfaceDescriptor),
      dev = some dv ∧ b.dev = some dv ∧
      some cfg ∈ dv.config ∧ intf ∈ cfg.interface ∧ alts ∈ intf.altsetting ∧
      ((dv.bus_number : Int) = e.bus ∨ e.bus = -1) ∧
      ((dv.device_address : Int) = e.device ∨ e.device = -1) ∧
      b.config = cfg.bConfigurationValue ∧ (b.config = e.config ∨ e.config = -1) ∧
      b.altsetting = alts.bAlternateSetting ∧
      (b.altsetting = e.altsetting ∨ e.altsetting = -1) ∧
      b.interface = alts.bInterfaceNumber ∧ (b.interface = e.interface ∨ e.interface = -1) ∧
      alts.bInterfaceClass = LIBUSB_CLASS_HID ∧
      (∃ ep ∈ alts.endpoint, b.recvep = ep.bEndpointAddress ∧
        ep.bEndpointAddress &&& LIBUSB_ENDPOINT_IN ≠ 0 ∧
        ep.bmAttributes &&& LIBUSB_TRANSFER_TYPE_MASK = LIBUSB_TRANSFER_TYPE_INTERRUPT ∧
        ep.wMaxPacketSize = 64) ∧
      (∃ ep ∈ alts.endpoint, b.sendep = ep.bEndpointAddress ∧
        ep.bEndpointAddress &&& LIBUSB_ENDPOINT_IN = 0 ∧
        ep.bmAttributes &&& LIBUSB_TRANSFER_TYPE_MASK = LIBUSB_TRANSFER_TYPE_INTERRUPT ∧
        ep.wMaxPacketSize = 64) := by
  rw [check_device_eq] at h
  cases hc : check_entry e dev with
  | none => rw [hc] at h; simp at h
  | some b1 =>
    rw [hc] at h
    simp only [Prod.mk.injEq, true_and] at h
    subst h
    obtain ⟨dv, hod, hd, hcf⟩ := (check_entry_some e dev b1).mp hc
    obtain ⟨j, cfg, k, intf, l, alts, hj, hk, hl, ⟨hcfg, halt, _⟩, hb, _⟩ :=
      (cfgs_some dv e dv.config b1).mp hcf
    obtain ⟨a1, a2, a3, a4, a5⟩ := halt
    have hin : last_address qualifying_in alts.endpoint ≠ 0 := (last_in_ne_zero_iff _).mpr a4
    obtain ⟨ep1, hm1, he1, hq1⟩ := last_address_mem qualifying_in alts.endpoint hin
    obtain ⟨ep2, hm2, he2, hq2⟩ := last_address_mem qualifying_out alts.endpoint a5
    refine ⟨dv, cfg, intf, alts, hod, by rw [hb]; rfl, List.getElem?_mem hj,
      List.getElem?_mem hk, List.getElem?_mem hl, hd.1, hd.2.1, by rw [hb]; rfl, ?_,
      by rw [hb]; rfl, ?_, by rw [hb]; rfl, ?_, a1, ?_, ?_⟩
    · rw [hb]; exact hcfg
    · rw [hb]; exact a2
    · rw [hb]; exact a3
    · exact ⟨ep1, hm1, by rw [hb]; simp [binding_of, he1], hq1.2.1, hq1.2.2, hq1.1⟩
    · exact ⟨ep2, hm2, by rw [hb]; simp [binding_of, he2], hq2.2.1, hq2.2.2, hq2.1⟩


/-- C8 at a concrete input: check_device accepts knx_device; the binding names it. -/
theorem check_device_binding_witness :
    check_device (some knx_device) any_filter USBDevice.unset = (true, knx_binding) ∧
    ∃ dv : LibusbDevice, knx_binding.dev = some dv := by
  obtain ⟨dv, _, _, _, hdev, _⟩ :=
    check_device_binding (some knx_device) any_filter USBDevice.unset knx_binding (by decide)
  exact ⟨by decide, dv, hdev⟩

theorem drain_idle (hw : Hw) (n : Nat) (d : Driver) (hs : d.sendh = false)
    (hr : d.recvh = false) : drain hw n d = Outcome.done d := by
  cases n <;> simp [drain, hs, hr]

theorem stop_pre_idle (d : Driver) (hs : d.sendh = false) (hr : d.recvh = false)
    (hst : d.state.toNat ≤ 2) : stop_pre d = d := by
  unfold stop_pre
  have h2 : State.sClaimed.toNat = 2 := rfl
  simp only [hs, hr, Bool.false_eq_true, if_false]
  rw [if_neg (by omega)]

theorem stop__clean (hw : Hw) (n : Nat) (d : Driver) (hs : d.sendh = false)
    (hr : d.recvh = false) (hst : d.state.toNat ≤ 2) :
    stop_ hw n d = Outcome.done (stop_post d) := by
  unfold stop_ stop_With
  rw [stop_pre_idle d hs hr hst, drain_idle hw n d hs hr]
  rfl

theorem stop_clean (hw : Hw) (n : Nat) (d : Driver) (hs : d.sendh = false)
    (hr : d.recvh = false) (hst : d.state.toNat ≤ 2) :
    stop hw n d = Outcome.done (LowLevelDriver_stop (stop_post d)) := by
  have h := stop__clean hw n d hs hr hst
  unfold stop_ at h
  unfold stop stopWith
  rw [h]
  rfl

/-- C11. Every failure point of start (), from state Idle after setup: start returns with
the state Idle and the calls listed. After a failed open nothing is closed; after a failed
set-configuration or claim-interface the device is closed and nothing is released; after a
failed allocation the interface is released, the kernel driver reattached and the device
closed. After a failed alt-setting select the device is closed but the interface, which
libusb_claim_interface had claimed, is not released. -/
theorem start_failure_paths (hw : Hw) (n : Nat) (d : Driver)
    (hidle : d.state = State.sNone) (hloop : d.loop = true)
    (hsend : d.sendh = false) (hrecv : d.recvh = false) :
    (hw.open_ok = false →
      (start hw n d).returned = true ∧ (start hw n d).driver.state = State.sNone ∧
      (start hw n d).driver.trace = d.trace ++
        [Event.libusb_open false, Event.delete_loop, Event.LowLevelDriver_stop]) ∧
    (hw.open_ok = true → hw.config_ok = false →
      (start hw n d).returned = true ∧ (start hw n d).driver.state = State.sNone ∧
      (start hw n d).driver.trace = d.trace ++
        [Event.libusb_open true, Event.libusb_unref_device, Event.libusb_detach_kernel_driver,
         Event.libusb_set_configuration false,
         Event.libusb_close, Event.delete_loop, Event.LowLevelDriver_stop]) ∧
    (hw.open_ok = true → hw.config_ok = true → hw.claim_ok = false →
      (start hw n d).returned = true ∧ (start hw n d).driver.state = State.sNone ∧
      (start hw n d).driver.trace = d.trace ++
        [Event.libusb_open true, Event.libusb_unref_device, Event.libusb_detach_kernel_driver,
         Event.libusb_set_configuration true, Event.libusb_claim_interface false,
         Event.libusb_close, Event.delete_loop, Event.LowLevelDriver_stop]) ∧
    (hw.open_ok = true → hw.config_ok = true → hw.claim_ok = true →
        hw.altsetting_ok = false →
      (start hw n d).returned = true ∧ (start hw n d).driver.state = State.sNone ∧
      (start hw n d).driver.trace = d.trace ++
        [Event.libusb_open true, Event.libusb_unref_device, Event.libusb_detach_kernel_driver,
         Event.libusb_set_configuration true, Event.libusb_claim_interface true,
         Event.libusb_set_interface_alt_setting false,
         Event.libusb_close, Event.delete_loop, Event.LowLevelDriver_stop]) ∧
    (hw.open_ok = true → hw.config_ok = true → hw.claim_ok = true →
        hw.altsetting_ok = true → hw.alloc_ok = false →
      (start hw n d).returned = true ∧ (start hw n d).driver.state = State.sNone ∧
      (start hw n d).driver.trace = d.trace ++
        [Event.libusb_open true, Event.libusb_unref_device, Event.libusb_detach_kernel_driver,
         Event.libusb_set_configuration true, Event.libusb_claim_interface true,
         Event.libusb_set_interface_alt_setting true, Event.libusb_alloc_transfer false,
         Event.libusb_release_interface, Event.libusb_attach_kernel_driver,
         Event.libusb_close, Event.delete_loop, Event.LowLevelDriver_stop]) := by
  have h0 : ¬ State.sStarted.toNat ≤ State.sNone.toNat := by decide
  refine ⟨?_, ?_, ?_, ?_, ?_⟩
  · intro ho
    unfold start
    simp only [hidle, hloop, ho, h0, if_false, Bool.not_true, Bool.not_false, Bool.false_eq_true,
      if_true]
    rw [stop_clean hw n _ (by exact hsend) (by exact hrecv)
      (by show d.state.toNat ≤ 2; rw [hidle]; decide)]
    simp [Outcome.returned, Outcome.driver, LowLevelDriver_stop, stop_post, reset, assign, emit,
      hidle, hloop, State.toNat]
  · intro ho hc
    unfold start
    simp only [hidle, hloop, ho, hc, h0, if_false, Bool.not_true, Bool.not_false,
      Bool.false_eq_true, if_true]
    rw [stop_clean hw n _ (by exact hsend) (by exact hrecv)
      (by show State.sStarted.toNat ≤ 2; decide)]
    simp [Outcome.returned, Outcome.driver, LowLevelDriver_stop, stop_post, reset, assign, emit,
      hidle, hloop, State.toNat]
  · intro ho hc hcl
    unfold start
    simp only [hidle, hloop, ho, hc, hcl, h0, if_false, Bool.not_true, Bool.not_false,
      Bool.false_eq_true, if_true]
    rw [stop_clean hw n _ (by exact hsend) (by exact hrecv)
      (by show State.sStarted.toNat ≤ 2; decide)]
    simp [Outcome.returned, Outcome.driver, LowLevelDriver_stop, stop_post, reset, assign, emit,
      hidle, hloop, State.toNat]
  · intro ho hc hcl hal
    unfold start
    simp only [hidle, hloop, ho, hc, hcl, hal, h0, if_false, Bool.not_true, Bool.not_false,
      Bool.false_eq_true, if_true]
    rw [stop_clean hw n _ (by exact hsend) (by exact hrecv)
      (by show State.sStarted.toNat ≤ 2; decide)]
    simp [Outcome.returned, Outcome.driver, LowLevelDriver_stop, stop_post, reset, assign, emit,
      hidle, hloop, State.toNat]
  · intro ho hc hcl hal ha
    unfold start
    simp only [hidle, hloop, ho, hc, hcl, hal, ha, h0, if_false, Bool.not_true, Bool.not_false,
      Bool.false_eq_true, if_true]
    rw [stop_clean hw n _ (by exact hsend) (by rfl)
      (by show State.sClaimed.toNat ≤ 2; decide)]
    simp [Outcome.returned, Outcome.driver, LowLevelDriver_stop, stop_post, reset, assign, emit,
      hidle, hloop, State.toNat]

/-- C11 at a concrete input: a fresh driver after setup, the alt-setting select fails;
the interface is claimed and never released. -/
theorem start_failure_paths_witness :
    (start hw_no_alt 1 ready_driver).driver.state = State.sNone ∧
    Event.libusb_claim_interface true ∈ (start hw_no_alt 1 ready_driver).driver.trace ∧
    Event.libusb_release_interface ∉ (start hw_no_alt 1 ready_driver).driver.trace := by
  obtain ⟨_, h2, h3⟩ :=
    (start_failure_paths hw_no_alt 1 ready_driver (by decide) (by decide) (by decide)
      (by decide)).2.2.2.1 (by decide) (by decide) (by decide) (by decide)
  refine ⟨h2, ?_, ?_⟩
  · rw [h3]; simp
  · rw [h3]; decide

/-- C15, amended. A start () from Idle in which open, set-configuration and
claim-interface succeed: when the remaining calls succeed too, the calls are exactly open,
unref, kernel-driver-detach, set-configuration, claim-interface, set-interface-alt-setting,
transfer allocation, receive submission, send_Next, started, in this order, and the state
goes Idle, Started, Claimed, Running; when the alt-setting select fails the state never
becomes Claimed, and when it succeeds and the allocation fails it does. -/
theorem start_call_order (hw : Hw) (n : Nat) (d : Driver)
    (hidle : d.state = State.sNone) (hloop : d.loop = true)
    (hsend : d.sendh = false) (hrecv : d.recvh = false)
    (ho : hw.open_ok = true) (hc : hw.config_ok = true) (hcl : hw.claim_ok = true) :
    (hw.altsetting_ok = true → hw.alloc_ok = true → hw.submit_ok = true →
      (start hw n d).returned = true ∧
      (start hw n d).driver.trace = d.trace ++
        [Event.libusb_open true, Event.libusb_unref_device, Event.libusb_detach_kernel_driver,
         Event.libusb_set_configuration true, Event.libusb_claim_interface true,
         Event.libusb_set_interface_alt_setting true, Event.libusb_alloc_transfer true,
         Event.submit_recv true, Event.LowLevelDriver_send_Next, Event.started] ∧
      (start hw n d).driver.moves = d.moves ++
        [(State.sNone, State.sStarted), (State.sStarted, State.sClaimed),
         (State.sClaimed, State.sRunning)]) ∧
    (hw.altsetting_ok = false →
      (start hw n d).driver.moves = d.moves ++
        [(State.sNone, State.sStarted), (State.sStarted, State.sNone)]) ∧
    (hw.altsetting_ok = true → hw.alloc_ok = false →
      (start hw n d).driver.moves = d.moves ++
        [(State.sNone, State.sStarted), (State.sStarted, State.sClaimed),
         (State.sClaimed, State.sNone)]) := by
  have h0 : ¬ State.sStarted.toNat ≤ State.sNone.toNat := by decide
  refine ⟨?_, ?_, ?_⟩
  · intro hal ha hs
    unfold start
    simp [hidle, hloop, ho, hc, hcl, hal, ha, hs, State.toNat, StartUsbRecvTransfer, emit,
      assign, send_Next, started, LowLevelDriver_send_Next, Outcome.returned, Outcome.driver]
  · intro hal
    unfold start
    simp only [hidle, hloop, ho, hc, hcl, hal, h0, if_false, Bool.not_true, Bool.not_false,
      Bool.false_eq_true, if_true]
    rw [stop_clean hw n _ (by exact hsend) (by exact hrecv)
      (by show State.sStarted.toNat ≤ 2; decide)]
    simp [Outcome.driver, LowLevelDriver_stop, stop_post, reset, assign, emit,
      hidle, hloop, State.toNat]
  · intro hal ha
    unfold start
    simp only [hidle, hloop, ho, hc, hcl, hal, ha, h0, if_false, Bool.not_true, Bool.not_false,
      Bool.false_eq_true, if_true]
    rw [stop_clean hw n _ (by exact hsend) (by rfl)
      (by show State.sClaimed.toNat ≤ 2; decide)]
    simp [Outcome.driver, LowLevelDriver_stop, stop_post, reset, assign, emit,
      hidle, hloop, State.toNat]

/-- C15, amended, at a concrete input: a fresh driver after setup, every call succeeds. -/
theorem start_call_order_witness :
    (start hw_ok 1 ready_driver).returned = true ∧
    (start hw_ok 1 ready_driver).driver.moves = ready_driver.moves ++
      [(State.sNone, State.sStarted), (State.sStarted, State.sClaimed),
       (State.sClaimed, State.sRunning)] := by
  obtain ⟨h1, _, h3⟩ :=
    (start_call_order hw_ok 1 ready_driver (by decide) (by decide) (by decide) (by decide)
      (by decide) (by decide) (by decide)).1 (by decide) (by decide) (by decide)
  exact ⟨h1, h3⟩

/-- C15 as stated fails: in the start () of a freshly set-up driver with every call
succeeding, libusb_detach_kernel_driver is issued before libusb_set_configuration. -/
theorem start_detaches_before_configuring :
    (start hw_ok 1 ready_driver).driver.trace =
      [Event.new_loop true, Event.libusb_open true, Event.libusb_unref_device,
       Event.libusb_detach_kernel_driver, Event.libusb_set_configuration true,
       Event.libusb_claim_interface true, Event.libusb_set_interface_alt_setting true,
       Event.libusb_alloc_transfer true, Event.submit_recv true,
       Event.LowLevelDriver_send_Next, Event.started] ∧
    List.indexOf Event.libusb_detach_kernel_driver (start hw_ok 1 ready_driver).driver.trace <
      List.indexOf (Event.libusb_set_configuration true)
        (start hw_ok 1 ready_driver).driver.trace := by
  decide

theorem stop_post_idle (d : Driver) (hidle : d.state = State.sNone) :
    stop_post d =
      { d with loop := false,
               trace := d.trace ++ (if d.loop then [Event.delete_loop] else []),
               moves := d.moves ++ [(State.sNone, State.sNone)] } := by
  cases d with
  | mk state cs loop dd sendh recvh out sendbuf recvbuf sf rf sc rc trace moves si ri =>
    simp only at hidle
    subst hidle
    cases loop <;> simp [stop_post, reset, assign, emit, State.toNat]

/-- C12, amended. In state Idle with both transfer handles null, stop_ () returns, makes
no hardware call, and changes nothing but the event loop, which it deletes when there is
one (loop becomes null); a second stop_ () changes nothing and makes no call at all. (The
ghost field moves records the assignment state = sNone of reset ().) -/
theorem stop__in_idle (hw : Hw) (n m : Nat) (d : Driver)
    (hidle : d.state = State.sNone) (hsend : d.sendh = false) (hrecv : d.recvh = false) :
    stop_ hw n d = Outcome.done
      { d with loop := false,
               trace := d.trace ++ (if d.loop then [Event.delete_loop] else []),
               moves := d.moves ++ [(State.sNone, State.sNone)] } ∧
    stop_ hw m (stop_ hw n d).driver = Outcome.done
      { (stop_ hw n d).driver with
          moves := (stop_ hw n d).driver.moves ++ [(State.sNone, State.sNone)] } := by
  have h1 : stop_ hw n d = Outcome.done
      { d with loop := false,
               trace := d.trace ++ (if d.loop then [Event.delete_loop] else []),
               moves := d.moves ++ [(State.sNone, State.sNone)] } := by
    rw [stop__clean hw n d hsend hrecv (by rw [hidle]; decide), stop_post_idle d hidle]
  refine ⟨h1, ?_⟩
  rw [h1]
  rw [stop__clean hw m _ (by exact hsend) (by exact hrecv)
    (by show d.state.toNat ≤ 2; rw [hidle]; decide), stop_post_idle _ (by exact hidle)]
  simp [Outcome.driver]

/-- C12, amended, at a concrete input: a freshly set-up driver, stop_ twice. -/
theorem stop__in_idle_witness :
    (stop_ hw_ok 1 ready_driver).driver.loop = false ∧
    (stop_ hw_ok 1 (stop_ hw_ok 1 ready_driver).driver).driver.trace =
      (stop_ hw_ok 1 ready_driver).driver.trace := by
  obtain ⟨h1, h2⟩ := stop__in_idle hw_ok 1 1 ready_driver (by decide) (by decide) (by decide)
  refine ⟨by rw [h1]; rfl, by rw [h2]; rfl⟩

/-- C12 as stated fails: on a freshly set-up driver (Idle, handles null, loop set)
stop_ () deletes the loop: the driver state is not left unchanged, and a start () that
would have reached Running now ends in Idle. -/
theorem stop__deletes_loop :
    ready_driver.state = State.sNone ∧ ready_driver.sendh = false ∧
    ready_driver.recvh = false ∧ ready_driver.loop = true ∧
    (stop_ hw_ok 1 ready_driver).driver.loop = false ∧
    (stop_ hw_ok 1 ready_driver).driver.trace = ready_driver.trace ++ [Event.delete_loop] ∧
    (start hw_ok 1 ready_driver).driver.state = State.sRunning ∧
    (start hw_ok 1 (stop_ hw_ok 1 ready_driver).driver).driver.state = State.sNone := by
  decide

/-- C18, amended. The function do_send never changes out: whenever it submits a send
transfer, out is still the non-empty payload after it returns. The buffer is cleared by
send_Next, which the send callback calls on a successful completion. -/
theorem do_send_keeps_out (hw : Hw) (n : Nat) (d : Driver) :
    (do_send hw d).out = d.out ∧
    (send_submits (do_send hw d).trace = send_submits d.trace + 1 → (do_send hw d).out ≠ []) ∧
    (send_Next d).out = [] ∧
    (CompleteSend hw n Status.COMPLETED d).returned = true ∧
    (CompleteSend hw n Status.COMPLETED d).driver.out = [] := by
  have h1 := do_send_out hw d
  refine ⟨h1, ?_, rfl, rfl, rfl⟩
  intro hs
  rw [h1]
  intro ho
  unfold do_send at hs
  simp [ho] at hs

/-- C18 as stated fails: in a running driver with a pending payload of ten bytes,
do_send submits a send transfer and out still holds the ten bytes afterwards. -/
theorem do_send_out_still_pending :
    send_submits (do_send hw_ok pending_driver).trace =
      send_submits pending_driver.trace + 1 ∧
    (do_send hw_ok pending_driver).out = ten_bytes := by
  decide

/-- C20. A non-empty payload given to send_Data in state Idle while connection_state is
false is stored and not submitted; a following start () in which every call succeeds
returns in state Running with out empty, and no send transfer was submitted. -/
theorem start_drops_pending (hw1 hw : Hw) (n : Nat) (l : List Nat) (d : Driver)
    (hflag : d.connection_state = false) (hempty : d.out = []) (hl : l ≠ [])
    (hidle : d.state = State.sNone) (hloop : d.loop = true)
    (ho : hw.open_ok = true) (hc : hw.config_ok = true) (hcl : hw.claim_ok = true)
    (hal : hw.altsetting_ok = true) (ha : hw.alloc_ok = true) (hs : hw.submit_ok = true) :
    send_Data hw1 l d = { d with out := l } ∧
    (send_Data hw1 l d).out ≠ [] ∧
    send_submits (send_Data hw1 l d).trace = send_submits d.trace ∧
    (start hw n (send_Data hw1 l d)).returned = true ∧
    (start hw n (send_Data hw1 l d)).driver.state = State.sRunning ∧
    (start hw n (send_Data hw1 l d)).driver.out = [] ∧
    send_submits (start hw n (send_Data hw1 l d)).driver.trace = send_submits d.trace := by
  have h1 : send_Data hw1 l d = { d with out := l } := by
    unfold send_Data do_send
    simp [hempty, hflag]
  rw [h1]
  refine ⟨rfl, hl, rfl, ?_⟩
  unfold start
  simp [hidle, hloop, ho, hc, hcl, hal, ha, hs, State.toNat, StartUsbRecvTransfer, emit,
    assign, send_Next, started, LowLevelDriver_send_Next, Outcome.returned, Outcome.driver,
    send_submits, List.countP_append, List.countP_cons]

/-- C20 at a concrete input: a fresh driver after setup is given ten bytes, then started. -/
theorem start_drops_pending_witness :
    (send_Data hw_ok ten_bytes ready_driver).out = ten_bytes ∧
    (start hw_ok 1 (send_Data hw_ok ten_bytes ready_driver)).driver.out = [] ∧
    send_submits (start hw_ok 1 (send_Data hw_ok ten_bytes ready_driver)).driver.trace = 0 := by
  obtain ⟨h1, _, _, _, _, h5, h6⟩ :=
    start_drops_pending hw_ok hw_ok 1 ten_bytes ready_driver (by decide) (by decide)
      (by decide) (by decide) (by decide) (by decide) (by decide) (by decide) (by decide)
      (by decide) (by decide)
  refine ⟨by rw [h1], h5, ?_⟩
  rw [h6]; decide

theorem TraceExt.trace_mono {P Q : Event → Prop} {d1 d2 : Driver}
    (h : TraceExt P d1 d2) (hpq : ∀ ev, P ev → Q ev) : TraceExt Q d1 d2 := by
  obtain ⟨tr, e, p⟩ := h
  exact ⟨tr, e, fun ev hev => hpq ev (p ev hev)⟩

theorem stop_pre_teardown (d : Driver) :
    TraceExt (fun ev => teardown_event ev = true) d (stop_pre d) := by
  unfold stop_pre cancel_send cancel_recv assign emit
  dsimp only []
  split_ifs <;> simp [TraceExt, teardown_event]

theorem stop_post_teardown (d : Driver) :
    TraceExt (fun ev => teardown_event ev = true) d (stop_post d) := by
  unfold stop_post reset assign emit
  dsimp only []
  split_ifs <;> simp [TraceExt, teardown_event]

theorem stop_With_teardown (dr : Driver → Outcome)
    (h : ∀ d, TraceExt (fun ev => teardown_event ev = true) d (dr d).driver) (d : Driver) :
    TraceExt (fun ev => teardown_event ev = true) (stop_pre d) (stop_With dr d).driver := by
  unfold stop_With
  refine TraceExt.trace_andThen (h _) ?_
  intro d1; exact stop_post_teardown d1

theorem stopWith_teardown (dr : Driver → Outcome)
    (h : ∀ d, TraceExt (fun ev => teardown_event ev = true) d (dr d).driver) (d : Driver) :
    TraceExt (fun ev => teardown_event ev = true) (stop_pre d) (stopWith dr d).driver := by
  unfold stopWith
  refine TraceExt.trace_andThen (stop_With_teardown dr h d) ?_
  intro d1; exact ⟨[Event.LowLevelDriver_stop], rfl, by simp [teardown_event]⟩

theorem ev_runWith_teardown (st : Driver → Outcome) (hw : Hw)
    (h : ∀ d, TraceExt (fun ev => teardown_event ev = true) d (st d).driver) (d : Driver) :
    TraceExt (fun ev => teardown_event ev = true) d (ev_runWith st hw d).driver := by
  unfold ev_runWith
  have h0 : TraceExt (fun ev => teardown_event ev = true) d (emit .ev_run d) :=
    ⟨[Event.ev_run], rfl, by simp [teardown_event]⟩
  refine TraceExt.trace_andThen (h0.trace_trans ?_) ?_
  · split
    · unfold CompleteSendWith
      rw [if_pos (by decide)]
      exact (TraceExt.trace_same rfl).trace_trans (h _)
    · exact TraceExt.trace_refl _ _
  · intro d1
    split
    · unfold CompleteReceiveWith
      rw [if_pos (by decide)]
      exact ⟨[Event.free_recv], rfl, by simp [teardown_event]⟩
    · exact TraceExt.trace_refl _ _

theorem drain_teardown (hw : Hw) (n : Nat) :
    ∀ d, TraceExt (fun ev => teardown_event ev = true) d (drain hw n d).driver := by
  induction n with
  | zero =>
    intro d
    unfold drain
    split <;> exact TraceExt.trace_refl _ _
  | succ n ih =>
    intro d
    unfold drain
    split
    · exact TraceExt.trace_andThen
        (ev_runWith_teardown _ hw
          (fun d1 => (stop_pre_teardown d1).trace_trans (stopWith_teardown _ ih d1)) d) ih
    · exact TraceExt.trace_refl _ _

theorem stop_teardown (hw : Hw) (n : Nat) (d : Driver) :
    TraceExt (fun ev => teardown_event ev = true) d (stop hw n d).driver :=
  (stop_pre_teardown d).trace_trans (stopWith_teardown _ (drain_teardown hw n) d)

theorem stop__teardown (hw : Hw) (n : Nat) (d : Driver) :
    TraceExt (fun ev => teardown_event ev = true) d (stop_ hw n d).driver :=
  (stop_pre_teardown d).trace_trans (stop_With_teardown _ (drain_teardown hw n) d)

theorem recv_submits_ext {P : Event → Prop} {d1 d2 : Driver} (h : TraceExt P d1 d2)
    (hp : ∀ ev, P ev → ∀ ok, ev ≠ Event.submit_recv ok) :
    recv_submits d2.trace = recv_submits d1.trace := by
  obtain ⟨tr, e, p⟩ := h
  rw [e]
  unfold recv_submits
  rw [List.countP_append]
  have : List.countP (fun ev => match ev with
    | .submit_recv _ => true
    | _ => false) tr = 0 := by
    rw [List.countP_eq_zero]
    intro ev hev
    have := hp ev (p ev hev)
    cases ev <;> simp at this ⊢
  omega

theorem teardown_event_no_submit (ev : Event) (h : teardown_event ev = true) :
    ∀ ok, ev ≠ Event.submit_recv ok := by
  intro ok he
  subst he
  simp [teardown_event] at h

theorem HandleReceiveUsb_no_submit (hw : Hw) (n : Nat) (d : Driver) :
    TraceExt (fun ev => ∀ ok, ev ≠ Event.submit_recv ok) d (HandleReceiveUsb hw n d).driver := by
  unfold HandleReceiveUsb HandleReceiveUsbWith
  have h0 : TraceExt (fun ev => ∀ ok, ev ≠ Event.submit_recv ok) d
      (emit (Event.recv_Data d.recvbuf) d) := ⟨[Event.recv_Data d.recvbuf], rfl, by simp⟩
  refine h0.trace_trans ?_
  dsimp only []
  split
  · exact TraceExt.trace_refl _ _
  · split
    · split
      · exact ⟨[Event.started], rfl, by simp⟩
      · exact TraceExt.trace_refl _ _
    · split
      · exact (TraceExt.trace_same rfl).trace_trans
          ((stop_teardown hw n _).trace_mono teardown_event_no_submit)
      · exact TraceExt.trace_refl _ _

theorem HandleReceiveUsb_returns (hw : Hw) (n : Nat) (d : Driver)
    (h : ¬ (is_connection_state d.recvbuf = true ∧ get_connection_state d.recvbuf = false ∧
      d.state = State.sConnected)) :
    (HandleReceiveUsb hw n d).returned = true := by
  unfold HandleReceiveUsb HandleReceiveUsbWith
  dsimp only []
  have h1 : (emit (Event.recv_Data d.recvbuf) d).recvbuf = d.recvbuf := rfl
  have h2 : (emit (Event.recv_Data d.recvbuf) d).state = d.state := rfl
  rw [h1, h2]
  cases hs : is_connection_state d.recvbuf <;> cases hb : get_connection_state d.recvbuf <;>
    by_cases hc : d.state = State.sConnected <;> by_cases hr : d.state = State.sRunning <;>
    simp_all [Outcome.returned]

theorem stop_pre_poll (d : Driver) :
    TraceExt (fun ev => poll_event ev = true) d (stop_pre d) := by
  unfold stop_pre cancel_send cancel_recv assign emit
  dsimp only []
  split_ifs <;> simp [TraceExt, poll_event]

/-- While the receive handle is held by a transfer that is no longer in flight, the drain
loop never ends and never releases it: after any number of iterations it is still waiting
with recvh set, and has made no call other than cancel requests and event-loop
iterations. -/
theorem drain_spin_recv (hw : Hw) (n : Nat) :
    ∀ d : Driver, d.recvh = true → d.recv_flying = false → d.state.toNat ≤ 2 →
      ∃ d1, drain hw n d = Outcome.spin d1 ∧ d1.recvh = true ∧ d1.state = d.state ∧
        TraceExt (fun ev => poll_event ev = true) d d1 := by
  induction n with
  | zero =>
    intro d hr _ _
    exact ⟨d, by simp [drain, hr], hr, rfl, TraceExt.trace_refl _ _⟩
  | succ n ih =>
    intro d hr hf hs
    unfold drain
    simp only [hr, Bool.or_true, if_true]
    unfold ev_runWith
    dsimp only []
    have h0 : TraceExt (fun ev => poll_event ev = true) d (emit Event.ev_run d) :=
      ⟨[Event.ev_run], rfl, by simp [poll_event]⟩
    by_cases hc :
        ((emit Event.ev_run d).send_flying && (emit Event.ev_run d).send_cancelling) = true
    · rw [if_pos hc]
      unfold CompleteSendWith
      rw [if_pos (by decide)]
      unfold stopWith stop_With
      generalize hd2 : ({ emit Event.ev_run d with
        send_flying := false, send_cancelling := false,
        sends_in_flight := (emit Event.ev_run d).sends_in_flight - 1 } : Driver) = d2
      have hr2 : d2.recvh = true := by rw [← hd2]; exact hr
      have hf2 : d2.recv_flying = false := by rw [← hd2]; exact hf
      have hs2 : d2.state.toNat ≤ 2 := by rw [← hd2]; exact hs
      have hst2 : d2.state = d.state := by rw [← hd2]; rfl
      have ht2 : TraceExt (fun ev => poll_event ev = true) (emit Event.ev_run d) d2 := by
        rw [← hd2]; exact TraceExt.trace_same rfl
      have hp := stop_pre_recv d2
      have hl := stop_pre_low d2 hs2
      obtain ⟨d1, h1, h2, h3, h4⟩ := ih (stop_pre d2)
        (by rw [hp.1]; exact hr2) (by rw [hp.2]; exact hf2) (by rw [hl.1]; exact hs2)
      refine ⟨d1, ?_, h2, ?_, ?_⟩
      · rw [h1]; rfl
      · rw [h3, hl.1, hst2]
      · exact h0.trace_trans (ht2.trace_trans ((stop_pre_poll d2).trace_trans h4))
    · rw [if_neg hc]
      have hf' : (emit Event.ev_run d).recv_flying = false := hf
      simp only [Outcome.andThen, hf', Bool.false_and, Bool.false_eq_true, if_false]
      obtain ⟨d1, h1, h2, h3, h4⟩ := ih (emit Event.ev_run d) hr hf hs
      exact ⟨d1, h1, h2, h3, h0.trace_trans h4⟩

theorem stop_spins_on_recv (hw : Hw) (n : Nat) (d : Driver) (hr : d.recvh = true)
    (hf : d.recv_flying = false) :
    ∃ d1, stop hw n d = Outcome.spin d1 ∧ d1.recvh = true ∧
      d1.state = (stop_pre d).state ∧
      TraceExt (fun ev => poll_event ev = true) d d1 := by
  have hle : (stop_pre d).state.toNat ≤ 2 := by
    by_cases h : 2 < d.state.toNat
    · rw [(stop_pre_high d h).1]; decide
    · rw [(stop_pre_low d (by omega)).1]; omega
  have hp := stop_pre_recv d
  obtain ⟨d1, h1, h2, h3, h4⟩ := drain_spin_recv hw n (stop_pre d)
    (by rw [hp.1]; exact hr) (by rw [hp.2]; exact hf) hle
  refine ⟨d1, ?_, h2, h3, (stop_pre_poll d).trace_trans h4⟩
  unfold stop stopWith stop_With
  rw [h1]
  rfl

theorem receive_demote_spins (hw : Hw) (n : Nat) (d : Driver)
    (hsig : is_connection_state d.recvbuf = true)
    (hbit : get_connection_state d.recvbuf = false)
    (hcon : d.state = State.sConnected) (hr : d.recvh = true)
    (hf : d.recv_flying = false) :
    ∃ d1 rest, CompleteReceive hw n Status.COMPLETED d = Outcome.spin d1 ∧
      d1.state = State.sClaimed ∧ d1.recvh = true ∧
      d1.trace = d.trace ++ Event.recv_Data d.recvbuf :: rest ∧
      (∀ ev ∈ rest, poll_event ev = true) := by
  unfold CompleteReceive CompleteReceiveWith
  rw [if_neg (by decide), HandleReceiveUsb_demote _ d hsig hbit hcon]
  generalize hd0 : assign State.sRunning (emit (Event.recv_Data d.recvbuf) d) = d0
  have hd0s : d0.state = State.sRunning := by rw [← hd0]; rfl
  have hd0t : d0.trace = d.trace ++ [Event.recv_Data d.recvbuf] := by rw [← hd0]; rfl
  have hd0r : d0.recvh = true := by rw [← hd0]; exact hr
  have hd0f : d0.recv_flying = false := by rw [← hd0]; exact hf
  obtain ⟨d1, h1, h2, h3, rest, h4, h5⟩ := stop_spins_on_recv hw n d0 hd0r hd0f
  refine ⟨d1, rest, ?_, ?_, h2, ?_, h5⟩
  · rw [h1]; rfl
  · rw [h3, (stop_pre_high d0 (by rw [hd0s]; decide)).1]
  · rw [h4, hd0t]; simp

/-- C17, what the code does. The receive callback. With a status other than COMPLETED it
releases the receive transfer and does nothing else. With COMPLETED it handles the frame,
which submits nothing. When the handler returns, a receive transfer is submitted if the
state then is Running or Connected, and otherwise the slot is released and nothing is
submitted. The handler does not return when the frame is a connection-status report with
bit 0 of byte 12 clear and the state is Connected: it calls stop, whose drain loop waits for
recvh, and recvh is the completed transfer that only this callback releases. Then, for every
number n of event-loop iterations, CompleteReceive has not returned, the state is Claimed,
below Running, and the receive slot is still held: it is neither released nor
resubmitted. -/
theorem receive_completion_paths (hw : Hw) (n : Nat) (d : Driver) :
    (∀ status, status ≠ Status.COMPLETED →
      CompleteReceive hw n status d =
        Outcome.done { d with recvh := false, trace := d.trace ++ [Event.free_recv] }) ∧
    recv_submits (HandleReceiveUsb hw n d).driver.trace = recv_submits d.trace ∧
    (¬ (is_connection_state d.recvbuf = true ∧ get_connection_state d.recvbuf = false ∧
        d.state = State.sConnected) → (HandleReceiveUsb hw n d).returned = true) ∧
    (∀ d1, HandleReceiveUsb hw n d = Outcome.done d1 →
      ((d1.state = State.sRunning ∨ d1.state = State.sConnected) →
        CompleteReceive hw n Status.COMPLETED d = Outcome.done (StartUsbRecvTransfer hw d1) ∧
        recv_submits (StartUsbRecvTransfer hw d1).trace = recv_submits d.trace + 1) ∧
      (¬ (d1.state = State.sRunning ∨ d1.state = State.sConnected) →
        (CompleteReceive hw n Status.COMPLETED d).returned = true ∧
        (CompleteReceive hw n Status.COMPLETED d).driver.recvh = false ∧
        recv_submits (CompleteReceive hw n Status.COMPLETED d).driver.trace =
          recv_submits d.trace)) ∧
    (∀ d1, HandleReceiveUsb hw n d = Outcome.spin d1 →
      CompleteReceive hw n Status.COMPLETED d = Outcome.spin d1 ∧
      recv_submits d1.trace = recv_submits d.trace) ∧
    (is_connection_state d.recvbuf = true → get_connection_state d.recvbuf = false →
      d.state = State.sConnected → d.recvh = true → d.recv_flying = false →
      ∃ d1 rest, CompleteReceive hw n Status.COMPLETED d = Outcome.spin d1 ∧
        d1.state = State.sClaimed ∧ d1.recvh = true ∧
        d1.trace = d.trace ++ Event.recv_Data d.recvbuf :: rest ∧
        (∀ ev ∈ rest, poll_event ev = true) ∧
        Event.free_recv ∉ rest ∧ (∀ ok, Event.submit_recv ok ∉ rest)) := by
  have hsub := recv_submits_ext (HandleReceiveUsb_no_submit hw n d) (fun _ h => h)
  have hdef : CompleteReceive hw n Status.COMPLETED d =
      (HandleReceiveUsb hw n d).andThen fun d =>
        if State.sRunning.toNat ≤ d.state.toNat then Outcome.done (StartUsbRecvTransfer hw d)
        else if d.recvh then Outcome.done { emit Event.free_recv d with recvh := false }
        else Outcome.done d := by
    unfold CompleteReceive CompleteReceiveWith HandleReceiveUsb
    rw [if_neg (by decide)]
  refine ⟨?_, hsub, HandleReceiveUsb_returns hw n d, ?_, ?_, ?_⟩
  · intro status hst
    unfold CompleteReceive CompleteReceiveWith
    rw [if_pos hst]
    rfl
  · intro d1 h1
    rw [h1] at hsub
    simp only [Outcome.driver] at hsub
    rw [hdef, h1]
    simp only [Outcome.andThen]
    constructor
    · intro hst
      have h3 : State.sRunning.toNat ≤ d1.state.toNat := by
        rcases hst with h | h
        · rw [h]
        · rw [h]; decide
      rw [if_pos h3]
      refine ⟨rfl, ?_⟩
      rw [← hsub]
      unfold StartUsbRecvTransfer recv_submits
      cases hw.submit_ok <;> simp [emit, stopped, List.countP_append, List.countP_cons]
    · intro hst
      have h3 : ¬ State.sRunning.toNat ≤ d1.state.toNat := by
        cases hs : d1.state <;> simp [hs, State.toNat] at hst ⊢
      rw [if_neg h3]
      cases hr : d1.recvh
      · simp [Outcome.returned, Outcome.driver, hr, hsub]
      · simp [Outcome.returned, Outcome.driver, emit, recv_submits, List.countP_append,
          List.countP_cons] at hsub ⊢
        exact hsub
  · intro d1 h1
    rw [h1] at hsub
    exact ⟨by rw [hdef, h1]; rfl, hsub⟩
  · intro hsig hbit hcon hr hf
    obtain ⟨d1, rest, h1, h2, h3, h4, h5⟩ := receive_demote_spins hw n d hsig hbit hcon hr hf
    refine ⟨d1, rest, h1, h2, h3, h4, h5, ?_, ?_⟩
    · intro hm; have := h5 _ hm; simp [poll_event] at this
    · intro ok hm; have := h5 _ hm; simp [poll_event] at this

/-- C17 at a concrete input: the connected driver receives frame_disconnected; after 7
iterations of the event loop the callback has not returned, the state is Claimed and the
receive transfer is still held, with no release and no new submission. -/
theorem receive_completion_paths_witness :
    step hw_ok 7 (Op.recv_done Status.COMPLETED frame_disconnected) connected_driver =
      CompleteReceive hw_ok 7 Status.COMPLETED demote_driver ∧
    (CompleteReceive hw_ok 7 Status.COMPLETED demote_driver).returned = false ∧
    (CompleteReceive hw_ok 7 Status.COMPLETED demote_driver).driver.state = State.sClaimed ∧
    (CompleteReceive hw_ok 7 Status.COMPLETED demote_driver).driver.recvh = true ∧
    recv_submits (CompleteReceive hw_ok 7 Status.COMPLETED demote_driver).driver.trace =
      recv_submits demote_driver.trace := by
  obtain ⟨d1, rest, h1, h2, h3, h4, h5, _⟩ :=
    (receive_completion_paths hw_ok 7 demote_driver).2.2.2.2.2 (by decide) (by decide)
      (by decide) (by decide) (by decide)
  have hf : connected_driver.recv_flying = true := by decide
  have hb : memcpy connected_driver.recvbuf frame_disconnected
      (min frame_disconnected.length BUFSIZE) = frame_disconnected := by decide
  refine ⟨?_, ?_, ?_, ?_, ?_⟩
  · simp only [step, hf, if_true, hb]
    rfl
  · rw [h1]; rfl
  · rw [h1]; exact h2
  · rw [h1]; exact h3
  · rw [h1]
    exact recv_submits_ext ⟨Event.recv_Data demote_driver.recvbuf :: rest, h4,
      fun ev hev => hev⟩ (fun ev hev ok he => by
        subst he
        rcases List.mem_cons.mp hev with h | h
        · cases h
        · have := h5 _ h; simp [poll_event] at this)

theorem send_cancels_append (t1 t2 : List Event) :
    send_cancels (t1 ++ t2) = send_cancels t1 + send_cancels t2 := by
  unfold send_cancels
  exact List.count_append _ _ _

theorem send_cancels_ext {P : Event → Prop} {d1 d2 : Driver} (h : TraceExt P d1 d2) :
    send_cancels d1.trace ≤ send_cancels d2.trace := by
  obtain ⟨tr, e, _⟩ := h
  rw [e, send_cancels_append]
  omega

theorem stop_pre_cancels (d : Driver) (h : d.sendh = true) :
    send_cancels (stop_pre d).trace = send_cancels d.trace + 1 := by
  unfold stop_pre cancel_send cancel_recv assign emit
  dsimp only []
  split_ifs <;> simp_all [send_cancels, List.count_append, List.count_cons]

theorem stop_cancels (hw : Hw) (n : Nat) (d : Driver) (h : d.sendh = true) :
    send_cancels d.trace < send_cancels (stop hw n d).driver.trace := by
  have h1 := stop_pre_cancels d h
  have h2 := send_cancels_ext (stopWith_teardown (drain hw n) (drain_teardown hw n) d)
  have h3 : stopWith (drain hw n) d = stop hw n d := rfl
  rw [h3] at h2
  omega

theorem stop__cancels (hw : Hw) (n : Nat) (d : Driver) (h : d.sendh = true) :
    send_cancels d.trace < send_cancels (stop_ hw n d).driver.trace := by
  have h1 := stop_pre_cancels d h
  have h2 := send_cancels_ext (stop_With_teardown (drain hw n) (drain_teardown hw n) d)
  have h3 : stop_With (drain hw n) d = stop_ hw n d := rfl
  rw [h3] at h2
  omega

theorem do_send_held (hw : Hw) (d : Driver) (h : d.sendh = true) : do_send hw d = d := by
  unfold do_send
  simp [h]

theorem send_Data_pending (hw : Hw) (l : List Nat) (d : Driver) (h : d.out ≠ []) :
    send_Data hw l d = stopped d := by
  unfold send_Data
  rw [if_pos (List.length_pos.mpr h)]

theorem stop_pre_wait (d : Driver) :
    TraceExt (fun ev => wait_event ev = true) d (stop_pre d) := by
  unfold stop_pre cancel_send cancel_recv assign emit
  dsimp only []
  split_ifs <;> simp [TraceExt, wait_event]

theorem stop_pre_sendh (d : Driver) : (stop_pre d).sendh = d.sendh := by
  unfold stop_pre cancel_send cancel_recv assign emit
  dsimp only []
  split_ifs <;> simp

/-- While the send handle is set, the drain loop never ends: no callback it can run clears
sendh. After any number of iterations it is still waiting and has made no call other than
cancel requests, event-loop iterations and the release of a cancelled receive transfer. -/
theorem drain_spin_send (hw : Hw) (n : Nat) :
    ∀ d : Driver, d.sendh = true →
      ∃ d1, drain hw n d = Outcome.spin d1 ∧ d1.sendh = true ∧
        (d.state.toNat ≤ 2 → d1.state = d.state) ∧
        TraceExt (fun ev => wait_event ev = true) d d1 := by
  induction n with
  | zero =>
    intro d hs
    exact ⟨d, by simp [drain, hs], hs, fun _ => rfl, TraceExt.trace_refl _ _⟩
  | succ n ih =>
    intro d hs
    unfold drain
    simp only [hs, Bool.true_or, if_true]
    unfold ev_runWith
    dsimp only []
    have h0 : TraceExt (fun ev => wait_event ev = true) d (emit Event.ev_run d) :=
      ⟨[Event.ev_run], rfl, by simp [wait_event]⟩
    by_cases hc :
        ((emit Event.ev_run d).send_flying && (emit Event.ev_run d).send_cancelling) = true
    · rw [if_pos hc]
      unfold CompleteSendWith
      rw [if_pos (by decide)]
      unfold stopWith stop_With
      generalize hd2 : ({ emit Event.ev_run d with
        send_flying := false, send_cancelling := false,
        sends_in_flight := (emit Event.ev_run d).sends_in_flight - 1 } : Driver) = d2
      have hs2 : d2.sendh = true := by rw [← hd2]; exact hs
      have hst2 : d2.state = d.state := by rw [← hd2]; rfl
      have ht2 : TraceExt (fun ev => wait_event ev = true) (emit Event.ev_run d) d2 := by
        rw [← hd2]; exact TraceExt.trace_same rfl
      obtain ⟨d1, h1, h2, h3, h4⟩ := ih (stop_pre d2) (by rw [stop_pre_sendh]; exact hs2)
      refine ⟨d1, ?_, h2, ?_, ?_⟩
      · rw [h1]; rfl
      · intro hle
        have hl := stop_pre_low d2 (by rw [hst2]; exact hle)
        rw [h3 (by rw [hl.1, hst2]; exact hle), hl.1, hst2]
      · exact h0.trace_trans (ht2.trace_trans ((stop_pre_wait d2).trace_trans h4))
    · rw [if_neg hc]
      simp only [Outcome.andThen]
      by_cases hr :
          ((emit Event.ev_run d).recv_flying && (emit Event.ev_run d).recv_cancelling) = true
      · rw [if_pos hr]
        unfold CompleteReceiveWith
        rw [if_pos (by decide)]
        simp only []
        generalize hd3 : ({ emit Event.free_recv
          ({ emit Event.ev_run d with
            recv_flying := false, recv_cancelling := false,
            recvs_in_flight := (emit Event.ev_run d).recvs_in_flight - 1 } : Driver) with
          recvh := false } : Driver) = d3
        have hs3 : d3.sendh = true := by rw [← hd3]; exact hs
        have hst3 : d3.state = d.state := by rw [← hd3]; rfl
        have ht3 : TraceExt (fun ev => wait_event ev = true) d d3 := by
          rw [← hd3]
          exact ⟨[Event.ev_run, Event.free_recv], by simp [emit], by simp [wait_event]⟩
        obtain ⟨d1, h1, h2, h3, h4⟩ := ih d3 hs3
        refine ⟨d1, h1, h2, ?_, ht3.trace_trans h4⟩
        intro hle
        rw [h3 (by rw [hst3]; exact hle), hst3]
      · rw [if_neg hr]
        obtain ⟨d1, h1, h2, h3, h4⟩ := ih (emit Event.ev_run d) hs
        exact ⟨d1, h1, h2, h3, h0.trace_trans h4⟩

theorem stop_spins_on_send (hw : Hw) (n : Nat) (d : Driver) (hs : d.sendh = true) :
    ∃ d1, stop hw n d = Outcome.spin d1 ∧ d1.sendh = true ∧
      d1.state = (stop_pre d).state ∧
      TraceExt (fun ev => wait_event ev = true) (stop_pre d) d1 := by
  have hle : (stop_pre d).state.toNat ≤ 2 := by
    by_cases h : 2 < d.state.toNat
    · rw [(stop_pre_high d h).1]; decide
    · rw [(stop_pre_low d (by omega)).1]; omega
  obtain ⟨d1, h1, h2, h3, h4⟩ := drain_spin_send hw n (stop_pre d)
    (by rw [stop_pre_sendh]; exact hs)
  refine ⟨d1, ?_, h2, h3 hle, h4⟩
  unfold stop stopWith stop_With
  rw [h1]
  rfl

theorem stop__spins_on_send (hw : Hw) (n : Nat) (d : Driver) (hs : d.sendh = true) :
    ∃ d1, stop_ hw n d = Outcome.spin d1 ∧ d1.sendh = true := by
  obtain ⟨d1, h1, h2, _⟩ := drain_spin_send hw n (stop_pre d)
    (by rw [stop_pre_sendh]; exact hs)
  refine ⟨d1, ?_, h2⟩
  unfold stop_ stop_With
  rw [h1]
  rfl

theorem stuck_CompleteReceive (hw : Hw) (n : Nat) (status : Status) (d : Driver)
    (h : Stuck d) (ho : d.state ≠ State.sNone) :
    (∃ d1, CompleteReceive hw n status d = Outcome.done d1 ∧ Stuck d1 ∧
      d1.state ≠ State.sNone ∧ send_cancels d1.trace = send_cancels d.trace) ∨
    (∃ d1, CompleteReceive hw n status d = Outcome.spin d1 ∧ d1.sendh = true ∧
      send_cancels d.trace < send_cancels d1.trace) := by
  obtain ⟨hs, hf, hout⟩ := h
  have fin : ∀ d0 : Driver, d0.sendh = true → d0.send_flying = false → d0.out = d.out →
      d0.state ≠ State.sNone → send_cancels d0.trace = send_cancels d.trace →
      ∃ d1, (if State.sRunning.toNat ≤ d0.state.toNat then
            Outcome.done (StartUsbRecvTransfer hw d0)
          else if d0.recvh then Outcome.done { emit Event.free_recv d0 with recvh := false }
          else Outcome.done d0) = Outcome.done d1 ∧ Stuck d1 ∧
        d1.state ≠ State.sNone ∧ send_cancels d1.trace = send_cancels d.trace := by
    intro d0 e1 e2 e3 e4 e5
    split
    · refine ⟨_, rfl, ?_, ?_, ?_⟩
      · unfold StartUsbRecvTransfer; dsimp only []
        split <;> exact ⟨e1, e2, by show d0.out ≠ []; rw [e3]; exact hout⟩
      · unfold StartUsbRecvTransfer; dsimp only []
        split <;> exact e4
      · rw [← e5]
        unfold StartUsbRecvTransfer; dsimp only []
        split <;> simp [stopped, emit, send_cancels_append, send_cancels]
    · split
      · refine ⟨_, rfl, ⟨e1, e2, by show d0.out ≠ []; rw [e3]; exact hout⟩, e4, ?_⟩
        rw [← e5]
        simp [emit, send_cancels_append, send_cancels]
      · exact ⟨_, rfl, ⟨e1, e2, by rw [e3]; exact hout⟩, e4, e5⟩
  unfold CompleteReceive CompleteReceiveWith
  split
  · left
    refine ⟨_, rfl, ⟨hs, hf, hout⟩, ho, ?_⟩
    simp [emit, send_cancels_append, send_cancels]
  · unfold HandleReceiveUsbWith
    dsimp only []
    have ht : send_cancels (emit (Event.recv_Data d.recvbuf) d).trace =
        send_cancels d.trace := by
      simp [emit, send_cancels_append, send_cancels]
    split
    · left
      simp only [Outcome.andThen]
      exact fin _ hs hf rfl ho ht
    · split
      · split
        · left
          simp only [Outcome.andThen]
          exact fin _ hs hf rfl (by simp [LowLevelDriver_start, started, emit, assign])
            (by simp [LowLevelDriver_start, started, emit, assign, send_cancels_append,
              send_cancels])
        · left
          simp only [Outcome.andThen]
          exact fin _ hs hf rfl ho ht
      · split
        · right
          generalize hd0 : assign State.sRunning (emit (Event.recv_Data d.recvbuf) d) = d0
          have hs0 : d0.sendh = true := by rw [← hd0]; exact hs
          have ht0 : send_cancels d0.trace = send_cancels d.trace := by rw [← hd0]; exact ht
          obtain ⟨d1, h1, h2, _⟩ := stop_spins_on_send hw n d0 hs0
          have hc := stop_cancels hw n d0 hs0
          rw [h1] at hc ⊢
          exact ⟨d1, rfl, h2, by rw [← ht0]; exact hc⟩
        · left
          simp only [Outcome.andThen]
          exact fin _ hs hf rfl ho ht

theorem stuck_step (hw : Hw) (n : Nat) (op : Op) (d : Driver)
    (h : Stuck d) (ho : d.state ≠ State.sNone) :
    (∃ d1, step hw n op d = Outcome.done d1 ∧ Stuck d1 ∧
      d1.state ≠ State.sNone ∧ send_cancels d1.trace = send_cancels d.trace) ∨
    (∃ d1, step hw n op d = Outcome.spin d1 ∧ d1.sendh = true ∧
      send_cancels d.trace < send_cancels d1.trace) := by
  have hs := h.1
  have hf := h.2.1
  have hloop : ∀ d0 : Driver, d0.sendh = true →
      send_cancels d0.trace = send_cancels d.trace →
      ∃ d1, stop_ hw n d0 = Outcome.spin d1 ∧ d1.sendh = true ∧
        send_cancels d.trace < send_cancels d1.trace := by
    intro d0 e1 e2
    obtain ⟨d1, h1, h2⟩ := stop__spins_on_send hw n d0 e1
    have hc := stop__cancels hw n d0 e1
    rw [h1] at hc
    exact ⟨d1, h1, h2, by rw [← e2]; exact hc⟩
  cases op with
  | setup c devs e =>
    simp only [step]
    unfold setup
    dsimp only []
    have ht : send_cancels (emit (Event.new_loop c) { d with loop := true }).trace =
        send_cancels d.trace := by
      simp [emit, send_cancels_append, send_cancels]
    split
    · right; exact hloop _ hs ht
    · split
      · right; exact hloop _ hs ht
      · left; exact ⟨_, rfl, h, ho, ht⟩
  | start =>
    simp only [step]
    unfold start
    have h1 : State.sStarted.toNat ≤ d.state.toNat := by
      cases hst : d.state <;> simp [hst, State.toNat] at ho ⊢
    rw [if_pos h1]
    left; exact ⟨d, rfl, h, ho, rfl⟩
  | stop =>
    right
    simp only [step]
    obtain ⟨d1, h1, h2, _⟩ := stop_spins_on_send hw n d hs
    have hc := stop_cancels hw n d hs
    rw [h1] at hc
    exact ⟨d1, h1, h2, hc⟩
  | send_Data l =>
    left
    simp only [step]
    rw [send_Data_pending hw l d h.2.2]
    exact ⟨_, rfl, h, ho, by simp [stopped, emit, send_cancels_append, send_cancels]⟩
  | send_done status =>
    simp only [step, hf]
    left; exact ⟨d, rfl, h, ho, rfl⟩
  | recv_done status frame =>
    simp only [step]
    split
    · exact stuck_CompleteReceive hw n status _ h ho
    · left; exact ⟨d, rfl, h, ho, rfl⟩

theorem stuck_run (ops : List (Hw × Nat × Op)) :
    ∀ d : Driver, Stuck d → d.state ≠ State.sNone →
      (∃ d1, run ops d = Outcome.done d1 ∧ Stuck d1 ∧
        d1.state ≠ State.sNone ∧ send_cancels d1.trace = send_cancels d.trace) ∨
      (∃ d1, run ops d = Outcome.spin d1 ∧ d1.sendh = true ∧
        send_cancels d.trace < send_cancels d1.trace) := by
  induction ops with
  | nil => intro d h ho; left; exact ⟨d, rfl, h, ho, rfl⟩
  | cons x rest ih =>
    intro d h ho
    obtain ⟨hw, n, op⟩ := x
    unfold run
    rcases stuck_step hw n op d h ho with ⟨d1, h1, h2, h3, h4⟩ | ⟨d1, h1, h2, h3⟩
    · rw [h1]
      simp only [Outcome.andThen]
      rcases ih d1 h2 h3 with ⟨d2, k1, k2, k3, k4⟩ | ⟨d2, k1, k2, k3⟩
      · left; exact ⟨d2, k1, k2, k3, by rw [k4, h4]⟩
      · right; exact ⟨d2, k1, k2, by rw [← h4]; exact k3⟩
    · right
      rw [h1]
      exact ⟨d1, rfl, h2, h3⟩

/-- C19. When the guard of do_send holds and libusb_submit_transfer fails, do_send
returns with sendh set, out unchanged and non-empty and no transfer in flight. When this
happens with the device open (state other than Idle), every run of later operations ends in
one of two ways. Either no teardown has begun (no cancel request for the send transfer was
made): then the run has returned, sendh is still set and out still non-empty, so every
do_send is a no-op and every send_Data is rejected with a stopped notification. Or a
teardown has begun: then the run has not returned, and sendh is still set. -/
theorem send_submit_failure (hw : Hw) (d : Driver) (hguard : do_send_guard d = true)
    (hfly : d.send_flying = false) (ha : hw.alloc_ok = true) (hs : hw.submit_ok = false) :
    (do_send hw d).sendh = true ∧ (do_send hw d).out = d.out ∧ d.out ≠ [] ∧
    (do_send hw d).send_flying = false ∧
    (do_send hw d).sends_in_flight = d.sends_in_flight ∧
    (d.state ≠ State.sNone → ∀ ops : List (Hw × Nat × Op),
      (∃ d1, run ops (do_send hw d) = Outcome.done d1 ∧
        send_cancels d1.trace = send_cancels (do_send hw d).trace ∧
        d1.sendh = true ∧ d1.send_flying = false ∧ d1.out ≠ [] ∧
        d1.state ≠ State.sNone ∧
        (∀ hw2 : Hw, do_send hw2 d1 = d1) ∧
        (∀ (hw2 : Hw) (l : List Nat),
          send_Data hw2 l d1 = { d1 with trace := d1.trace ++ [Event.stopped] })) ∨
      (∃ d1, run ops (do_send hw d) = Outcome.spin d1 ∧ d1.sendh = true ∧
        send_cancels (do_send hw d).trace < send_cancels d1.trace)) := by
  have hne : d.out ≠ [] := by
    intro h0
    simp [do_send_guard, h0] at hguard
  have hval : do_send hw d =
      { d with sendbuf := build_frame d.out, sendh := true,
               trace := d.trace ++ [Event.libusb_alloc_transfer true,
                 Event.submit_send (build_frame d.out) false] } := by
    unfold do_send_guard at hguard
    simp only [Bool.not_eq_true'] at hguard
    unfold do_send
    rw [if_neg (by simp [hguard])]
    simp [emit, ha, hs]
  refine ⟨by rw [hval], by rw [hval], hne, by rw [hval]; exact hfly, by rw [hval], ?_⟩
  intro hopen ops
  have hst : Stuck (do_send hw d) := by rw [hval]; exact ⟨rfl, hfly, hne⟩
  have hop : (do_send hw d).state ≠ State.sNone := by rw [hval]; exact hopen
  rcases stuck_run ops (do_send hw d) hst hop with ⟨d1, h1, h2, h3, h4⟩ | ⟨d1, h1, h2, h3⟩
  · left
    refine ⟨d1, h1, h4, h2.1, h2.2.1, h2.2.2, h3, fun hw2 => do_send_held hw2 d1 h2.1, ?_⟩
    intro hw2 l
    rw [send_Data_pending hw2 l d1 h2.2.2]
    rfl
  · right
    exact ⟨d1, h1, h2, h3⟩

/-- C19 at a concrete input: in the running driver with ten bytes pending the submission
fails; a send_Data and a heartbeat follow. The run returns with sendh set and the ten bytes
still pending, and a further send_Data is rejected. -/
theorem send_submit_failure_witness :
    (run jam_ops jammed_driver).returned = true ∧
    (run jam_ops jammed_driver).driver.sendh = true ∧
    (run jam_ops jammed_driver).driver.out ≠ [] ∧
    send_Data hw_ok [0x42] (run jam_ops jammed_driver).driver =
      { (run jam_ops jammed_driver).driver with
          trace := (run jam_ops jammed_driver).driver.trace ++ [Event.stopped] } := by
  have hret : (run jam_ops jammed_driver).returned = true := by decide
  rcases (send_submit_failure hw_no_submit pending_driver (by decide) (by decide)
      (by decide) (by decide)).2.2.2.2.2 (by decide) jam_ops with
    ⟨d1, h1, _, h3, _, h5, _, _, h8⟩ | ⟨d1, h1, _⟩
  · have e : run jam_ops jammed_driver = Outcome.done d1 := h1
    rw [e]
    exact ⟨rfl, h3, h5, h8 hw_ok [0x42]⟩
  · have e : run jam_ops jammed_driver = Outcome.spin d1 := h1
    rw [e] at hret
    cases hret

/-- C13. Teardown in state Running or Connected with a send and a receive transfer held:
for every number of event-loop iterations, stop () cancels both transfers and then does
not return: the state stays Claimed, sendh stays set, and nothing but cancel requests,
event-loop iterations and the release of the receive transfer happens; the interface is
not released and the device is not closed. -/
theorem teardown_spins_on_send (hw : Hw) (n : Nat) (d : Driver)
    (hstate : d.state = State.sRunning ∨ d.state = State.sConnected)
    (hsend : d.sendh = true) (hrecv : d.recvh = true) :
    ∃ d1 rest, stop hw n d = Outcome.spin d1 ∧
      d1.state = State.sClaimed ∧ d1.sendh = true ∧
      d1.trace = d.trace ++ Event.cancel_send :: Event.cancel_recv :: rest ∧
      (∀ ev ∈ rest, wait_event ev = true) ∧
      Event.libusb_release_interface ∉ rest ∧ Event.libusb_attach_kernel_driver ∉ rest ∧
      Event.libusb_close ∉ rest := by
  obtain ⟨d1, h1, h2, h3, rest, h4, h5⟩ := stop_spins_on_send hw n d hsend
  have hhigh : 2 < d.state.toNat := by
    rcases hstate with h | h <;> rw [h] <;> decide
  have htr : (stop_pre d).trace = d.trace ++ [Event.cancel_send, Event.cancel_recv] := by
    unfold stop_pre cancel_send cancel_recv assign emit
    simp [hsend, hrecv]
    split <;> simp
  refine ⟨d1, rest, h1, by rw [h3, (stop_pre_high d hhigh).1], h2, ?_, h5, ?_, ?_, ?_⟩
  · rw [h4, htr]; simp
  · intro hm; have := h5 _ hm; simp [wait_event] at this
  · intro hm; have := h5 _ hm; simp [wait_event] at this
  · intro hm; have := h5 _ hm; simp [wait_event] at this

/-- C13 at a concrete input: the running driver with a send transfer in flight is stopped;
after 9 iterations of the event loop stop () has not returned. -/
theorem teardown_spins_on_send_witness :
    (stop hw_ok 9 sending_driver).returned = false ∧
    (stop hw_ok 9 sending_driver).driver.state = State.sClaimed := by
  obtain ⟨d1, rest, h1, h2, _⟩ :=
    teardown_spins_on_send hw_ok 9 sending_driver (Or.inl (by decide)) (by decide) (by decide)
  rw [h1]; exact ⟨rfl, h2⟩

/-- C16. A send completion with a status other than COMPLETED, for every driver holding
the send transfer and every number of event-loop iterations: CompleteSend does not return;
sendh stays set, the state is demoted to Claimed at most, the send transfer is never
released, the device is not closed, and nothing is resubmitted. -/
theorem send_failure_spins (hw : Hw) (n : Nat) (status : Status) (d : Driver)
    (hsend : d.sendh = true) (hstatus : status ≠ Status.COMPLETED) :
    ∃ d1 rest, CompleteSend hw n status d = Outcome.spin d1 ∧
      d1.sendh = true ∧
      d1.state = (if State.sClaimed.toNat < d.state.toNat then State.sClaimed else d.state) ∧
      d1.trace = d.trace ++ rest ∧ (∀ ev ∈ rest, wait_event ev = true) ∧
      Event.free_send ∉ rest ∧ Event.libusb_close ∉ rest ∧
      (∀ f ok, Event.submit_send f ok ∉ rest) := by
  obtain ⟨d1, h1, h2, h3, h4⟩ := stop_spins_on_send hw n d hsend
  obtain ⟨rest, h5, h6⟩ := (stop_pre_wait d).trace_trans h4
  refine ⟨d1, rest, ?_, h2, ?_, h5, h6, ?_, ?_, ?_⟩
  · unfold CompleteSend CompleteSendWith
    rw [if_pos hstatus]
    exact h1
  · rw [h3]
    by_cases h : 2 < d.state.toNat
    · rw [(stop_pre_high d h).1, if_pos (by exact h)]
    · rw [(stop_pre_low d (by omega)).1, if_neg (by exact h)]
  · intro hm; have := h6 _ hm; simp [wait_event] at this
  · intro hm; have := h6 _ hm; simp [wait_event] at this
  · intro f ok hm; have := h6 _ hm; simp [wait_event] at this

/-- C16 at a concrete input: the send transfer of sending_driver completes with TIMED_OUT;
after 5 iterations of the event loop the callback has not returned. -/
theorem send_failure_spins_witness :
    step hw_ok 5 (Op.send_done Status.TIMED_OUT) sending_driver =
      CompleteSend hw_ok 5 Status.TIMED_OUT expired_driver ∧
    (CompleteSend hw_ok 5 Status.TIMED_OUT expired_driver).returned = false ∧
    (CompleteSend hw_ok 5 Status.TIMED_OUT expired_driver).driver.sendh = true := by
  obtain ⟨d1, rest, h1, h2, _⟩ :=
    send_failure_spins hw_ok 5 Status.TIMED_OUT expired_driver (by decide) (by decide)
  have hf : sending_driver.send_flying = true := by decide
  refine ⟨?_, ?_, ?_⟩
  · simp only [step, hf, if_true]
    rfl
  · rw [h1]; rfl
  · rw [h1]; exact h2

theorem Inv_congr {d d1 : Driver} (h : Inv d)
    (e1 : d1.sends_in_flight = d.sends_in_flight) (e2 : d1.send_flying = d.send_flying)
    (e3 : d1.recvs_in_flight = d.recvs_in_flight) (e4 : d1.recv_flying = d.recv_flying)
    (e5 : d1.sendh = d.sendh) (e6 : d1.recvh = d.recvh) (e7 : d1.state = d.state) : Inv d1 := by
  unfold Inv at h ⊢
  rw [e1, e2, e3, e4, e5, e6, e7]
  exact h

theorem Inv_init : Inv Driver.init := by
  unfold Inv Driver.init
  simp

theorem Inv_do_send (hw : Hw) (d : Driver) (h : Inv d) : Inv (do_send hw d) := by
  unfold do_send
  split
  · exact h
  · rename_i hg
    simp only [Bool.or_eq_true, not_or, Bool.not_eq_true] at hg
    obtain ⟨⟨hs, _⟩, _⟩ := hg
    obtain ⟨h1, h2, h3, h4, h5⟩ := h
    have hf : d.send_flying = false := by
      cases hfl : d.send_flying
      · rfl
      · rw [h3 hfl] at hs; cases hs
    rw [hf] at h1
    unfold Inv
    cases ha : hw.alloc_ok <;> cases hsb : hw.submit_ok <;>
      simp_all [emit]

theorem Inv_send_Data (hw : Hw) (l : List Nat) (d : Driver) (h : Inv d) :
    Inv (send_Data hw l d) := by
  unfold send_Data
  split
  · exact Inv_congr h rfl rfl rfl rfl rfl rfl rfl
  · exact Inv_do_send hw _ (Inv_congr h rfl rfl rfl rfl rfl rfl rfl)

theorem Inv_StartUsbRecvTransfer (hw : Hw) (d : Driver) (h : Inv d)
    (hf : d.recv_flying = false) (hr : d.recvh = true) (hst : d.state ≠ State.sNone) :
    Inv (StartUsbRecvTransfer hw d) := by
  unfold StartUsbRecvTransfer
  dsimp only []
  split
  · exact Inv_congr h rfl rfl rfl rfl rfl rfl rfl
  · obtain ⟨h1, h2, h3, h4, h5⟩ := h
    unfold Inv
    simp_all [emit]

theorem Inv_stop_pre (d : Driver) (h : Inv d) : Inv (stop_pre d) := by
  obtain ⟨h1, h2, h3, h4, h5⟩ := h
  unfold stop_pre cancel_send cancel_recv assign emit Inv
  dsimp only []
  split_ifs <;> simp_all

theorem Inv_stop_post (d : Driver) (h : Inv d) (hr : d.recvh = false) :
    Inv (stop_post d) ∧ (stop_post d).state = State.sNone := by
  obtain ⟨h1, h2, h3, h4, h5⟩ := h
  have hf : d.recv_flying = false := by
    cases hfl : d.recv_flying
    · rfl
    · rw [h4 hfl] at hr; cases hr
  unfold stop_post reset assign emit Inv
  dsimp only []
  split_ifs <;> simp_all

theorem stop_With_ok (dr : Driver → Outcome) (h : DrainOK dr) : StopOK (stop_With dr) := by
  intro d hd
  unfold stop_With
  obtain ⟨h1, h2⟩ := h (stop_pre d) (Inv_stop_pre d hd)
  cases ho : dr (stop_pre d) with
  | spin d1 =>
    rw [ho] at h1
    exact ⟨h1, fun d2 e => by cases e⟩
  | done d1 =>
    rw [ho] at h1
    have hp := Inv_stop_post d1 h1 (h2 d1 ho).2
    refine ⟨hp.1, fun d2 e => ?_⟩
    simp only [Outcome.andThen, Outcome.done.injEq] at e
    rw [← e]; exact hp.2

theorem stopWith_ok (dr : Driver → Outcome) (h : DrainOK dr) : StopOK (stopWith dr) := by
  intro d hd
  unfold stopWith
  obtain ⟨h1, h2⟩ := stop_With_ok dr h d hd
  cases ho : stop_With dr d with
  | spin d1 =>
    rw [ho] at h1
    exact ⟨h1, fun d2 e => by cases e⟩
  | done d1 =>
    rw [ho] at h1
    refine ⟨Inv_congr h1 rfl rfl rfl rfl rfl rfl rfl, fun d2 e => ?_⟩
    simp only [Outcome.andThen, Outcome.done.injEq] at e
    rw [← e]; exact h2 d1 ho

theorem Inv_ev_runWith (st : Driver → Outcome) (hw : Hw) (h : StopOK st) (d : Driver)
    (hd : Inv d) : Inv (ev_runWith st hw d).driver := by
  unfold ev_runWith
  dsimp only []
  have key : ∀ d1 : Driver, Inv d1 →
      Inv (if (d1.recv_flying && d1.recv_cancelling) = true then
        CompleteReceiveWith st hw Status.CANCELLED
          { d1 with recv_flying := false, recv_cancelling := false,
                    recvs_in_flight := d1.recvs_in_flight - 1 }
        else Outcome.done d1).driver := by
    intro d1 h1
    split
    · rename_i hc
      unfold CompleteReceiveWith
      rw [if_pos (by decide)]
      obtain ⟨a1, a2, a3, a4, a5⟩ := h1
      unfold Inv
      simp_all [emit, Outcome.driver]
    · exact h1
  by_cases hc : ((emit Event.ev_run d).send_flying && (emit Event.ev_run d).send_cancelling) = true
  · rw [if_pos hc]
    unfold CompleteSendWith
    rw [if_pos (by decide)]
    have hd2 : Inv ({ emit Event.ev_run d with
        send_flying := false, send_cancelling := false,
        sends_in_flight := (emit Event.ev_run d).sends_in_flight - 1 } : Driver) := by
      obtain ⟨a1, a2, a3, a4, a5⟩ := hd
      unfold Inv
      simp_all [emit]
    obtain ⟨h1, _⟩ := h _ hd2
    cases ho : st ({ emit Event.ev_run d with
        send_flying := false, send_cancelling := false,
        sends_in_flight := (emit Event.ev_run d).sends_in_flight - 1 } : Driver) with
    | spin d1 => rw [ho] at h1; exact h1
    | done d1 => rw [ho] at h1; exact key d1 h1
  · rw [if_neg hc]
    exact key _ (Inv_congr hd rfl rfl rfl rfl rfl rfl rfl)

theorem drain_ok (hw : Hw) (n : Nat) : DrainOK (drain hw n) := by
  induction n with
  | zero =>
    intro d hd
    unfold drain
    split
    · exact ⟨hd, fun d1 e => by cases e⟩
    · rename_i hb
      refine ⟨hd, fun d1 e => ?_⟩
      simp only [Outcome.done.injEq] at e
      subst e
      simpa using hb
  | succ n ih =>
    intro d hd
    unfold drain
    split
    · have h1 := Inv_ev_runWith _ hw (stopWith_ok _ ih) d hd
      cases ho : ev_runWith (stopWith (drain hw n)) hw d with
      | spin d1 =>
        rw [ho] at h1
        exact ⟨h1, fun d2 e => by cases e⟩
      | done d1 =>
        rw [ho] at h1
        exact ih d1 h1
    · rename_i hb
      refine ⟨hd, fun d1 e => ?_⟩
      simp only [Outcome.done.injEq] at e
      subst e
      simpa using hb

theorem stop_ok (hw : Hw) (n : Nat) : StopOK (stop hw n) := stopWith_ok _ (drain_ok hw n)

theorem stop__ok (hw : Hw) (n : Nat) : StopOK (stop_ hw n) := stop_With_ok _ (drain_ok hw n)

theorem Inv_CompleteSendWith (st : Driver → Outcome) (h : StopOK st) (status : Status)
    (d : Driver) (hd : Inv d) (hf : d.send_flying = false) :
    Inv (CompleteSendWith st status d).driver := by
  unfold CompleteSendWith
  split
  · exact (h d hd).1
  · obtain ⟨a1, a2, a3, a4, a5⟩ := hd
    unfold Inv
    simp_all [emit, send_Next, LowLevelDriver_send_Next, Outcome.driver]

theorem Inv_HandleReceiveUsbWith (st : Driver → Outcome) (h : StopOK st) (d : Driver)
    (hd : Inv d) (hf : d.recv_flying = false) (hr : d.recvh = true) :
    Inv (HandleReceiveUsbWith st d).driver ∧
    ∀ d1, HandleReceiveUsbWith st d = Outcome.done d1 →
      d1.recv_flying = false ∧ (State.sRunning.toNat ≤ d1.state.toNat → d1.recvh = true) := by
  unfold HandleReceiveUsbWith
  dsimp only []
  have hsame : ∀ d2 : Driver, d2.sends_in_flight = d.sends_in_flight →
      d2.send_flying = d.send_flying → d2.recvs_in_flight = d.recvs_in_flight →
      d2.recv_flying = d.recv_flying → d2.sendh = d.sendh → d2.recvh = d.recvh →
      d2.state = d.state →
      Inv (Outcome.done d2).driver ∧
      ∀ d1, Outcome.done d2 = Outcome.done d1 →
        d1.recv_flying = false ∧ (State.sRunning.toNat ≤ d1.state.toNat → d1.recvh = true) := by
    intro d2 e1 e2 e3 e4 e5 e6 e7
    refine ⟨Inv_congr hd e1 e2 e3 e4 e5 e6 e7, fun d1 e => ?_⟩
    simp only [Outcome.done.injEq] at e
    subst e
    exact ⟨by rw [e4]; exact hf, fun _ => by rw [e6]; exact hr⟩
  split
  · exact hsame _ rfl rfl rfl rfl rfl rfl rfl
  · split
    · split
      · refine ⟨?_, fun d1 e => ?_⟩
        · obtain ⟨a1, a2, a3, a4, a5⟩ := hd
          unfold Inv
          simp_all [emit, assign, LowLevelDriver_start, started, Outcome.driver]
        · simp only [Outcome.done.injEq] at e
          subst e
          exact ⟨hf, fun _ => hr⟩
      · exact hsame _ rfl rfl rfl rfl rfl rfl rfl
    · split
      · have hd2 : Inv (assign State.sRunning (emit (Event.recv_Data d.recvbuf) d)) := by
          obtain ⟨a1, a2, a3, a4, a5⟩ := hd
          unfold Inv
          simp_all [emit, assign]
        obtain ⟨h1, h2⟩ := h _ hd2
        refine ⟨h1, fun d1 e => ?_⟩
        have hst := h2 d1 e
        rw [e] at h1
        refine ⟨h1.2.2.2.2 hst, fun hle => ?_⟩
        rw [hst] at hle
        exact absurd hle (by decide)
      · exact hsame _ rfl rfl rfl rfl rfl rfl rfl

theorem Inv_CompleteReceiveWith (st : Driver → Outcome) (h : StopOK st) (hw : Hw)
    (status : Status) (d : Driver) (hd : Inv d) (hf : d.recv_flying = false)
    (hr : d.recvh = true) : Inv (CompleteReceiveWith st hw status d).driver := by
  unfold CompleteReceiveWith
  split
  · obtain ⟨a1, a2, a3, a4, a5⟩ := hd
    unfold Inv
    simp_all [emit, Outcome.driver]
  · obtain ⟨h1, h2⟩ := Inv_HandleReceiveUsbWith st h d hd hf hr
    cases ho : HandleReceiveUsbWith st d with
    | spin d1 => rw [ho] at h1; exact h1
    | done d1 =>
      rw [ho] at h1
      obtain ⟨hf1, hr1⟩ := h2 d1 ho
      simp only [Outcome.andThen]
      split
      · rename_i hle
        refine Inv_StartUsbRecvTransfer hw d1 h1 hf1 (hr1 hle) ?_
        intro hst
        rw [hst] at hle
        exact absurd hle (by decide)
      · split
        · obtain ⟨a1, a2, a3, a4, a5⟩ := h1
          unfold Inv
          simp_all [emit, Outcome.driver]
        · exact h1

theorem Inv_start (hw : Hw) (n : Nat) (d : Driver) (hd : Inv d) :
    Inv (start hw n d).driver := by
  unfold start
  dsimp only []
  split
  · exact hd
  · rename_i h0
    have hst : d.state = State.sNone := by
      cases hs : d.state <;> simp [hs, State.toNat] at h0 ⊢
    have hf : d.recv_flying = false := hd.2.2.2.2 hst
    obtain ⟨a1, a2, a3, a4, a5⟩ := hd
    split
    · exact (stop_ok hw n d ⟨a1, a2, a3, a4, a5⟩).1
    · split
      · refine (stop_ok hw n _ ?_).1
        exact Inv_congr ⟨a1, a2, a3, a4, a5⟩ rfl rfl rfl rfl rfl rfl rfl
      · split
        · refine (stop_ok hw n _ ?_).1
          unfold Inv
          simp_all [emit, assign]
        · split
          · refine (stop_ok hw n _ ?_).1
            unfold Inv
            simp_all [emit, assign]
          · split
            · refine (stop_ok hw n _ ?_).1
              unfold Inv
              simp_all [emit, assign]
            · split
              · refine (stop_ok hw n _ ?_).1
                unfold Inv
                simp_all [emit, assign]
              · rename_i hal
                unfold StartUsbRecvTransfer
                dsimp only []
                unfold Inv
                split <;>
                  simp_all [emit, assign, stopped, started, send_Next, LowLevelDriver_send_Next,
                    Outcome.driver]

theorem Inv_setup (hw : Hw) (n : Nat) (c : Bool) (devs : List (Option LibusbDevice))
    (e : USBEndpoint) (d : Driver) (hd : Inv d) : Inv (setup hw n c devs e d).driver := by
  unfold setup
  dsimp only []
  split
  · refine (stop__ok hw n _ ?_).1
    exact Inv_congr hd rfl rfl rfl rfl rfl rfl rfl
  · split
    · refine (stop__ok hw n _ ?_).1
      exact Inv_congr hd rfl rfl rfl rfl rfl rfl rfl
    · exact Inv_congr hd rfl rfl rfl rfl rfl rfl rfl

theorem Inv_step (hw : Hw) (n : Nat) (op : Op) (d : Driver) (hd : Inv d) :
    Inv (step hw n op d).driver := by
  cases op with
  | setup c devs e => exact Inv_setup hw n c devs e d hd
  | start => exact Inv_start hw n d hd
  | stop => exact (stop_ok hw n d hd).1
  | send_Data l => exact Inv_send_Data hw l d hd
  | send_done status =>
    simp only [step]
    split
    · rename_i hfl
      refine Inv_CompleteSendWith _ (stop_ok hw n) status _ ?_ rfl
      obtain ⟨a1, a2, a3, a4, a5⟩ := hd
      unfold Inv
      simp_all
    · exact hd
  | recv_done status frame =>
    simp only [step]
    split
    · rename_i hfl
      refine Inv_CompleteReceiveWith _ (stop_ok hw n) hw status _ ?_ rfl (hd.2.2.2.1 hfl)
      obtain ⟨a1, a2, a3, a4, a5⟩ := hd
      unfold Inv
      simp_all
    · exact hd

theorem Inv_run (ops : List (Hw × Nat × Op)) : ∀ d, Inv d → Inv (run ops d).driver := by
  induction ops with
  | nil => intro d hd; exact hd
  | cons x rest ih =>
    intro d hd
    obtain ⟨hw, n, op⟩ := x
    unfold run
    have h1 := Inv_step hw n op d hd
    cases ho : step hw n op d with
    | spin d1 => rw [ho] at h1; exact h1
    | done d1 => rw [ho] at h1; exact ih d1 h1

theorem CompleteSend_no_submit (hw : Hw) (n : Nat) (status : Status) (d : Driver) :
    recv_submits (CompleteSend hw n status d).driver.trace = recv_submits d.trace := by
  unfold CompleteSend CompleteSendWith
  split
  · exact recv_submits_ext (stop_teardown hw n d) teardown_event_no_submit
  · simp [Outcome.driver, send_Next, LowLevelDriver_send_Next, emit, recv_submits,
      List.countP_append, List.countP_cons]

theorem send_Data_no_submit (hw : Hw) (l : List Nat) (d : Driver) :
    recv_submits (send_Data hw l d).trace = recv_submits d.trace := by
  unfold send_Data do_send stopped emit
  dsimp only []
  split_ifs <;> simp [recv_submits, List.countP_append, List.countP_cons]

theorem setup_no_submit (hw : Hw) (n : Nat) (c : Bool) (devs : List (Option LibusbDevice))
    (e : USBEndpoint) (d : Driver) :
    recv_submits (setup hw n c devs e d).driver.trace = recv_submits d.trace := by
  have h0 : ∀ d1 : Driver, d1.trace = d.trace ++ [Event.new_loop c] →
      recv_submits d1.trace = recv_submits d.trace := by
    intro d1 h1
    rw [h1]
    simp [recv_submits, List.countP_append, List.countP_cons]
  unfold setup
  dsimp only []
  split
  · rw [recv_submits_ext (stop__teardown hw n _) teardown_event_no_submit]
    exact h0 _ rfl
  · split
    · rw [recv_submits_ext (stop__teardown hw n _) teardown_event_no_submit]
      exact h0 _ rfl
    · exact h0 _ rfl

theorem step_no_submit (hw : Hw) (n : Nat) (op : Op) (d : Driver) (hs : op ≠ Op.start)
    (hr : ∀ status frame, op ≠ Op.recv_done status frame) :
    recv_submits (step hw n op d).driver.trace = recv_submits d.trace := by
  cases op with
  | setup c devs e => exact setup_no_submit hw n c devs e d
  | start => exact absurd rfl hs
  | stop => exact recv_submits_ext (stop_teardown hw n d) teardown_event_no_submit
  | send_Data l => exact send_Data_no_submit hw l d
  | send_done status =>
    simp only [step]
    split
    · rw [CompleteSend_no_submit]
    · rfl
  | recv_done status frame => exact absurd rfl (hr status frame)

/-- C14. In every state reached from the initial driver by a run of operations (setup,
start, stop, send_Data and the two completion callbacks), at most one send transfer and at
most one receive transfer is submitted and not yet completed; do_send allocates nothing
while the send handle is set; and a receive transfer is submitted only by start (), which
does so only from Idle, and by the receive callback. -/
theorem transfers_at_most_one (ops : List (Hw × Nat × Op)) :
    (run ops Driver.init).driver.sends_in_flight ≤ 1 ∧
    (run ops Driver.init).driver.recvs_in_flight ≤ 1 ∧
    ((run ops Driver.init).driver.sends_in_flight = 1 ↔
      (run ops Driver.init).driver.send_flying = true) ∧
    ((run ops Driver.init).driver.recvs_in_flight = 1 ↔
      (run ops Driver.init).driver.recv_flying = true) ∧
    (∀ (hw : Hw) (d : Driver), d.sendh = true → do_send hw d = d) ∧
    (∀ (hw : Hw) (n : Nat) (op : Op) (d : Driver), op ≠ Op.start →
      (∀ status frame, op ≠ Op.recv_done status frame) →
      recv_submits (step hw n op d).driver.trace = recv_submits d.trace) ∧
    (∀ (hw : Hw) (n : Nat) (d : Driver), d.state ≠ State.sNone →
      start hw n d = Outcome.done d) := by
  obtain ⟨h1, h2, _⟩ := Inv_run ops Driver.init Inv_init
  refine ⟨?_, ?_, ?_, ?_, do_send_held, step_no_submit, ?_⟩
  · rw [h1]; split <;> simp
  · rw [h2]; split <;> simp
  · rw [h1]; cases (run ops Driver.init).driver.send_flying <;> simp
  · rw [h2]; cases (run ops Driver.init).driver.recv_flying <;> simp
  · intro hw n d hd
    unfold start
    rw [if_pos]
    cases hs : d.state <;> simp [hs, State.toNat] at hd ⊢

end UsbLowLevel
